import Mathlib

/-!
# StreamManager event state machine

A shallow embedding of `src/src/StreamManager.cpp`: the constructor's default
state and the per-result handler of `StreamManager::run` (the body of the
`for (auto& result : results)` loop), together with the one-worker frame loop.

* Every `std::vector` read `v[i]` / `v.back()` is a fallible read: the handler
  returns `none` where the C++ reads out of bounds.
* Bot messages, API calls, debug image saves and `deck.draw` calls are collected
  in order in a list of `Effect`s.
* `int` counters (`passedFrames`, `currentCard`, `winsLosses`) are integers; the
  counters are assumed far from the 32-bit range.
-/

namespace hs

/-! ## Bit masks -/

/-- Modelled from the spec: the `enable(x, y)` helper of StreamManager.h (not under src/)
arms the bits `y` in the mask `x`. -/
def enable (state bits : Nat) : Nat := state ||| bits

/-- Modelled from the spec: the `disable(x, y)` helper of StreamManager.h (not under src/)
disarms the bits `y` in the mask `x`, that is `x & ~y`, computed on naturals as
`x xor (x & y)`. -/
def disable (state bits : Nat) : Nat := state ^^^ (state &&& bits)

/-- The C++ condition `(state & bit)`: true when the result is non-zero. -/
def armed (state bit : Nat) : Bool := (state &&& bit) != 0

/-- The single-bit mask with bit `i` set. -/
def kindBit (i : Nat) : Nat := 2 ^ i

/-- Modelled from the spec: the recognizer-kind identifiers of Recognizer.h (not under
src/), section 4.3. Line 159 of the source ORs the three state masks into one
recognizer mask, so every kind is a distinct single bit; they are numbered in the
order of the enumeration. -/
def RECOGNIZER_DRAFT_CLASS_PICK : Nat := kindBit 0
/-- Modelled from the spec: recognizer kind `DRAFT_CARD_PICK` (Recognizer.h, not under src/). -/
def RECOGNIZER_DRAFT_CARD_PICK : Nat := kindBit 1
/-- Modelled from the spec: recognizer kind `DRAFT_CARD_CHOSEN` (Recognizer.h, not under src/). -/
def RECOGNIZER_DRAFT_CARD_CHOSEN : Nat := kindBit 2
/-- Modelled from the spec: recognizer kind `GAME_CLASS_SHOW` (Recognizer.h, not under src/). -/
def RECOGNIZER_GAME_CLASS_SHOW : Nat := kindBit 3
/-- Modelled from the spec: recognizer kind `GAME_COIN` (Recognizer.h, not under src/). -/
def RECOGNIZER_GAME_COIN : Nat := kindBit 4
/-- Modelled from the spec: recognizer kind `GAME_END` (Recognizer.h, not under src/). -/
def RECOGNIZER_GAME_END : Nat := kindBit 5
/-- Modelled from the spec: recognizer kind `GAME_DRAW_INIT_1` (Recognizer.h, not under src/). -/
def RECOGNIZER_GAME_DRAW_INIT_1 : Nat := kindBit 6
/-- Modelled from the spec: recognizer kind `GAME_DRAW_INIT_2` (Recognizer.h, not under src/). -/
def RECOGNIZER_GAME_DRAW_INIT_2 : Nat := kindBit 7
/-- Modelled from the spec: recognizer kind `GAME_DRAW` (Recognizer.h, not under src/). -/
def RECOGNIZER_GAME_DRAW : Nat := kindBit 8

/-! ## Data model -/

/-- A card of the database: integer id and display name. -/
structure Card where
  id : Int
  name : String
deriving DecidableEq, Repr

/-- A hero of the database: display name. -/
structure Hero where
  name : String
deriving DecidableEq, Repr

/-- An entry of `pickHistory`: a known card or the unknown sentinel. -/
inductive Pick where
  | known (c : Card)
  | unknown
deriving DecidableEq, Repr

/-- One offer of the draft: the triple of cards passed to `addSet`. -/
structure CardSet where
  first : Card
  second : Card
  third : Card
deriving DecidableEq, Repr

/-- The read `set[i]` of an offer; `none` outside `0..2`. -/
def CardSet.card (s : CardSet) (i : Int) : Option Card :=
  if i = 0 then some s.first
  else if i = 1 then some s.second
  else if i = 2 then some s.third
  else none

/-- Modelled from the spec: the Deck class (Deck.h / Deck.cpp are not under src/),
section 3: hero class, offers, picks and per-card draw counts. -/
structure Deck where
  heroClass : String
  setHistory : List CardSet
  pickHistory : List Pick
  drawCounts : List (Int × Nat)
deriving DecidableEq, Repr

/-- Modelled from the spec: a freshly constructed Deck (Deck.cpp is not under src/) is empty. -/
def Deck.empty : Deck :=
  { heroClass := "", setHistory := [], pickHistory := [], drawCounts := [] }

/-- Modelled from the spec: `Deck::clear` (not under src/) empties all histories and
draw counts and clears the hero class. -/
def Deck.clear (_d : Deck) : Deck := Deck.empty

/-- Modelled from the spec: `Deck::addSet` (not under src/) appends a triple to `setHistory`. -/
def Deck.addSet (d : Deck) (a b c : Card) : Deck :=
  { d with setHistory := d.setHistory ++ [CardSet.mk a b c] }

/-- Modelled from the spec: `Deck::addPickedCard` (not under src/) appends the card to
`pickHistory`. -/
def Deck.addPickedCard (d : Deck) (c : Card) : Deck :=
  { d with pickHistory := d.pickHistory ++ [Pick.known c] }

/-- Modelled from the spec: `Deck::addUnknownPick` (not under src/) appends the sentinel to
`pickHistory`. -/
def Deck.addUnknownPick (d : Deck) : Deck :=
  { d with pickHistory := d.pickHistory ++ [Pick.unknown] }

/-- Modelled from the spec: `Deck::isComplete` (not under src/) is true iff
`|pickHistory| = 30`. -/
def Deck.isComplete (d : Deck) : Bool := d.pickHistory.length == 30

/-- Modelled from the spec: `Deck::resetDraws` (not under src/) zeroes all draw counts. -/
def Deck.resetDraws (d : Deck) : Deck :=
  { d with drawCounts := d.drawCounts.map (fun e => (e.1, 0)) }

/-- Increment of the draw count of one card id. -/
def bumpCount : List (Int × Nat) → Int → List (Int × Nat)
  | [], k => [(k, 1)]
  | e :: rest, k => if e.1 = k then (e.1, e.2 + 1) :: rest else e :: bumpCount rest k

/-- Modelled from the spec: `Deck::draw` (not under src/) increments the draw count; if
`buildFromDraws` and the card is not in the deck it adds it, and it returns whether
the deck was modified. -/
def Deck.draw (d : Deck) (c : Card) (buildFromDraws : Bool) : Deck × Bool :=
  let d1 := { d with drawCounts := bumpCount d.drawCounts c.id }
  if buildFromDraws && !(d.pickHistory.contains (Pick.known c)) then
    ({ d1 with pickHistory := d1.pickHistory ++ [Pick.known c] }, true)
  else (d1, false)

/-- The draft bookkeeping `deckInfo`: last announced deck message and the draft mask. -/
structure DeckInfo where
  msg : String
  state : Nat
deriving DecidableEq, Repr

/-- Modelled from the spec: `deckInfo.clear()` (declared in StreamManager.h, not under
src/) clears the DraftInfo, which is the message; the mask is a separate bitset. -/
def DeckInfo.clear (d : DeckInfo) : DeckInfo := { d with msg := "" }

/-- The per-game bookkeeping `gameInfo`. -/
structure GameInfo where
  player : String
  opponent : String
  fs : String
  end_ : String
  state : Nat
deriving DecidableEq, Repr

/-- The draw bookkeeping `drawInfo`. -/
structure DrawInfo where
  initialDraw : List Int
  latestDraw : Int
  state : Nat
deriving DecidableEq, Repr

/-- A recognition result: the recognizer kind and its integer values. -/
structure RecognitionResult where
  sourceRecognizer : Nat
  results : List Int
deriving DecidableEq, Repr

/-- The mutable members of the StreamManager. `pollCalls` counts the calls made to the
strawpoll service so far (the service is the stream `Env.createStrawpoll`). -/
structure State where
  deck : Deck
  deckInfo : DeckInfo
  gameInfo : GameInfo
  drawInfo : DrawInfo
  internalState : Nat
  shouldUpdateDeck : Bool
  passedFrames : Int
  currentCard : Int × Int
  winsLosses : Int × Int
  param_debug_level : Nat
  pollCalls : Nat
deriving DecidableEq, Repr

/-- What the handler does to the outside, in order. `draw` records a call
`deck.draw(card, buildFromDraws)`, `createStrawpoll` one attempt to create a poll
(`SystemInterface::createStrawpoll`, line 194). -/
inductive Effect where
  | message (text : String)
  | messageDelayed (text : String) (delay : Int)
  | repeat_message (text : String) (count span offset : Int)
  | callAPI (format : String) (args : List String)
  | saveImage (name : String)
  | draw (c : Card) (buildFromDraws : Bool)
  | createStrawpoll (question : String) (options : List String)
deriving DecidableEq, Repr

/-- The constants, message formats, configuration values and external services the
source uses and that are declared elsewhere (StreamManager.h, Recognizer.h, Config,
Database, SystemInterface); they are parameters of the embedding. The database
lookups `db->cards[k]`, `db->heroes[k]` are total (ids are valid). -/
structure Env where
  cards : Int → Card
  heroes : Int → Hero
  sName : String
  PASSED_FRAMES_THRESHOLD : Int
  PASSED_CARD_RECOGNITIONS : Int
  MSG_CLASS_POLL_ERROR_RETRY_COUNT : Int
  RESULT_GAME_COIN_FIRST : Int
  RESULT_GAME_END_VICTORY : Int
  INTERNAL_ENABLE_ALL : Nat
  INTERNAL_SCORING : Nat
  INTERNAL_APICALLING : Nat
  INTERNAL_STRAWPOLLING : Nat
  INTERNAL_DRAWHANDLING : Nat
  INTERNAL_BUILDFROMDRAWS : Nat
  MSG_CLASS_POLL : String → String
  MSG_CLASS_POLL_ERROR : Int → String
  MSG_CLASS_POLL_VOTE : String → String → String
  MSG_CLASS_POLL_VOTE_REPEAT : String → String
  MSG_CLASS_POLL_ERROR_GIVEUP : String
  MSG_GAME_START : String → String → String → String
  MSG_GAME_END : String → String
  CMD_DECK_FORMAT : String → String → String → String
  submitDeckFormat : String
  drawCardFormat : String
  resetDrawsFormat : String
  createStrawpoll : Nat → String → List String → String
  createImgur : String → String
  createHastebin : String → String
  createImageRepresentation : Deck → String
  createTextRepresentation : Deck → String
  createInternalRepresentation : Deck → String
  fillFromInternalRepresentation : Deck → String → Deck
  time : String
  debugging_enabled : Bool
  debug_level : Nat
  uninit_latestDraw : Int

/-! ## Helpers of the handler -/

/-- The read `v[i]` of a vector at a `size_t` index computed as an integer; `none` when
out of bounds. -/
def vecAt {α : Type} (v : List α) (i : Int) : Option α :=
  if i < 0 then none else v[i.toNat]?

/-- The format `"%03d"`: zero-padded decimal of width 3, the sign counted in the width. -/
def fmt03d (n : Int) : String :=
  let digits := toString n.natAbs
  if n < 0 then "-" ++ "".pushn '0' (2 - digits.length) ++ digits
  else "".pushn '0' (3 - digits.length) ++ digits

/-- Lines 351-355: `createDeckURLs`. -/
def createDeckURLs (env : Env) (deck : Deck) : String :=
  let deckImage := env.createImgur (env.createImageRepresentation deck)
  let deckString := env.createHastebin (env.createTextRepresentation deck)
  env.CMD_DECK_FORMAT env.sName deckImage deckString

/-- Lines 193-204: the strawpoll retry loop from iteration `i`, given the number of calls
made to the service so far; returns `success`, the number of calls the loop made and
the effects (each attempt, then the messages it causes).
The fuel is the number of iterations left at most. -/
def pollLoop (env : Env) (classNames : List String) : Nat → Int → Nat → Bool × Nat × List Effect
  | _, _, 0 => (false, 0, [])
  | calls, i, fuel + 1 =>
    if i ≤ env.MSG_CLASS_POLL_ERROR_RETRY_COUNT then
      let strawpoll := env.createStrawpoll calls (env.MSG_CLASS_POLL env.sName) classNames
      if strawpoll.isEmpty then
        let rest := pollLoop env classNames (calls + 1) (i + 1) fuel
        (rest.1, rest.2.1 + 1,
          Effect.createStrawpoll (env.MSG_CLASS_POLL env.sName) classNames
            :: Effect.message
                (env.MSG_CLASS_POLL_ERROR (env.MSG_CLASS_POLL_ERROR_RETRY_COUNT - i))
            :: rest.2.2)
      else
        (true, 1,
          [Effect.createStrawpoll (env.MSG_CLASS_POLL env.sName) classNames,
           Effect.message (env.MSG_CLASS_POLL_VOTE env.sName strawpoll),
           Effect.repeat_message (env.MSG_CLASS_POLL_VOTE_REPEAT strawpoll) 5 25 7,
           Effect.messageDelayed "!suboff" 120])
    else (false, 0, [])

/-- Lines 177-210: the `DRAFT_CLASS_PICK` handler. The log line 182 reads
`result.results[0..2]`. -/
def handleDraftClassPick (env : Env) (s : State) (result : RecognitionResult) :
    Option (State × List Effect) := do
  let deck := s.deck.clear
  let deckInfo0 := s.deckInfo.clear
  let deckInfo1 := { deckInfo0 with state := disable deckInfo0.state RECOGNIZER_DRAFT_CLASS_PICK }
  let deckInfo2 := { deckInfo1 with state := enable deckInfo1.state RECOGNIZER_DRAFT_CARD_PICK }
  let _ ← result.results[0]?
  let _ ← result.results[1]?
  let _ ← result.results[2]?
  let s1 := { s with deck := deck, deckInfo := deckInfo2, winsLosses := (0, 0) }
  if armed s.internalState env.INTERNAL_STRAWPOLLING then
    let classNames := result.results.map (fun r => (env.heroes r).name)
    let loop := pollLoop env classNames s.pollCalls 0
      (env.MSG_CLASS_POLL_ERROR_RETRY_COUNT + 1).toNat
    let giveup := if !loop.1 then [Effect.message env.MSG_CLASS_POLL_ERROR_GIVEUP] else []
    some ({ s1 with pollCalls := s.pollCalls + loop.2.1 },
      [Effect.message "!score -arena", Effect.message "!subon"] ++ loop.2.2 ++ giveup)
  else
    some (s1, [Effect.message "!score -arena"])

/-- Lines 214-217: the comparison loop of the `DRAFT_CARD_PICK` handler over the
remaining `result.results` from index `i`, with the current value of `isNew`. -/
def isNewLoop (deck : Deck) (last : Int) : List Int → Int → Bool → Option Bool
  | [], _, isNew => some isNew
  | r :: rest, i, isNew =>
    if isNew then some isNew
    else do
      let set ← vecAt deck.setHistory last
      let c ← set.card i
      isNewLoop deck last rest (i + 1) (isNew || r != c.id)

/-- Lines 211-229: the `DRAFT_CARD_PICK` handler. `last` is `setHistory.size() - 1` in
`size_t`, and `last == -1` holds exactly when that subtraction wrapped, which the
integer `-1` stands for. -/
def handleDraftCardPick (env : Env) (s : State) (result : RecognitionResult) :
    Option (State × List Effect) := do
  let last : Int := (s.deck.setHistory.length : Int) - 1
  let isNew0 := s.deck.pickHistory.length == 0 && last == -1
  let isNew ← isNewLoop s.deck last result.results 0 isNew0
  if isNew then
    let r0 ← result.results[0]?
    let r1 ← result.results[1]?
    let r2 ← result.results[2]?
    let deck1 := s.deck.addSet (env.cards r0) (env.cards r1) (env.cards r2)
    let deck2 :=
      if armed s.deckInfo.state RECOGNIZER_DRAFT_CARD_CHOSEN
          && deck1.setHistory.length == deck1.pickHistory.length + 2 then
        deck1.addUnknownPick
      else deck1
    let st1 := enable s.deckInfo.state RECOGNIZER_DRAFT_CLASS_PICK
    let st2 := enable st1 RECOGNIZER_DRAFT_CARD_CHOSEN
    some ({ s with deck := deck2, deckInfo := { s.deckInfo with state := st2 } }, [])
  else
    some (s, [])

/-- Lines 230-245: the `DRAFT_CARD_CHOSEN` handler. -/
def handleDraftCardChosen (env : Env) (s : State) (result : RecognitionResult) :
    Option (State × List Effect) := do
  let st1 := enable s.deckInfo.state RECOGNIZER_DRAFT_CLASS_PICK
  let st2 := enable st1 RECOGNIZER_DRAFT_CARD_PICK
  let st3 := disable st2 RECOGNIZER_DRAFT_CARD_CHOSEN
  let back ← s.deck.setHistory.getLast?
  let r0 ← result.results[0]?
  let c ← back.card r0
  let deck := s.deck.addPickedCard c
  if deck.isComplete then
    let st4 := disable st3 RECOGNIZER_DRAFT_CARD_PICK
    let msg := createDeckURLs env deck
    some ({ s with deck := deck, shouldUpdateDeck := true,
                   deckInfo := { msg := msg, state := st4 } },
      [Effect.message msg])
  else
    some ({ s with deck := deck, shouldUpdateDeck := true,
                   deckInfo := { s.deckInfo with state := st3 } }, [])

/-- Lines 246-256: the `GAME_CLASS_SHOW` handler. -/
def handleGameClassShow (env : Env) (s : State) (result : RecognitionResult) :
    Option (State × List Effect) := do
  let st1 := enable s.gameInfo.state RECOGNIZER_GAME_COIN
  let st2 := disable st1 RECOGNIZER_GAME_CLASS_SHOW
  let r0 ← result.results[0]?
  let r1 ← result.results[1]?
  let gameInfo := { s.gameInfo with state := st2, player := (env.heroes r0).name,
                                    opponent := (env.heroes r1).name }
  if s.shouldUpdateDeck && armed s.internalState env.INTERNAL_APICALLING then
    some ({ s with gameInfo := gameInfo, shouldUpdateDeck := false },
      [Effect.callAPI env.submitDeckFormat
        [s.deck.heroClass, env.createInternalRepresentation s.deck]])
  else
    some ({ s with gameInfo := gameInfo }, [])

/-- Lines 257-278: the `GAME_COIN` handler. -/
def handleGameCoin (env : Env) (s : State) (result : RecognitionResult) :
    Option (State × List Effect) := do
  let st1 := enable s.gameInfo.state RECOGNIZER_GAME_END
  let st2 := enable st1 RECOGNIZER_GAME_CLASS_SHOW
  let st3 := disable st2 RECOGNIZER_GAME_COIN
  let r0 ← result.results[0]?
  let fs := if r0 == env.RESULT_GAME_COIN_FIRST then "1" else "2"
  let gameInfo := { s.gameInfo with state := st3, fs := fs }
  let start :=
    if armed s.internalState env.INTERNAL_SCORING then
      [Effect.message (env.MSG_GAME_START gameInfo.player gameInfo.opponent fs)]
    else []
  let image :=
    if armed s.param_debug_level 4 then [Effect.saveImage ("coin" ++ fs ++ env.time ++ ".png")]
    else []
  let drawState :=
    if armed s.internalState env.INTERNAL_DRAWHANDLING && fs == "1" then
      enable s.drawInfo.state RECOGNIZER_GAME_DRAW_INIT_1
    else if armed s.internalState env.INTERNAL_DRAWHANDLING && fs == "2" then
      enable s.drawInfo.state RECOGNIZER_GAME_DRAW_INIT_2
    else s.drawInfo.state
  let reset :=
    if armed s.internalState env.INTERNAL_APICALLING then
      [Effect.callAPI env.resetDrawsFormat []]
    else []
  some ({ s with gameInfo := gameInfo,
                 drawInfo := { s.drawInfo with state := drawState, latestDraw := -1 },
                 deck := s.deck.resetDraws },
    start ++ image ++ reset)

/-- Lines 279-298: the `GAME_END` handler. -/
def handleGameEnd (env : Env) (s : State) (result : RecognitionResult) :
    Option (State × List Effect) := do
  let st1 := enable s.gameInfo.state RECOGNIZER_GAME_CLASS_SHOW
  let st2 := disable st1 RECOGNIZER_GAME_END
  let r0 ← result.results[0]?
  let end_ := if r0 == env.RESULT_GAME_END_VICTORY then "w" else "l"
  let gameInfo := { s.gameInfo with state := st2, end_ := end_ }
  let winsLosses :=
    if end_ == "w" then (s.winsLosses.1 + 1, s.winsLosses.2)
    else (s.winsLosses.1, s.winsLosses.2 + 1)
  let score :=
    if armed s.internalState env.INTERNAL_SCORING then
      [Effect.message (env.MSG_GAME_END end_)]
    else []
  let constructed :=
    if winsLosses.1 == 12 || winsLosses.2 == 3 then
      [Effect.messageDelayed "!score -constructed" 0]
    else []
  let image :=
    if armed s.param_debug_level 4 then [Effect.saveImage (end_ ++ env.time ++ ".png")]
    else []
  some ({ s with gameInfo := gameInfo, winsLosses := winsLosses },
    score ++ constructed ++ image)

/-- Lines 299-304: the `GAME_DRAW_INIT_1` and `GAME_DRAW_INIT_2` handlers. -/
def handleGameDrawInit (s : State) (result : RecognitionResult) :
    Option (State × List Effect) :=
  some ({ s with drawInfo := { s.drawInfo with initialDraw := result.results } }, [])

/-- Lines 316-320: the loop over `drawInfo.initialDraw` at the first draw of a game;
returns the deck, `newCards` and the calls made. -/
def initDrawLoop (env : Env) (internalState : Nat) :
    List Int → Deck → Bool → Deck × Bool × List Effect
  | [], deck, newCards => (deck, newCards, [])
  | id :: rest, deck, newCards =>
    let build := armed internalState env.INTERNAL_BUILDFROMDRAWS
    let d := deck.draw (env.cards id) build
    let api :=
      if armed internalState env.INTERNAL_APICALLING then
        [Effect.callAPI env.drawCardFormat [fmt03d id]]
      else []
    let tail := initDrawLoop env internalState rest d.1 (newCards || d.2)
    (tail.1, tail.2.1, Effect.draw (env.cards id) build :: api ++ tail.2.2)

/-- Lines 309-337: the body of `if (pass)` in the `GAME_DRAW` handler, for the accepted
card id `r0`. -/
def fireDraw (env : Env) (s : State) (r0 : Int) : State × List Effect :=
  let build := armed s.internalState env.INTERNAL_BUILDFROMDRAWS
  let first :=
    if s.drawInfo.latestDraw == -1 then
      let l := initDrawLoop env s.internalState s.drawInfo.initialDraw s.deck false
      let st1 := disable s.drawInfo.state RECOGNIZER_GAME_DRAW_INIT_1
      let st2 := disable st1 RECOGNIZER_GAME_DRAW_INIT_2
      (l.1, l.2.1, l.2.2, ({ s.drawInfo with initialDraw := [], state := st2 } : DrawInfo))
    else (s.deck, false, [], s.drawInfo)
  let d := first.1.draw (env.cards r0) build
  let newCards := first.2.1 || d.2
  let api :=
    if armed s.internalState env.INTERNAL_APICALLING then
      [Effect.callAPI env.drawCardFormat [fmt03d r0]]
    else []
  let drawInfo := { first.2.2.2 with latestDraw := r0 }
  let s1 := { s with passedFrames := 0, currentCard := (-1, 0), deck := d.1,
                     shouldUpdateDeck := s.shouldUpdateDeck || newCards,
                     drawInfo := drawInfo }
  let calls := first.2.2.1 ++ [Effect.draw (env.cards r0) build] ++ api
  if newCards && d.1.isComplete then
    let msg := createDeckURLs env d.1
    ({ s1 with deckInfo := { s1.deckInfo with msg := msg } }, calls ++ [Effect.message msg])
  else (s1, calls)

/-- Lines 305-338: the `GAME_DRAW` handler (reached when armed and
`passedFrames >= PASSED_FRAMES_THRESHOLD`). -/
def handleGameDraw (env : Env) (s : State) (result : RecognitionResult) :
    Option (State × List Effect) := do
  let r0 ← result.results[0]?
  let eq := r0 == s.currentCard.1
  let second1 := if eq then s.currentCard.2 + 1 else s.currentCard.2
  let pass := eq && decide (second1 ≥ env.PASSED_CARD_RECOGNITIONS)
  let second2 := if r0 != s.currentCard.1 then 0 else second1
  let s1 := { s with currentCard := (r0, second2) }
  if pass then some (fireDraw env s1 r0) else some (s1, [])

/-- Lines 176-339: the body of the loop over the results of a frame, one result. -/
def applyResult (env : Env) (s : State) (result : RecognitionResult) :
    Option (State × List Effect) :=
  if RECOGNIZER_DRAFT_CLASS_PICK == result.sourceRecognizer
      && armed s.deckInfo.state RECOGNIZER_DRAFT_CLASS_PICK then
    handleDraftClassPick env s result
  else if RECOGNIZER_DRAFT_CARD_PICK == result.sourceRecognizer
      && armed s.deckInfo.state RECOGNIZER_DRAFT_CARD_PICK then
    handleDraftCardPick env s result
  else if RECOGNIZER_DRAFT_CARD_CHOSEN == result.sourceRecognizer
      && armed s.deckInfo.state RECOGNIZER_DRAFT_CARD_CHOSEN then
    handleDraftCardChosen env s result
  else if RECOGNIZER_GAME_CLASS_SHOW == result.sourceRecognizer
      && armed s.gameInfo.state RECOGNIZER_GAME_CLASS_SHOW then
    handleGameClassShow env s result
  else if RECOGNIZER_GAME_COIN == result.sourceRecognizer
      && armed s.gameInfo.state RECOGNIZER_GAME_COIN then
    handleGameCoin env s result
  else if RECOGNIZER_GAME_END == result.sourceRecognizer
      && armed s.gameInfo.state RECOGNIZER_GAME_END then
    handleGameEnd env s result
  else if RECOGNIZER_GAME_DRAW_INIT_1 == result.sourceRecognizer
      && armed s.drawInfo.state RECOGNIZER_GAME_DRAW_INIT_1 then
    handleGameDrawInit s result
  else if RECOGNIZER_GAME_DRAW_INIT_2 == result.sourceRecognizer
      && armed s.drawInfo.state RECOGNIZER_GAME_DRAW_INIT_2 then
    handleGameDrawInit s result
  else if RECOGNIZER_GAME_DRAW == result.sourceRecognizer
      && armed s.drawInfo.state RECOGNIZER_GAME_DRAW
      && decide (s.passedFrames ≥ env.PASSED_FRAMES_THRESHOLD) then
    handleGameDraw env s result
  else
    some (s, [])

/-- Lines 176-339: the results of one frame (or any sequence of results) applied in
order; the effects are concatenated. -/
def applyResults (env : Env) : State → List RecognitionResult → Option (State × List Effect)
  | s, [] => some (s, [])
  | s, r :: rest =>
    match applyResult env s r with
    | none => none
    | some (s1, e1) =>
      match applyResults env s1 rest with
      | none => none
      | some (s2, e2) => some (s2, e1 ++ e2)

/-- Lines 172-340: one iteration of the worker loop for a frame whose recognition
gave `results`: `passedFrames++`, then the results are applied in order. -/
def frame (env : Env) (s : State) (results : List RecognitionResult) :
    Option (State × List Effect) :=
  applyResults env { s with passedFrames := s.passedFrames + 1 } results

/-- Lines 146-341: the worker loop over the frames of the stream, one worker. -/
def frames (env : Env) : State → List (List RecognitionResult) → Option (State × List Effect)
  | s, [] => some (s, [])
  | s, f :: rest =>
    match frame env s f with
    | none => none
    | some (s1, e1) =>
      match frames env s1 rest with
      | none => none
      | some (s2, e2) => some (s2, e1 ++ e2)

/-- Lines 30-55: the state the constructor sets up before `loadState`, which is the
state in use when no persisted state is loaded. `currentCard` is value-initialised
and only its `second` is assigned (lines 34-35); `drawInfo.latestDraw` is not
assigned. -/
def construct (env : Env) : State :=
  let internalState := enable 0 env.INTERNAL_ENABLE_ALL
  { shouldUpdateDeck := false
    param_debug_level := if env.debugging_enabled then env.debug_level else 0
    passedFrames := env.PASSED_FRAMES_THRESHOLD
    currentCard := (0, 0)
    winsLosses := (0, 0)
    internalState := internalState
    deckInfo :=
      { msg := ""
        state := enable (enable 0 RECOGNIZER_DRAFT_CLASS_PICK) RECOGNIZER_DRAFT_CARD_PICK }
    gameInfo :=
      { player := "", opponent := "", fs := "", end_ := ""
        state := enable (enable 0 RECOGNIZER_GAME_CLASS_SHOW) RECOGNIZER_GAME_END }
    drawInfo :=
      { initialDraw := []
        latestDraw := env.uninit_latestDraw
        state :=
          if armed internalState env.INTERNAL_DRAWHANDLING then enable 0 RECOGNIZER_GAME_DRAW
          else 0 }
    deck := Deck.empty
    pollCalls := 0 }

/-! ## A concrete environment and concrete inputs -/

/-- A concrete environment for evaluating the handler on examples: the database maps
the id `k` to the card with id `k`; the feature flags are single bits. -/
def demoEnv : Env :=
  { cards := fun k => ⟨k, ""⟩
    heroes := fun _ => ⟨""⟩
    sName := "streamer"
    PASSED_FRAMES_THRESHOLD := 5
    PASSED_CARD_RECOGNITIONS := 3
    MSG_CLASS_POLL_ERROR_RETRY_COUNT := 2
    RESULT_GAME_COIN_FIRST := 0
    RESULT_GAME_END_VICTORY := 0
    INTERNAL_ENABLE_ALL := 1
    INTERNAL_SCORING := 2
    INTERNAL_APICALLING := 4
    INTERNAL_STRAWPOLLING := 8
    INTERNAL_DRAWHANDLING := 16
    INTERNAL_BUILDFROMDRAWS := 32
    MSG_CLASS_POLL := fun n => n
    MSG_CLASS_POLL_ERROR := fun _ => "poll error"
    MSG_CLASS_POLL_VOTE := fun n u => n ++ " " ++ u
    MSG_CLASS_POLL_VOTE_REPEAT := fun u => u
    MSG_CLASS_POLL_ERROR_GIVEUP := "giveup"
    MSG_GAME_START := fun p o f => p ++ " " ++ o ++ " " ++ f
    MSG_GAME_END := fun e => e
    CMD_DECK_FORMAT := fun n i t => n ++ " " ++ i ++ " " ++ t
    submitDeckFormat := "submit"
    drawCardFormat := "draw"
    resetDrawsFormat := "reset"
    createStrawpoll := fun _ _ _ => ""
    createImgur := fun _ => "image"
    createHastebin := fun _ => "paste"
    createImageRepresentation := fun _ => ""
    createTextRepresentation := fun _ => ""
    createInternalRepresentation := fun _ => ""
    fillFromInternalRepresentation := fun d _ => d
    time := "0"
    debugging_enabled := false
    debug_level := 0
    uninit_latestDraw := 0 }

/-- A `DRAFT_CARD_PICK` result carrying three ids. -/
def cardPick (a b c : Int) : RecognitionResult := ⟨RECOGNIZER_DRAFT_CARD_PICK, [a, b, c]⟩

/-- A `DRAFT_CARD_CHOSEN` result carrying the picked index. -/
def cardChosen (k : Int) : RecognitionResult := ⟨RECOGNIZER_DRAFT_CARD_CHOSEN, [k]⟩

/-- A `DRAFT_CLASS_PICK` result carrying three hero ids. -/
def classPick (a b c : Int) : RecognitionResult := ⟨RECOGNIZER_DRAFT_CLASS_PICK, [a, b, c]⟩

/-- The state reached from the constructor's state of `demoEnv` by the given results
(the constructor's state itself if a read of the handler is out of bounds). -/
def demoRun (rs : List RecognitionResult) : State :=
  match applyResults demoEnv (construct demoEnv) rs with
  | some (s, _) => s
  | none => construct demoEnv

/-- The results of a draft in which every offer is followed by its pick: for each entry
(offer, index) a `DRAFT_CARD_PICK` result and then a `DRAFT_CARD_CHOSEN` result. -/
def draftResults : List ((Int × Int × Int) × Int) → List RecognitionResult
  | [] => []
  | (o, k) :: rest => cardPick o.1 o.2.1 o.2.2 :: cardChosen k :: draftResults rest

/-- A `GAME_CLASS_SHOW` result carrying the two hero ids. -/
def gameClassShow (h1 h2 : Int) : RecognitionResult := ⟨RECOGNIZER_GAME_CLASS_SHOW, [h1, h2]⟩

/-- A `GAME_COIN` result. -/
def gameCoin (v : Int) : RecognitionResult := ⟨RECOGNIZER_GAME_COIN, [v]⟩

/-- A `GAME_END` result. -/
def gameEnd (v : Int) : RecognitionResult := ⟨RECOGNIZER_GAME_END, [v]⟩

/-- A `GAME_DRAW` result carrying one card id. -/
def gameDraw (c : Int) : RecognitionResult := ⟨RECOGNIZER_GAME_DRAW, [c]⟩

/-- The run of `applyResults` with the count the score is compared to: the number of
`GAME_END` results applied while `GAME_END` was armed since the most recent
`DRAFT_CLASS_PICK` result applied while `DRAFT_CLASS_PICK` was armed (since the start when
there was none). `n` is the count before the results. -/
def countedEnds (env : Env) : State → List RecognitionResult → Nat → Option (State × Nat)
  | s, [], n => some (s, n)
  | s, r :: rest, n =>
    match applyResult env s r with
    | none => none
    | some (s1, _) =>
      countedEnds env s1 rest
        (if r.sourceRecognizer = RECOGNIZER_DRAFT_CLASS_PICK
            ∧ armed s.deckInfo.state RECOGNIZER_DRAFT_CLASS_PICK = true then 0
         else if r.sourceRecognizer = RECOGNIZER_GAME_END
            ∧ armed s.gameInfo.state RECOGNIZER_GAME_END = true then n + 1
         else n)

/-! ## Observing the draw machine -/

/-- The `deck.draw` calls among the effects, in order. -/
def drawCalls : List Effect → List (Card × Bool)
  | [] => []
  | Effect.draw c b :: rest => (c, b) :: drawCalls rest
  | _ :: rest => drawCalls rest

/-- The API calls among the effects, in order. -/
def apiCalls : List Effect → List (String × List String)
  | [] => []
  | Effect.callAPI f args :: rest => (f, args) :: apiCalls rest
  | _ :: rest => apiCalls rest

/-- The bot messages (immediate, delayed and repeated) among the effects, in order. -/
def botMessages : List Effect → List Effect
  | [] => []
  | Effect.message t :: rest => Effect.message t :: botMessages rest
  | Effect.messageDelayed t d :: rest => Effect.messageDelayed t d :: botMessages rest
  | Effect.repeat_message t c s o :: rest => Effect.repeat_message t c s o :: botMessages rest
  | _ :: rest => botMessages rest

/-- Whether the application of a result accepted a draw (the body of `if (pass)` ran): it
is the only place where `deck.draw` is called. -/
def fired (e : List Effect) : Bool := !(drawCalls e).isEmpty

/-- Whether a result reaches the `GAME_DRAW` handler in the state `s`: it is a `GAME_DRAW`
result, `GAME_DRAW` is armed and `passedFrames >= PASSED_FRAMES_THRESHOLD` (line 305). -/
def reachesDraw (env : Env) (s : State) (r : RecognitionResult) : Bool :=
  RECOGNIZER_GAME_DRAW == r.sourceRecognizer
    && armed s.drawInfo.state RECOGNIZER_GAME_DRAW
    && decide (s.passedFrames ≥ env.PASSED_FRAMES_THRESHOLD)

/-- An accepted draw: the index of its frame, its card id and the ids `results[0]` of the
results that reached the `GAME_DRAW` handler up to and including it, most recent first. -/
structure Firing where
  frame : Nat
  id : Int
  handled : List Int
deriving DecidableEq, Repr

/-- The results of the frame number `k` applied in order as by `applyResults`, recording
the ids of the results that reach the `GAME_DRAW` handler (most recent first, continuing
`hist`) and the accepted draws. -/
def resultsLog (env : Env) (k : Nat) :
    State → List Int → List RecognitionResult → Option (State × List Int × List Firing)
  | s, hist, [] => some (s, hist, [])
  | s, hist, r :: rest =>
    match applyResult env s r with
    | none => none
    | some (s1, e) =>
      let hist1 :=
        if reachesDraw env s r then
          match r.results[0]? with
          | some id => id :: hist
          | none => hist
        else hist
      let now :=
        if fired e then
          match r.results[0]? with
          | some id => [Firing.mk k id hist1]
          | none => []
        else []
      match resultsLog env k s1 hist1 rest with
      | none => none
      | some (s2, hist2, log) => some (s2, hist2, now ++ log)

/-- The one-worker loop as `frames`, from the frame number `k`, recording the accepted
draws in order. -/
def framesLog (env : Env) :
    Nat → State → List Int → List (List RecognitionResult)
      → Option (State × List Int × List Firing)
  | _, s, hist, [] => some (s, hist, [])
  | k, s, hist, f :: rest =>
    match resultsLog env k { s with passedFrames := s.passedFrames + 1 } hist f with
    | none => none
    | some (s1, hist1, log1) =>
      match framesLog env (k + 1) s1 hist1 rest with
      | none => none
      | some (s2, hist2, log2) => some (s2, hist2, log1 ++ log2)

/-- A state of `demoEnv` ready to draw: `GAME_DRAW` armed, `APICALLING` set,
`passedFrames` at the threshold, the debounce pair `(NONE, 0)` and an earlier draw of
this game recorded in `latestDraw`. -/
def drawReady : State :=
  { construct demoEnv with
    internalState := demoEnv.INTERNAL_APICALLING
    passedFrames := demoEnv.PASSED_FRAMES_THRESHOLD
    currentCard := (-1, 0)
    drawInfo := { initialDraw := [], latestDraw := 7, state := RECOGNIZER_GAME_DRAW } }

/-- A state of `demoEnv` at the first draw of a game: a mulligan of four cards recorded,
`latestDraw = NONE`, `GAME_DRAW` and `GAME_DRAW_INIT_1` armed, `APICALLING` set, and the
card 5 seen twice in a row already. -/
def mulliganReady : State :=
  { construct demoEnv with
    internalState := demoEnv.INTERNAL_APICALLING
    passedFrames := demoEnv.PASSED_FRAMES_THRESHOLD
    currentCard := (5, 2)
    drawInfo :=
      { initialDraw := [10, 11, 12, 13], latestDraw := -1
        state := enable RECOGNIZER_GAME_DRAW RECOGNIZER_GAME_DRAW_INIT_1 } }

/-! ## Observing the first draw of a game -/

/-- The run of `applyResults` with the flag "the `GAME_DRAW` handler has accepted a draw
since the most recent `GAME_COIN` result applied while `GAME_COIN` was armed"; `b` is the
flag before the results. -/
def firedSinceCoin (env : Env) : State → List RecognitionResult → Bool → Option (State × Bool)
  | s, [], b => some (s, b)
  | s, r :: rest, b =>
    match applyResult env s r with
    | none => none
    | some (s1, e) =>
      firedSinceCoin env s1 rest
        (if r.sourceRecognizer = RECOGNIZER_GAME_COIN
            ∧ armed s.gameInfo.state RECOGNIZER_GAME_COIN = true then false
         else if fired e then true
         else b)

/-- A state of `demoEnv` between class show and coin, ready to draw: `GAME_COIN` and
`GAME_DRAW` armed, `passedFrames` at the threshold and the card 5 seen twice in a row. -/
def coinReady : State :=
  { construct demoEnv with
    passedFrames := demoEnv.PASSED_FRAMES_THRESHOLD
    currentCard := (5, 2)
    gameInfo := { (construct demoEnv).gameInfo with state := RECOGNIZER_GAME_COIN }
    drawInfo := { initialDraw := [], latestDraw := 7, state := RECOGNIZER_GAME_DRAW } }

/-- The state reached from `s` by the given results in `demoEnv` (the state `s` itself if
a read of the handler is out of bounds). -/
def demoRunFrom (s : State) (rs : List RecognitionResult) : State :=
  match applyResults demoEnv s rs with
  | some (s1, _) => s1
  | none => s

/-! ## The persisted state -/

/-- The state file as the key-value document `saveState` writes and `loadState` reads:
the keys `state.deck_msg`, `state.internal_state`, `state.current_wins`,
`state.current_losses` and `state.data.deck`, each present or not, with the value held at
the type of the member it is read into. -/
structure StateFile where
  deck_msg : Option String
  internal_state : Option Nat
  current_wins : Option Int
  current_losses : Option Int
  data_deck : Option String
deriving DecidableEq, Repr

/-- Lines 81-102: `loadState`; `file` is `none` when the state file cannot be opened.
`state.get(key, default)` is the stored value when the key is present and the default
otherwise; `deckRep` starts empty. -/
def loadState (env : Env) (s : State) (file : Option StateFile) : State :=
  match file with
  | none => s
  | some state =>
    let msg := state.deck_msg.getD s.deckInfo.msg
    let internalState := state.internal_state.getD s.internalState
    let first := state.current_wins.getD s.winsLosses.1
    let second := state.current_losses.getD s.winsLosses.2
    let s1 := { s with deckInfo := { s.deckInfo with msg := msg }
                       internalState := internalState
                       winsLosses := (first, second) }
    let deckRep := state.data_deck.getD ""
    if !deckRep.isEmpty then
      { s1 with deck := env.fillFromInternalRepresentation s1.deck deckRep
                shouldUpdateDeck := true }
    else s1

/-- Lines 104-119: `saveState`, the document written. -/
def saveState (env : Env) (s : State) : StateFile :=
  { deck_msg := some s.deckInfo.msg
    internal_state := some s.internalState
    current_wins := some s.winsLosses.1
    current_losses := some s.winsLosses.2
    data_deck := some (env.createInternalRepresentation s.deck) }

/-- Lines 23-57: the constructor's state, `loadState` included. -/
def constructLoaded (env : Env) (file : Option StateFile) : State :=
  loadState env (construct env) file

/-- An environment like `demoEnv` whose deck encoding is the hero class. -/
def heroRepEnv : Env :=
  { demoEnv with
    createInternalRepresentation := fun d => d.heroClass
    fillFromInternalRepresentation := fun d rep => { d with heroClass := rep } }

/-- A manager state of `heroRepEnv` to be saved: a message, a score and a hero class. -/
def savedState : State :=
  { construct heroRepEnv with
    deckInfo := { msg := "deck", state := RECOGNIZER_DRAFT_CARD_PICK }
    internalState := 6
    winsLosses := (3, 1)
    deck := { Deck.empty with heroClass := "mage" } }

/-- One failed attempt of the poll loop at iteration `i`: the attempt, then the error
message announcing the attempts remaining. -/
def pollFailure (env : Env) (classNames : List String) (i : Int) : List Effect :=
  [Effect.createStrawpoll (env.MSG_CLASS_POLL env.sName) classNames,
   Effect.message (env.MSG_CLASS_POLL_ERROR (env.MSG_CLASS_POLL_ERROR_RETRY_COUNT - i))]

/-- An environment whose poll service fails on its first call and answers `"url"` on its
second. -/
def pollEnv : Env :=
  { demoEnv with createStrawpoll := fun n _ _ => if n = 1 then "url" else "" }

/-- The constructor's state of `demoEnv` with the strawpolling behaviour switched on. -/
def pollState : State :=
  { construct demoEnv with internalState := demoEnv.INTERNAL_STRAWPOLLING }

/-- The offers `(i, i, i)` for `i < n`, each with the pick index 0. -/
def distinctOffers (n : Nat) : List ((Int × Int × Int) × Int) :=
  (List.range n).map (fun (i : Nat) => (((i : Int), (i : Int), (i : Int)), (0 : Int)))

/-- An environment like `demoEnv` with a codec for decks of unknown picks: the encoded
deck has one character per pick. -/
def picksRepEnv : Env :=
  { demoEnv with
    createInternalRepresentation := fun d => String.mk (d.pickHistory.map (fun _ => 'u'))
    fillFromInternalRepresentation := fun d rep =>
      { d with pickHistory := rep.toList.map (fun _ => Pick.unknown) } }

/-- A state file that stores only a deck of `picksRepEnv` with one pick. -/
def onePickFile : StateFile := ⟨none, none, none, none, some "u"⟩

/-- The deck invariant the draft handlers keep while `BUILDFROMDRAWS` is off: there are
no more picks than offers, and while `DRAFT_CARD_CHOSEN` is armed either no offer is
recorded or the last offer has no pick yet. -/
def picksWithinOffers (env : Env) (s : State) : Prop :=
  armed s.internalState env.INTERNAL_BUILDFROMDRAWS = false
    ∧ s.deck.pickHistory.length ≤ s.deck.setHistory.length
    ∧ (armed s.deckInfo.state RECOGNIZER_DRAFT_CARD_CHOSEN = true →
        s.deck.setHistory = [] ∨ s.deck.pickHistory.length < s.deck.setHistory.length)

/-! ## Mask lemmas -/

theorem armed_kindBit (s j : Nat) : armed s (kindBit j) = s.testBit j := by
  unfold armed kindBit
  rw [Nat.and_two_pow]
  cases h : s.testBit j <;> simp [Bool.toNat, Nat.pos_iff_ne_zero]

theorem armed_enable (s i j : Nat) :
    armed (enable s (kindBit i)) (kindBit j) = (decide (i = j) || armed s (kindBit j)) := by
  simp only [armed_kindBit, enable]
  rw [kindBit, Nat.testBit_or, Nat.testBit_two_pow, Bool.or_comm]

theorem armed_disable (s i j : Nat) :
    armed (disable s (kindBit i)) (kindBit j) = (!decide (i = j) && armed s (kindBit j)) := by
  simp only [armed_kindBit, disable]
  rw [kindBit, Nat.testBit_xor, Nat.testBit_and, Nat.testBit_two_pow]
  cases s.testBit j <;> cases decide (i = j) <;> rfl

theorem armed_zero (b : Nat) : armed 0 b = false := by
  simp [armed]

theorem kindBit_inj (i j : Nat) : (kindBit i = kindBit j) ↔ i = j := by
  unfold kindBit
  exact ⟨fun h => Nat.pow_right_injective (le_refl 2) h, fun h => by rw [h]⟩

/-! ## Reads of the last offer -/

theorem vecAt_last {α : Type} (l : List α) (x : α) :
    vecAt (l ++ [x]) (((l ++ [x]).length : Int) - 1) = some x := by
  unfold vecAt
  have h : (((l ++ [x]).length : Int) - 1) = (l.length : Int) := by
    simp
  rw [h]
  simp

theorem getLast_split {α : Type} (l : List α) (x : α) (h : l.getLast? = some x) :
    ∃ l0, l = l0 ++ [x] := by
  rcases List.eq_nil_or_concat l with hnil | ⟨l0, y, hl⟩
  · subst hnil
    simp at h
  · subst hl
    simp at h
    exact ⟨l0, by simp [h]⟩

theorem isNewLoop_three (deck : Deck) (l0 : List CardSet) (last : CardSet) (a b c : Int)
    (h : deck.setHistory = l0 ++ [last]) :
    isNewLoop deck ((deck.setHistory.length : Int) - 1) [a, b, c] 0 false
      = some (a != last.first.id || b != last.second.id || c != last.third.id) := by
  have hv : vecAt deck.setHistory ((deck.setHistory.length : Int) - 1) = some last := by
    rw [h]
    exact vecAt_last l0 last
  cases ha : (a != last.first.id) <;> cases hb : (b != last.second.id) <;>
    cases hc : (c != last.third.id) <;>
    simp only [isNewLoop, hv, CardSet.card, ha, hb, hc, Option.bind_eq_bind, Option.some_bind,
      Bool.false_or, Bool.or_false, Bool.or_true, Bool.false_eq_true, if_false, if_true,
      zero_add, one_ne_zero, OfNat.ofNat_ne_zero, OfNat.ofNat_ne_one] <;>
    simp_all

/-! ## Dispatch of one result by its kind -/

theorem applyResult_DRAFT_CLASS_PICK (env : Env) (s : State) (r : RecognitionResult)
    (hk : r.sourceRecognizer = RECOGNIZER_DRAFT_CLASS_PICK) :
    applyResult env s r
      = if armed s.deckInfo.state RECOGNIZER_DRAFT_CLASS_PICK then handleDraftClassPick env s r
        else some (s, []) := by
  simp [applyResult, hk, RECOGNIZER_DRAFT_CLASS_PICK, RECOGNIZER_DRAFT_CARD_PICK,
    RECOGNIZER_DRAFT_CARD_CHOSEN, RECOGNIZER_GAME_CLASS_SHOW, RECOGNIZER_GAME_COIN,
    RECOGNIZER_GAME_END, RECOGNIZER_GAME_DRAW_INIT_1, RECOGNIZER_GAME_DRAW_INIT_2,
    RECOGNIZER_GAME_DRAW, kindBit_inj]

theorem applyResult_DRAFT_CARD_PICK (env : Env) (s : State) (r : RecognitionResult)
    (hk : r.sourceRecognizer = RECOGNIZER_DRAFT_CARD_PICK) :
    applyResult env s r
      = if armed s.deckInfo.state RECOGNIZER_DRAFT_CARD_PICK then handleDraftCardPick env s r
        else some (s, []) := by
  simp [applyResult, hk, RECOGNIZER_DRAFT_CLASS_PICK, RECOGNIZER_DRAFT_CARD_PICK,
    RECOGNIZER_DRAFT_CARD_CHOSEN, RECOGNIZER_GAME_CLASS_SHOW, RECOGNIZER_GAME_COIN,
    RECOGNIZER_GAME_END, RECOGNIZER_GAME_DRAW_INIT_1, RECOGNIZER_GAME_DRAW_INIT_2,
    RECOGNIZER_GAME_DRAW, kindBit_inj]

theorem applyResult_DRAFT_CARD_CHOSEN (env : Env) (s : State) (r : RecognitionResult)
    (hk : r.sourceRecognizer = RECOGNIZER_DRAFT_CARD_CHOSEN) :
    applyResult env s r
      = if armed s.deckInfo.state RECOGNIZER_DRAFT_CARD_CHOSEN then handleDraftCardChosen env s r
        else some (s, []) := by
  simp [applyResult, hk, RECOGNIZER_DRAFT_CLASS_PICK, RECOGNIZER_DRAFT_CARD_PICK,
    RECOGNIZER_DRAFT_CARD_CHOSEN, RECOGNIZER_GAME_CLASS_SHOW, RECOGNIZER_GAME_COIN,
    RECOGNIZER_GAME_END, RECOGNIZER_GAME_DRAW_INIT_1, RECOGNIZER_GAME_DRAW_INIT_2,
    RECOGNIZER_GAME_DRAW, kindBit_inj]

theorem applyResult_GAME_CLASS_SHOW (env : Env) (s : State) (r : RecognitionResult)
    (hk : r.sourceRecognizer = RECOGNIZER_GAME_CLASS_SHOW) :
    applyResult env s r
      = if armed s.gameInfo.state RECOGNIZER_GAME_CLASS_SHOW then handleGameClassShow env s r
        else some (s, []) := by
  simp [applyResult, hk, RECOGNIZER_DRAFT_CLASS_PICK, RECOGNIZER_DRAFT_CARD_PICK,
    RECOGNIZER_DRAFT_CARD_CHOSEN, RECOGNIZER_GAME_CLASS_SHOW, RECOGNIZER_GAME_COIN,
    RECOGNIZER_GAME_END, RECOGNIZER_GAME_DRAW_INIT_1, RECOGNIZER_GAME_DRAW_INIT_2,
    RECOGNIZER_GAME_DRAW, kindBit_inj]

theorem applyResult_GAME_COIN (env : Env) (s : State) (r : RecognitionResult)
    (hk : r.sourceRecognizer = RECOGNIZER_GAME_COIN) :
    applyResult env s r
      = if armed s.gameInfo.state RECOGNIZER_GAME_COIN then handleGameCoin env s r
        else some (s, []) := by
  simp [applyResult, hk, RECOGNIZER_DRAFT_CLASS_PICK, RECOGNIZER_DRAFT_CARD_PICK,
    RECOGNIZER_DRAFT_CARD_CHOSEN, RECOGNIZER_GAME_CLASS_SHOW, RECOGNIZER_GAME_COIN,
    RECOGNIZER_GAME_END, RECOGNIZER_GAME_DRAW_INIT_1, RECOGNIZER_GAME_DRAW_INIT_2,
    RECOGNIZER_GAME_DRAW, kindBit_inj]

theorem applyResult_GAME_END (env : Env) (s : State) (r : RecognitionResult)
    (hk : r.sourceRecognizer = RECOGNIZER_GAME_END) :
    applyResult env s r
      = if armed s.gameInfo.state RECOGNIZER_GAME_END then handleGameEnd env s r
        else some (s, []) := by
  simp [applyResult, hk, RECOGNIZER_DRAFT_CLASS_PICK, RECOGNIZER_DRAFT_CARD_PICK,
    RECOGNIZER_DRAFT_CARD_CHOSEN, RECOGNIZER_GAME_CLASS_SHOW, RECOGNIZER_GAME_COIN,
    RECOGNIZER_GAME_END, RECOGNIZER_GAME_DRAW_INIT_1, RECOGNIZER_GAME_DRAW_INIT_2,
    RECOGNIZER_GAME_DRAW, kindBit_inj]

theorem applyResult_GAME_DRAW (env : Env) (s : State) (r : RecognitionResult)
    (hk : r.sourceRecognizer = RECOGNIZER_GAME_DRAW) :
    applyResult env s r
      = if (armed s.drawInfo.state RECOGNIZER_GAME_DRAW
        && decide (s.passedFrames ≥ env.PASSED_FRAMES_THRESHOLD)) then handleGameDraw env s r
        else some (s, []) := by
  simp [applyResult, hk, RECOGNIZER_DRAFT_CLASS_PICK, RECOGNIZER_DRAFT_CARD_PICK,
    RECOGNIZER_DRAFT_CARD_CHOSEN, RECOGNIZER_GAME_CLASS_SHOW, RECOGNIZER_GAME_COIN,
    RECOGNIZER_GAME_END, RECOGNIZER_GAME_DRAW_INIT_1, RECOGNIZER_GAME_DRAW_INIT_2,
    RECOGNIZER_GAME_DRAW, kindBit_inj]

/-! ## The `DRAFT_CARD_PICK` handler on three ids -/

/-- The state after a new offer `a b c` (lines 219-226). -/
theorem handleDraftCardPick_nonempty (env : Env) (s : State) (k : Nat) (a b c : Int)
    (l0 : List CardSet) (last : CardSet) (h : s.deck.setHistory = l0 ++ [last]) :
    handleDraftCardPick env s ⟨k, [a, b, c]⟩
      = if (a != last.first.id || b != last.second.id || c != last.third.id) then
          some ({ s with
                  deck :=
                    if armed s.deckInfo.state RECOGNIZER_DRAFT_CARD_CHOSEN
                        && (s.deck.setHistory.length + 1 == s.deck.pickHistory.length + 2) then
                      (s.deck.addSet (env.cards a) (env.cards b) (env.cards c)).addUnknownPick
                    else s.deck.addSet (env.cards a) (env.cards b) (env.cards c)
                  deckInfo :=
                    { s.deckInfo with
                      state := enable (enable s.deckInfo.state RECOGNIZER_DRAFT_CLASS_PICK)
                        RECOGNIZER_DRAFT_CARD_CHOSEN } }, [])
        else some (s, []) := by
  have h0 : ((s.deck.pickHistory.length == 0)
      && (((s.deck.setHistory.length : Int) - 1) == -1)) = false := by
    rw [h]
    simp
  unfold handleDraftCardPick
  simp only [h0, isNewLoop_three s.deck l0 last a b c h]
  cases hn : (a != last.first.id || b != last.second.id || c != last.third.id) <;>
    simp [Deck.addSet, Deck.addUnknownPick]

theorem handleDraftCardPick_empty (env : Env) (s : State) (k : Nat) (a b c : Int)
    (hs : s.deck.setHistory = []) (hp : s.deck.pickHistory = []) :
    handleDraftCardPick env s ⟨k, [a, b, c]⟩
      = some ({ s with
                deck := s.deck.addSet (env.cards a) (env.cards b) (env.cards c)
                deckInfo :=
                  { s.deckInfo with
                    state := enable (enable s.deckInfo.state RECOGNIZER_DRAFT_CLASS_PICK)
                      RECOGNIZER_DRAFT_CARD_CHOSEN } }, []) := by
  unfold handleDraftCardPick
  simp [hs, hp, isNewLoop, Deck.addSet]

theorem handleDraftCardPick_fault (env : Env) (s : State) (k : Nat) (a b c : Int)
    (hs : s.deck.setHistory = []) (hp : s.deck.pickHistory ≠ []) :
    handleDraftCardPick env s ⟨k, [a, b, c]⟩ = none := by
  unfold handleDraftCardPick
  simp [hs, hp, isNewLoop, vecAt]

/-! ## When a `DRAFT_CARD_PICK` result is a new offer -/

/-- Where the handler does not fault, that is in every state in which `DRAFT_CARD_PICK`
is armed and `setHistory` is non-empty or `pickHistory` is empty, a `DRAFT_CARD_PICK` result carrying
three ids is treated as a new offer (the triple is appended to `setHistory`, nothing is
emitted, `DRAFT_CLASS_PICK` and `DRAFT_CARD_CHOSEN` are armed) if and only if
`setHistory` is empty or some id differs from the id at the same position of the last
offer; otherwise the state is unchanged and nothing is emitted. -/
theorem draft_card_pick_new_offer_iff (env : Env) (s : State) (a b c : Int)
    (harm : armed s.deckInfo.state RECOGNIZER_DRAFT_CARD_PICK = true)
    (hst : s.deck.setHistory ≠ [] ∨ s.deck.pickHistory = []) :
    ((s.deck.setHistory = [] ∨ ∃ last, s.deck.setHistory.getLast? = some last
        ∧ (a ≠ last.first.id ∨ b ≠ last.second.id ∨ c ≠ last.third.id)) →
      ∃ s1, applyResult env s (cardPick a b c) = some (s1, [])
        ∧ s1.deck.setHistory
            = s.deck.setHistory ++ [CardSet.mk (env.cards a) (env.cards b) (env.cards c)]
        ∧ armed s1.deckInfo.state RECOGNIZER_DRAFT_CLASS_PICK = true
        ∧ armed s1.deckInfo.state RECOGNIZER_DRAFT_CARD_CHOSEN = true)
    ∧ (¬ (s.deck.setHistory = [] ∨ ∃ last, s.deck.setHistory.getLast? = some last
        ∧ (a ≠ last.first.id ∨ b ≠ last.second.id ∨ c ≠ last.third.id)) →
      applyResult env s (cardPick a b c) = some (s, [])) := by
  rw [applyResult_DRAFT_CARD_PICK env s (cardPick a b c) rfl, if_pos harm]
  rcases List.eq_nil_or_concat s.deck.setHistory with hnil | ⟨l0, last, hl⟩
  · have hp : s.deck.pickHistory = [] := by
      rcases hst with h | h
      · exact absurd hnil h
      · exact h
    unfold cardPick
    rw [handleDraftCardPick_empty env s _ a b c hnil hp]
    refine ⟨fun _ => ⟨_, rfl, ?_, ?_, ?_⟩, fun h => absurd (Or.inl hnil) h⟩
    · simp [Deck.addSet]
    · simp [RECOGNIZER_DRAFT_CLASS_PICK, RECOGNIZER_DRAFT_CARD_CHOSEN, armed_enable]
    · simp [RECOGNIZER_DRAFT_CLASS_PICK, RECOGNIZER_DRAFT_CARD_CHOSEN, armed_enable]
  · have hl1 : s.deck.setHistory = l0 ++ [last] := by simp [hl]
    have hlast : s.deck.setHistory.getLast? = some last := by simp [hl1]
    have hne : s.deck.setHistory ≠ [] := by simp [hl1]
    unfold cardPick
    rw [handleDraftCardPick_nonempty env s _ a b c l0 last hl1]
    constructor
    · intro hnew
      have hd : (a != last.first.id || b != last.second.id || c != last.third.id) = true := by
        rcases hnew with h | ⟨x, hx, hd⟩
        · exact absurd h hne
        · rw [hlast] at hx
          cases hx
          simpa [bne_iff_ne, or_assoc] using hd
      rw [if_pos hd]
      refine ⟨_, rfl, ?_, ?_, ?_⟩
      · by_cases hc : (armed s.deckInfo.state RECOGNIZER_DRAFT_CARD_CHOSEN
            && (s.deck.setHistory.length + 1 == s.deck.pickHistory.length + 2)) = true
        · simp only [hc, if_true]
          simp [Deck.addSet, Deck.addUnknownPick]
        · simp only [hc, if_false]
          simp [Deck.addSet]
      · simp [RECOGNIZER_DRAFT_CLASS_PICK, RECOGNIZER_DRAFT_CARD_CHOSEN, armed_enable]
      · simp [RECOGNIZER_DRAFT_CLASS_PICK, RECOGNIZER_DRAFT_CARD_CHOSEN, armed_enable]
    · intro hnot
      have hd : ¬ ((a != last.first.id || b != last.second.id || c != last.third.id) = true) := by
        intro hd
        apply hnot
        right
        exact ⟨last, hlast, by simpa [bne_iff_ne, or_assoc] using hd⟩
      rw [if_neg hd]

/-! ## C3: missed-pick recovery -/

/-- C3: in every state with `DRAFT_CARD_PICK` and `DRAFT_CARD_CHOSEN` armed and
`|setHistory| = |pickHistory| + 1`, a `DRAFT_CARD_PICK` result that is a new offer appends
exactly one triple to `setHistory` and exactly one unknown sentinel to `pickHistory`; when
`DRAFT_CARD_CHOSEN` is not armed a `DRAFT_CARD_PICK` result leaves `pickHistory` as it is;
and from the constructor's state the offers (1,2,3) then (7,8,9) give
`setHistory = [(1,2,3),(7,8,9)]` and `pickHistory = [UNKNOWN]`. -/
theorem C3_missed_pick_recovery (env : Env) (hid : ∀ k, (env.cards k).id = k) :
    (∀ (s : State) (a b c : Int),
      armed s.deckInfo.state RECOGNIZER_DRAFT_CARD_PICK = true →
      armed s.deckInfo.state RECOGNIZER_DRAFT_CARD_CHOSEN = true →
      s.deck.setHistory.length = s.deck.pickHistory.length + 1 →
      (∃ last, s.deck.setHistory.getLast? = some last
        ∧ (a ≠ last.first.id ∨ b ≠ last.second.id ∨ c ≠ last.third.id)) →
      ∃ s1, applyResult env s (cardPick a b c) = some (s1, [])
        ∧ s1.deck.setHistory
            = s.deck.setHistory ++ [CardSet.mk (env.cards a) (env.cards b) (env.cards c)]
        ∧ s1.deck.pickHistory = s.deck.pickHistory ++ [Pick.unknown])
    ∧ (∀ (s s1 : State) (e : List Effect) (a b c : Int),
      armed s.deckInfo.state RECOGNIZER_DRAFT_CARD_CHOSEN = false →
      applyResult env s (cardPick a b c) = some (s1, e) →
      s1.deck.pickHistory = s.deck.pickHistory)
    ∧ (∃ s2, applyResults env (construct env) [cardPick 1 2 3, cardPick 7 8 9] = some (s2, [])
        ∧ s2.deck.setHistory
            = [CardSet.mk (env.cards 1) (env.cards 2) (env.cards 3),
               CardSet.mk (env.cards 7) (env.cards 8) (env.cards 9)]
        ∧ s2.deck.pickHistory = [Pick.unknown]) := by
  refine ⟨?_, ?_, ?_⟩
  · intro s a b c hpick hchosen hlen ⟨last, hlast, hd⟩
    obtain ⟨l0, hl0⟩ := getLast_split _ _ hlast
    have hd1 : (a != last.first.id || b != last.second.id || c != last.third.id) = true := by
      simpa [bne_iff_ne, or_assoc] using hd
    have hc : (armed s.deckInfo.state RECOGNIZER_DRAFT_CARD_CHOSEN
        && (s.deck.setHistory.length + 1 == s.deck.pickHistory.length + 2)) = true := by
      simp [hchosen, hlen]
    rw [applyResult_DRAFT_CARD_PICK env s (cardPick a b c) rfl, if_pos hpick]
    unfold cardPick
    rw [handleDraftCardPick_nonempty env s _ a b c l0 last hl0, if_pos hd1]
    refine ⟨_, rfl, ?_, ?_⟩
    · simp only [hc, if_true]
      simp [Deck.addSet, Deck.addUnknownPick]
    · simp only [hc, if_true]
      simp [Deck.addSet, Deck.addUnknownPick]
  · intro s s1 e a b c hchosen hstep
    rw [applyResult_DRAFT_CARD_PICK env s (cardPick a b c) rfl] at hstep
    by_cases hpick : armed s.deckInfo.state RECOGNIZER_DRAFT_CARD_PICK = true
    · rw [if_pos hpick] at hstep
      rcases List.eq_nil_or_concat s.deck.setHistory with hnil | ⟨l0, last, hl⟩
      · by_cases hp : s.deck.pickHistory = []
        · unfold cardPick at hstep
          rw [handleDraftCardPick_empty env s _ a b c hnil hp] at hstep
          cases hstep
          simp [Deck.addSet]
        · unfold cardPick at hstep
          rw [handleDraftCardPick_fault env s _ a b c hnil hp] at hstep
          cases hstep
      · have hl1 : s.deck.setHistory = l0 ++ [last] := by simp [hl]
        unfold cardPick at hstep
        rw [handleDraftCardPick_nonempty env s _ a b c l0 last hl1] at hstep
        split at hstep
        · cases hstep
          simp [hchosen, Deck.addSet]
        · cases hstep
          rfl
    · rw [if_neg hpick] at hstep
      cases hstep
      rfl
  · have h1 : applyResult env (construct env) (cardPick 1 2 3)
        = some ({ construct env with
                  deck := (construct env).deck.addSet (env.cards 1) (env.cards 2) (env.cards 3)
                  deckInfo :=
                    { (construct env).deckInfo with
                      state := enable (enable (construct env).deckInfo.state
                        RECOGNIZER_DRAFT_CLASS_PICK) RECOGNIZER_DRAFT_CARD_CHOSEN } }, []) := by
      rw [applyResult_DRAFT_CARD_PICK env _ (cardPick 1 2 3) rfl, if_pos
        (by simp [construct, RECOGNIZER_DRAFT_CLASS_PICK, RECOGNIZER_DRAFT_CARD_PICK,
        RECOGNIZER_DRAFT_CARD_CHOSEN, armed_enable])]
      exact handleDraftCardPick_empty env _ _ 1 2 3 rfl rfl
    simp only [applyResults, h1]
    rw [applyResult_DRAFT_CARD_PICK env _ (cardPick 7 8 9) rfl, if_pos
        (by simp [construct, RECOGNIZER_DRAFT_CLASS_PICK, RECOGNIZER_DRAFT_CARD_PICK,
        RECOGNIZER_DRAFT_CARD_CHOSEN, armed_enable])]
    unfold cardPick
    rw [handleDraftCardPick_nonempty env _ _ 7 8 9 []
      (CardSet.mk (env.cards 1) (env.cards 2) (env.cards 3)) rfl]
    simp [hid, Deck.addSet, Deck.addUnknownPick, construct, Deck.empty,
      RECOGNIZER_DRAFT_CLASS_PICK, RECOGNIZER_DRAFT_CARD_CHOSEN, RECOGNIZER_DRAFT_CARD_PICK,
      armed_enable]

/-- C3 at a concrete environment: the database of `demoEnv` maps `k` to the card with id `k`. -/
theorem C3_missed_pick_recovery_witness :
    (∀ k, (demoEnv.cards k).id = k)
      ∧ ∃ s2, applyResults demoEnv (construct demoEnv) [cardPick 1 2 3, cardPick 7 8 9]
          = some (s2, [])
        ∧ s2.deck.setHistory
            = [CardSet.mk (demoEnv.cards 1) (demoEnv.cards 2) (demoEnv.cards 3),
               CardSet.mk (demoEnv.cards 7) (demoEnv.cards 8) (demoEnv.cards 9)]
        ∧ s2.deck.pickHistory = [Pick.unknown] :=
  ⟨fun _ => rfl, (C3_missed_pick_recovery demoEnv (fun _ => rfl)).2.2⟩

/-! ## Runs of several results -/

theorem applyResults_cons (env : Env) (s : State) (r : RecognitionResult)
    (rest : List RecognitionResult) :
    applyResults env s (r :: rest)
      = match applyResult env s r with
        | none => none
        | some (s1, e1) =>
          match applyResults env s1 rest with
          | none => none
          | some (s2, e2) => some (s2, e1 ++ e2) := rfl

theorem applyResults_append (env : Env) (s : State) (l1 l2 : List RecognitionResult) :
    applyResults env s (l1 ++ l2)
      = match applyResults env s l1 with
        | none => none
        | some (s1, e1) =>
          match applyResults env s1 l2 with
          | none => none
          | some (s2, e2) => some (s2, e1 ++ e2) := by
  induction l1 generalizing s with
  | nil =>
    simp only [List.nil_append, applyResults]
    cases applyResults env s l2 with
    | none => rfl
    | some p => simp
  | cons r rest ih =>
    rw [List.cons_append, applyResults_cons, applyResults_cons]
    cases h1 : applyResult env s r with
    | none => rfl
    | some p =>
      obtain ⟨s1, e1⟩ := p
      simp only []
      rw [ih s1]
      cases h2 : applyResults env s1 rest with
      | none => rfl
      | some q =>
        obtain ⟨s2, e2⟩ := q
        simp only []
        cases h3 : applyResults env s2 l2 with
        | none => rfl
        | some t => simp

theorem applyResults_prefix_silent (env : Env) (s s1 : State) (l1 l2 : List RecognitionResult)
    (h : applyResults env s (l1 ++ l2) = some (s1, [])) :
    ∃ s0, applyResults env s l1 = some (s0, []) := by
  rw [applyResults_append] at h
  cases h1 : applyResults env s l1 with
  | none => simp [h1] at h
  | some p =>
    obtain ⟨s0, e0⟩ := p
    simp only [h1] at h
    cases h2 : applyResults env s0 l2 with
    | none => simp [h2] at h
    | some q =>
      obtain ⟨s2, e2⟩ := q
      simp only [h2, Option.some.injEq, Prod.mk.injEq, List.append_eq_nil] at h
      exact ⟨s0, by rw [h.2.1]⟩

/-! ## C4: the `DRAFT_CARD_CHOSEN` handler -/

theorem handleDraftCardChosen_eq (env : Env) (s : State) (n : Nat) (k : Int)
    (last : CardSet) (c : Card) (hlast : s.deck.setHistory.getLast? = some last)
    (hc : last.card k = some c) :
    handleDraftCardChosen env s ⟨n, [k]⟩
      = if (s.deck.addPickedCard c).isComplete then
          some ({ s with
                  deck := s.deck.addPickedCard c
                  shouldUpdateDeck := true
                  deckInfo :=
                    { msg := createDeckURLs env (s.deck.addPickedCard c)
                      state := disable (disable (enable (enable s.deckInfo.state
                        RECOGNIZER_DRAFT_CLASS_PICK) RECOGNIZER_DRAFT_CARD_PICK)
                        RECOGNIZER_DRAFT_CARD_CHOSEN) RECOGNIZER_DRAFT_CARD_PICK } },
            [Effect.message (createDeckURLs env (s.deck.addPickedCard c))])
        else
          some ({ s with
                  deck := s.deck.addPickedCard c
                  shouldUpdateDeck := true
                  deckInfo :=
                    { s.deckInfo with
                      state := disable (enable (enable s.deckInfo.state
                        RECOGNIZER_DRAFT_CLASS_PICK) RECOGNIZER_DRAFT_CARD_PICK)
                        RECOGNIZER_DRAFT_CARD_CHOSEN } }, []) := by
  unfold handleDraftCardChosen
  simp [hlast, hc]

theorem cardSet_card_of_range (last : CardSet) (k : Int) (h0 : 0 ≤ k) (h2 : k ≤ 2) :
    ∃ c, last.card k = some c := by
  have hk : k = 0 ∨ k = 1 ∨ k = 2 := by omega
  rcases hk with h | h | h <;> subst h <;> simp [CardSet.card]

/-- A new offer in a state between picks (as many offers as picks, `DRAFT_CARD_CHOSEN`
disarmed): the triple is appended and `DRAFT_CARD_CHOSEN` is armed. -/
theorem draft_offer_step (env : Env) (s : State) (a b c : Int)
    (hlen : s.deck.setHistory.length = s.deck.pickHistory.length)
    (hpick : armed s.deckInfo.state RECOGNIZER_DRAFT_CARD_PICK = true)
    (hchosen : armed s.deckInfo.state RECOGNIZER_DRAFT_CARD_CHOSEN = false)
    (hnew : s.deck.setHistory = [] ∨ ∃ last, s.deck.setHistory.getLast? = some last
        ∧ (a ≠ last.first.id ∨ b ≠ last.second.id ∨ c ≠ last.third.id)) :
    ∃ s1, applyResult env s (cardPick a b c) = some (s1, [])
      ∧ s1.deck = s.deck.addSet (env.cards a) (env.cards b) (env.cards c)
      ∧ s1.deckInfo.state
          = enable (enable s.deckInfo.state RECOGNIZER_DRAFT_CLASS_PICK)
              RECOGNIZER_DRAFT_CARD_CHOSEN := by
  rw [applyResult_DRAFT_CARD_PICK env s (cardPick a b c) rfl, if_pos hpick]
  unfold cardPick
  rcases List.eq_nil_or_concat s.deck.setHistory with hnil | ⟨l0, last, hl⟩
  · have hp : s.deck.pickHistory = [] := by
      apply List.eq_nil_of_length_eq_zero
      rw [← hlen, hnil]
      rfl
    rw [handleDraftCardPick_empty env s _ a b c hnil hp]
    exact ⟨_, rfl, rfl, rfl⟩
  · have hl1 : s.deck.setHistory = l0 ++ [last] := by simp [hl]
    have hlast : s.deck.setHistory.getLast? = some last := by simp [hl1]
    have hd : (a != last.first.id || b != last.second.id || c != last.third.id) = true := by
      rcases hnew with h | ⟨x, hx, hd⟩
      · rw [hl1] at h
        simp at h
      · rw [hlast] at hx
        cases hx
        simpa [bne_iff_ne, or_assoc] using hd
    rw [handleDraftCardPick_nonempty env s _ a b c l0 last hl1, if_pos hd]
    refine ⟨_, rfl, ?_, rfl⟩
    simp [hchosen]

/-- A pick in a state with `DRAFT_CARD_CHOSEN` armed and a last offer. -/
theorem draft_chosen_step (env : Env) (s : State) (k : Int) (last : CardSet) (card : Card)
    (hchosen : armed s.deckInfo.state RECOGNIZER_DRAFT_CARD_CHOSEN = true)
    (hlast : s.deck.setHistory.getLast? = some last)
    (hcard : last.card k = some card) :
    ∃ s2, applyResult env s (cardChosen k)
          = some (s2, if s.deck.pickHistory.length + 1 = 30 then
                        [Effect.message (createDeckURLs env s2.deck)] else [])
      ∧ s2.deck = s.deck.addPickedCard card
      ∧ s2.shouldUpdateDeck = true
      ∧ armed s2.deckInfo.state RECOGNIZER_DRAFT_CLASS_PICK = true
      ∧ armed s2.deckInfo.state RECOGNIZER_DRAFT_CARD_CHOSEN = false
      ∧ armed s2.deckInfo.state RECOGNIZER_DRAFT_CARD_PICK
          = !decide (s.deck.pickHistory.length + 1 = 30) := by
  rw [applyResult_DRAFT_CARD_CHOSEN env s (cardChosen k) rfl, if_pos hchosen]
  unfold cardChosen
  rw [handleDraftCardChosen_eq env s _ k last card hlast hcard]
  by_cases h30 : s.deck.pickHistory.length + 1 = 30
  · have hcomp : (s.deck.addPickedCard card).isComplete = true := by
      simp [Deck.isComplete, Deck.addPickedCard, h30]
    rw [if_pos hcomp]
    simp only [if_pos h30]
    refine ⟨_, rfl, rfl, rfl, ?_, ?_, ?_⟩ <;>
      simp [RECOGNIZER_DRAFT_CLASS_PICK, RECOGNIZER_DRAFT_CARD_PICK,
        RECOGNIZER_DRAFT_CARD_CHOSEN, armed_enable, armed_disable, h30]
  · have hcomp : ¬ ((s.deck.addPickedCard card).isComplete = true) := by
      simp [Deck.isComplete, Deck.addPickedCard]
      omega
    rw [if_neg hcomp]
    simp only [if_neg h30]
    refine ⟨_, rfl, rfl, rfl, ?_, ?_, ?_⟩ <;>
      simp [RECOGNIZER_DRAFT_CLASS_PICK, RECOGNIZER_DRAFT_CARD_PICK,
        RECOGNIZER_DRAFT_CARD_CHOSEN, armed_enable, armed_disable, h30]

theorem draftResults_append (l : List ((Int × Int × Int) × Int)) (o : Int × Int × Int) (k : Int) :
    draftResults (l ++ [(o, k)]) = draftResults l ++ [cardPick o.1 o.2.1 o.2.2, cardChosen k] := by
  induction l with
  | nil => rfl
  | cons x rest ih =>
    obtain ⟨ox, kx⟩ := x
    show cardPick ox.1 ox.2.1 ox.2.2 :: cardChosen kx :: draftResults (rest ++ [(o, k)]) = _
    rw [ih]
    rfl

theorem draftResults_length (l : List ((Int × Int × Int) × Int)) :
    (draftResults l).length = 2 * l.length := by
  induction l with
  | nil => rfl
  | cons x rest ih =>
    obtain ⟨ox, kx⟩ := x
    simp only [draftResults, List.length_cons, ih]
    omega

theorem triple_differs (env : Env) (hid : ∀ k, (env.cards k).id = k) (o x : Int × Int × Int)
    (h : x ≠ o) :
    o.1 ≠ (CardSet.mk (env.cards x.1) (env.cards x.2.1) (env.cards x.2.2)).first.id
      ∨ o.2.1 ≠ (CardSet.mk (env.cards x.1) (env.cards x.2.1) (env.cards x.2.2)).second.id
      ∨ o.2.2 ≠ (CardSet.mk (env.cards x.1) (env.cards x.2.1) (env.cards x.2.2)).third.id := by
  obtain ⟨a, b, c⟩ := o
  obtain ⟨a1, b1, c1⟩ := x
  simp only [hid]
  by_contra hcon
  push_neg at hcon
  apply h
  rw [hcon.1, hcon.2.1, hcon.2.2]

/-- A draft of fewer than 30 offers, each followed by its pick, from the constructor's
state: nothing is emitted and the draft stays between picks. -/
theorem draft_run (env : Env) (hid : ∀ k, (env.cards k).id = k)
    (offers : List ((Int × Int × Int) × Int)) :
    offers.length < 30 →
    (∀ o ∈ offers, 0 ≤ o.2 ∧ o.2 ≤ 2) →
    List.Chain' (fun o p => o.1 ≠ p.1) offers →
    ∃ s1, applyResults env (construct env) (draftResults offers) = some (s1, [])
      ∧ s1.deck.setHistory.length = offers.length
      ∧ s1.deck.pickHistory.length = offers.length
      ∧ armed s1.deckInfo.state RECOGNIZER_DRAFT_CARD_PICK = true
      ∧ armed s1.deckInfo.state RECOGNIZER_DRAFT_CARD_CHOSEN = false
      ∧ s1.deck.setHistory.getLast?
          = offers.getLast?.map
              (fun o => CardSet.mk (env.cards o.1.1) (env.cards o.1.2.1) (env.cards o.1.2.2)) := by
  induction offers using List.reverseRecOn with
  | nil =>
    intro _ _ _
    refine ⟨construct env, rfl, rfl, rfl, ?_, ?_, rfl⟩ <;>
      simp [construct, RECOGNIZER_DRAFT_CLASS_PICK, RECOGNIZER_DRAFT_CARD_PICK,
        RECOGNIZER_DRAFT_CARD_CHOSEN, armed_enable, armed_zero]
  | append_singleton l x ih =>
    obtain ⟨o, k⟩ := x
    intro hlen hrange hchain
    rw [List.length_append] at hlen
    simp only [List.length_singleton] at hlen
    have hchain1 := List.chain'_append.mp hchain
    obtain ⟨s1, hrun, hset, hpicks, hpick, hchosen, hlast⟩ :=
      ih (by omega) (fun p hp => hrange p (List.mem_append_left _ hp)) hchain1.1
    have hk := hrange (o, k) (by simp)
    have hnew : s1.deck.setHistory = [] ∨ ∃ last, s1.deck.setHistory.getLast? = some last
        ∧ (o.1 ≠ last.first.id ∨ o.2.1 ≠ last.second.id ∨ o.2.2 ≠ last.third.id) := by
      rcases List.eq_nil_or_concat l with hnil | ⟨l0, y, hl⟩
      · left
        apply List.eq_nil_of_length_eq_zero
        rw [hset, hnil]
        rfl
      · right
        have hy : l.getLast? = some y := by simp [hl]
        rw [hy] at hlast
        refine ⟨_, hlast, ?_⟩
        apply triple_differs env hid
        exact hchain1.2.2 y (by simp [hy]) (o, k) (by simp)
    obtain ⟨s2, hstep1, hdeck2, hstate2⟩ :=
      draft_offer_step env s1 o.1 o.2.1 o.2.2 (by rw [hset, hpicks]) hpick hchosen hnew
    obtain ⟨card, hcard⟩ := cardSet_card_of_range
      (CardSet.mk (env.cards o.1) (env.cards o.2.1) (env.cards o.2.2)) k hk.1 hk.2
    have hchosen2 : armed s2.deckInfo.state RECOGNIZER_DRAFT_CARD_CHOSEN = true := by
      rw [hstate2]
      simp [RECOGNIZER_DRAFT_CLASS_PICK, RECOGNIZER_DRAFT_CARD_CHOSEN, armed_enable]
    have hlast2 : s2.deck.setHistory.getLast?
        = some (CardSet.mk (env.cards o.1) (env.cards o.2.1) (env.cards o.2.2)) := by
      rw [hdeck2]
      simp [Deck.addSet]
    obtain ⟨s3, hstep2, hdeck3, _, _, hchosen3, hpick3⟩ :=
      draft_chosen_step env s2 k _ card hchosen2 hlast2 hcard
    have hp2 : s2.deck.pickHistory.length = l.length := by
      rw [hdeck2]
      simpa [Deck.addSet] using hpicks
    have h30 : ¬ (s2.deck.pickHistory.length + 1 = 30) := by omega
    rw [if_neg h30] at hstep2
    refine ⟨s3, ?_, ?_, ?_, ?_, hchosen3, ?_⟩
    · rw [draftResults_append, applyResults_append, hrun]
      simp [applyResults, hstep1, hstep2]
    · rw [hdeck3, hdeck2]
      simp [Deck.addPickedCard, Deck.addSet, hset]
    · rw [hdeck3, hdeck2]
      simp [Deck.addPickedCard, Deck.addSet, hpicks]
    · rw [hpick3]
      simp [h30]
    · rw [hdeck3, hdeck2]
      simp [Deck.addPickedCard, Deck.addSet]

/-- C4: in every state with `DRAFT_CARD_CHOSEN` armed and a last offer, a
`DRAFT_CARD_CHOSEN` result with index `k` in 0..2 appends the `k`-th card of the last
offer to `pickHistory`, sets `shouldUpdateDeck`, arms `DRAFT_CLASS_PICK` and disarms
`DRAFT_CARD_CHOSEN`; if `pickHistory` then has 30 entries `DRAFT_CARD_PICK` is disarmed and
the deck message (formatted from streamer name, image URL and paste URL) is the one bot
message, otherwise `DRAFT_CARD_PICK` is armed and nothing is sent. And 30 offers, each new
and each followed by its pick, from the constructor's state send that message exactly
once, at the 60th result: every shorter prefix of the run sends nothing. -/
theorem C4_card_chosen (env : Env) (hid : ∀ k, (env.cards k).id = k) :
    (∀ (s : State) (k : Int) (last : CardSet),
      armed s.deckInfo.state RECOGNIZER_DRAFT_CARD_CHOSEN = true →
      s.deck.setHistory.getLast? = some last → 0 ≤ k → k ≤ 2 →
      ∃ s1 e card, applyResult env s (cardChosen k) = some (s1, e)
        ∧ last.card k = some card
        ∧ s1.deck.pickHistory = s.deck.pickHistory ++ [Pick.known card]
        ∧ s1.shouldUpdateDeck = true
        ∧ armed s1.deckInfo.state RECOGNIZER_DRAFT_CLASS_PICK = true
        ∧ armed s1.deckInfo.state RECOGNIZER_DRAFT_CARD_CHOSEN = false
        ∧ (s1.deck.pickHistory.length = 30 →
            armed s1.deckInfo.state RECOGNIZER_DRAFT_CARD_PICK = false
            ∧ e = [Effect.message (env.CMD_DECK_FORMAT env.sName
                    (env.createImgur (env.createImageRepresentation s1.deck))
                    (env.createHastebin (env.createTextRepresentation s1.deck)))])
        ∧ (s1.deck.pickHistory.length ≠ 30 →
            armed s1.deckInfo.state RECOGNIZER_DRAFT_CARD_PICK = true ∧ e = []))
    ∧ (∀ offers : List ((Int × Int × Int) × Int),
      offers.length = 30 →
      (∀ o ∈ offers, 0 ≤ o.2 ∧ o.2 ≤ 2) →
      List.Chain' (fun o p => o.1 ≠ p.1) offers →
      (∃ s, applyResults env (construct env) (draftResults offers)
          = some (s, [Effect.message (env.CMD_DECK_FORMAT env.sName
                    (env.createImgur (env.createImageRepresentation s.deck))
                    (env.createHastebin (env.createTextRepresentation s.deck)))]))
      ∧ ∀ m, m < 60 →
          ∃ s0, applyResults env (construct env) ((draftResults offers).take m)
            = some (s0, [])) := by
  constructor
  · intro s k last hchosen hlast h0 h2
    obtain ⟨card, hcard⟩ := cardSet_card_of_range last k h0 h2
    obtain ⟨s2, hstep, hdeck, hupd, hclass, hch, hpick⟩ :=
      draft_chosen_step env s k last card hchosen hlast hcard
    have hlen : s2.deck.pickHistory.length = s.deck.pickHistory.length + 1 := by
      rw [hdeck]
      simp [Deck.addPickedCard]
    refine ⟨s2, _, card, hstep, hcard, ?_, hupd, hclass, hch, ?_, ?_⟩
    · rw [hdeck]
      rfl
    · intro h30
      have h : s.deck.pickHistory.length + 1 = 30 := by omega
      rw [hpick, if_pos h]
      exact ⟨by simp [h], rfl⟩
    · intro h30
      have h : ¬ (s.deck.pickHistory.length + 1 = 30) := by omega
      rw [hpick, if_neg h]
      exact ⟨by simp [h], rfl⟩
  · intro offers hlen hrange hchain
    rcases List.eq_nil_or_concat offers with hnil | ⟨l, x, hl⟩
    · rw [hnil] at hlen
      simp at hlen
    · obtain ⟨o, k⟩ := x
      have hoff : offers = l ++ [(o, k)] := by simp [hl]
      subst hoff
      rw [List.length_append] at hlen
      simp only [List.length_singleton] at hlen
      have hchain1 := List.chain'_append.mp hchain
      obtain ⟨s1, hrun, hset, hpicks, hpick, hchosen, hlast⟩ :=
        draft_run env hid l (by omega) (fun p hp => hrange p (List.mem_append_left _ hp))
          hchain1.1
      have hk := hrange (o, k) (by simp)
      have hnew : s1.deck.setHistory = [] ∨ ∃ last, s1.deck.setHistory.getLast? = some last
          ∧ (o.1 ≠ last.first.id ∨ o.2.1 ≠ last.second.id ∨ o.2.2 ≠ last.third.id) := by
        rcases List.eq_nil_or_concat l with hnil | ⟨l0, y, hl0⟩
        · rw [hnil] at hlen
          simp at hlen
        · right
          have hy : l.getLast? = some y := by simp [hl0]
          rw [hy] at hlast
          refine ⟨_, hlast, ?_⟩
          apply triple_differs env hid
          exact hchain1.2.2 y (by simp [hy]) (o, k) (by simp)
      obtain ⟨s2, hstep1, hdeck2, hstate2⟩ :=
        draft_offer_step env s1 o.1 o.2.1 o.2.2 (by rw [hset, hpicks]) hpick hchosen hnew
      obtain ⟨card, hcard⟩ := cardSet_card_of_range
        (CardSet.mk (env.cards o.1) (env.cards o.2.1) (env.cards o.2.2)) k hk.1 hk.2
      have hchosen2 : armed s2.deckInfo.state RECOGNIZER_DRAFT_CARD_CHOSEN = true := by
        rw [hstate2]
        simp [RECOGNIZER_DRAFT_CLASS_PICK, RECOGNIZER_DRAFT_CARD_CHOSEN, armed_enable]
      have hlast2 : s2.deck.setHistory.getLast?
          = some (CardSet.mk (env.cards o.1) (env.cards o.2.1) (env.cards o.2.2)) := by
        rw [hdeck2]
        simp [Deck.addSet]
      obtain ⟨s3, hstep2, _, _, _, _, _⟩ :=
        draft_chosen_step env s2 k _ card hchosen2 hlast2 hcard
      have hp2 : s2.deck.pickHistory.length = l.length := by
        rw [hdeck2]
        simpa [Deck.addSet] using hpicks
      have h30 : s2.deck.pickHistory.length + 1 = 30 := by omega
      rw [if_pos h30] at hstep2
      have hfront : applyResults env (construct env)
          (draftResults l ++ [cardPick o.1 o.2.1 o.2.2]) = some (s2, []) := by
        rw [applyResults_append, hrun]
        simp [applyResults, hstep1]
      constructor
      · refine ⟨s3, ?_⟩
        rw [draftResults_append, applyResults_append, hrun]
        simp [applyResults, hstep1, hstep2, createDeckURLs]
      · intro m hm
        have hsplit : draftResults (l ++ [(o, k)])
            = (draftResults l ++ [cardPick o.1 o.2.1 o.2.2]) ++ [cardChosen k] := by
          rw [draftResults_append]
          simp
        have hfl : (draftResults l ++ [cardPick o.1 o.2.1 o.2.2]).length = 59 := by
          rw [List.length_append, draftResults_length]
          simp
          omega
        have htake : (draftResults (l ++ [(o, k)])).take m
            = (draftResults l ++ [cardPick o.1 o.2.1 o.2.2]).take m := by
          rw [hsplit]
          exact List.take_append_of_le_length (by omega)
        rw [htake]
        have hre := List.take_append_drop m (draftResults l ++ [cardPick o.1 o.2.1 o.2.2])
        rw [← hre] at hfront
        exact applyResults_prefix_silent env _ _ _ _ hfront

/-- C4 at a concrete environment: a result `DRAFT_CARD_CHOSEN [1]` after the offer
(1,2,3) picks the card 2. -/
theorem C4_card_chosen_witness :
    (∀ k, (demoEnv.cards k).id = k)
      ∧ ∃ s1 e card, applyResult demoEnv (demoRun [cardPick 1 2 3]) (cardChosen 1) = some (s1, e)
        ∧ (CardSet.mk (demoEnv.cards 1) (demoEnv.cards 2) (demoEnv.cards 3)).card 1 = some card
        ∧ s1.deck.pickHistory = (demoRun [cardPick 1 2 3]).deck.pickHistory ++ [Pick.known card]
        ∧ s1.shouldUpdateDeck = true
        ∧ armed s1.deckInfo.state RECOGNIZER_DRAFT_CLASS_PICK = true
        ∧ armed s1.deckInfo.state RECOGNIZER_DRAFT_CARD_CHOSEN = false
        ∧ (s1.deck.pickHistory.length = 30 →
            armed s1.deckInfo.state RECOGNIZER_DRAFT_CARD_PICK = false
            ∧ e = [Effect.message (demoEnv.CMD_DECK_FORMAT demoEnv.sName
                    (demoEnv.createImgur (demoEnv.createImageRepresentation s1.deck))
                    (demoEnv.createHastebin (demoEnv.createTextRepresentation s1.deck)))])
        ∧ (s1.deck.pickHistory.length ≠ 30 →
            armed s1.deckInfo.state RECOGNIZER_DRAFT_CARD_PICK = true ∧ e = []) :=
  ⟨fun _ => rfl,
    (C4_card_chosen demoEnv (fun _ => rfl)).1 (demoRun [cardPick 1 2 3]) 1
      (CardSet.mk (demoEnv.cards 1) (demoEnv.cards 2) (demoEnv.cards 3))
      (by decide) (by decide) (by decide) (by decide)⟩

/-! ## A draft reset -/

theorem draft_class_step (env : Env) (s : State) (a b c : Int)
    (harm : armed s.deckInfo.state RECOGNIZER_DRAFT_CLASS_PICK = true) :
    ∃ s1 e, applyResult env s (classPick a b c) = some (s1, e)
      ∧ s1.deck = Deck.empty
      ∧ s1.deckInfo.state
          = enable (disable s.deckInfo.state RECOGNIZER_DRAFT_CLASS_PICK)
              RECOGNIZER_DRAFT_CARD_PICK
      ∧ s1.winsLosses = (0, 0)
      ∧ s1.gameInfo = s.gameInfo := by
  rw [applyResult_DRAFT_CLASS_PICK env s (classPick a b c) rfl, if_pos harm]
  unfold handleDraftClassPick classPick
  by_cases h : armed s.internalState env.INTERNAL_STRAWPOLLING = true
  · simp only [h, if_true]
    exact ⟨_, _, rfl, rfl, rfl, rfl, rfl⟩
  · simp only [h]
    exact ⟨_, _, rfl, rfl, rfl, rfl, rfl⟩

theorem handleDraftCardChosen_no_offer (env : Env) (s : State) (r : RecognitionResult)
    (h : s.deck.setHistory = []) : handleDraftCardChosen env s r = none := by
  unfold handleDraftCardChosen
  simp [h]

theorem construct_deckState (env : Env) :
    (construct env).deckInfo.state
      = enable (enable 0 RECOGNIZER_DRAFT_CLASS_PICK) RECOGNIZER_DRAFT_CARD_PICK := rfl

/-! ## The game machine, one result at a time -/

theorem game_class_show_step (env : Env) (s : State) (r : RecognitionResult) (h1 h2 : Int)
    (hn : r.sourceRecognizer = RECOGNIZER_GAME_CLASS_SHOW)
    (hr0 : r.results[0]? = some h1) (hr1 : r.results[1]? = some h2)
    (harm : armed s.gameInfo.state RECOGNIZER_GAME_CLASS_SHOW = true) :
    ∃ s1, applyResult env s r
        = some (s1,
            if s.shouldUpdateDeck && armed s.internalState env.INTERNAL_APICALLING then
              [Effect.callAPI env.submitDeckFormat
                [s.deck.heroClass, env.createInternalRepresentation s.deck]]
            else [])
      ∧ s1.gameInfo.state
          = disable (enable s.gameInfo.state RECOGNIZER_GAME_COIN) RECOGNIZER_GAME_CLASS_SHOW
      ∧ s1.gameInfo.player = (env.heroes h1).name
      ∧ s1.gameInfo.opponent = (env.heroes h2).name
      ∧ s1.shouldUpdateDeck
          = (s.shouldUpdateDeck && !armed s.internalState env.INTERNAL_APICALLING)
      ∧ s1.winsLosses = s.winsLosses
      ∧ s1.internalState = s.internalState
      ∧ s1.param_debug_level = s.param_debug_level
      ∧ s1.deck = s.deck
      ∧ s1.deckInfo = s.deckInfo
      ∧ s1.drawInfo = s.drawInfo := by
  rw [applyResult_GAME_CLASS_SHOW env s r hn, if_pos harm]
  unfold handleGameClassShow
  simp only [hr0, hr1, Option.bind_eq_bind, Option.some_bind]
  by_cases h : (s.shouldUpdateDeck && armed s.internalState env.INTERNAL_APICALLING) = true
  · simp only [h, if_true]
    refine ⟨_, rfl, rfl, rfl, rfl, ?_, rfl, rfl, rfl, rfl, rfl, rfl⟩
    simp only [Bool.and_eq_true] at h
    simp [h.2]
  · simp only [h]
    refine ⟨_, rfl, rfl, rfl, rfl, ?_, rfl, rfl, rfl, rfl, rfl, rfl⟩
    cases hu : s.shouldUpdateDeck <;> cases ha : armed s.internalState env.INTERNAL_APICALLING <;>
      simp_all

theorem game_coin_step (env : Env) (s : State) (r : RecognitionResult) (r0 : Int)
    (hn : r.sourceRecognizer = RECOGNIZER_GAME_COIN)
    (hr0 : r.results[0]? = some r0)
    (harm : armed s.gameInfo.state RECOGNIZER_GAME_COIN = true) :
    ∃ s1, applyResult env s r
        = some (s1,
            (if armed s.internalState env.INTERNAL_SCORING then
              [Effect.message (env.MSG_GAME_START s.gameInfo.player s.gameInfo.opponent
                (if r0 == env.RESULT_GAME_COIN_FIRST then "1" else "2"))]
             else [])
            ++ (if armed s.param_debug_level 4 then
              [Effect.saveImage ("coin"
                ++ (if r0 == env.RESULT_GAME_COIN_FIRST then "1" else "2")
                ++ env.time ++ ".png")]
             else [])
            ++ (if armed s.internalState env.INTERNAL_APICALLING then
              [Effect.callAPI env.resetDrawsFormat []]
             else []))
      ∧ s1.gameInfo.state
          = disable (enable (enable s.gameInfo.state RECOGNIZER_GAME_END)
              RECOGNIZER_GAME_CLASS_SHOW) RECOGNIZER_GAME_COIN
      ∧ s1.gameInfo.fs = (if r0 == env.RESULT_GAME_COIN_FIRST then "1" else "2")
      ∧ s1.drawInfo.latestDraw = -1
      ∧ s1.shouldUpdateDeck = s.shouldUpdateDeck
      ∧ s1.winsLosses = s.winsLosses
      ∧ s1.internalState = s.internalState
      ∧ s1.param_debug_level = s.param_debug_level
      ∧ s1.deck = s.deck.resetDraws
      ∧ s1.deckInfo = s.deckInfo := by
  rw [applyResult_GAME_COIN env s r hn, if_pos harm]
  unfold handleGameCoin
  simp only [hr0, Option.bind_eq_bind, Option.some_bind]
  exact ⟨_, rfl, rfl, rfl, rfl, rfl, rfl, rfl, rfl, rfl, rfl⟩

theorem game_end_step (env : Env) (s : State) (r : RecognitionResult) (r0 : Int)
    (hn : r.sourceRecognizer = RECOGNIZER_GAME_END)
    (hr0 : r.results[0]? = some r0)
    (harm : armed s.gameInfo.state RECOGNIZER_GAME_END = true) :
    ∃ s1, applyResult env s r
        = some (s1,
            (if armed s.internalState env.INTERNAL_SCORING then
              [Effect.message (env.MSG_GAME_END
                (if r0 == env.RESULT_GAME_END_VICTORY then "w" else "l"))]
             else [])
            ++ (if s1.winsLosses.1 == 12 || s1.winsLosses.2 == 3 then
              [Effect.messageDelayed "!score -constructed" 0]
             else [])
            ++ (if armed s.param_debug_level 4 then
              [Effect.saveImage ((if r0 == env.RESULT_GAME_END_VICTORY then "w" else "l")
                ++ env.time ++ ".png")]
             else []))
      ∧ s1.gameInfo.state
          = disable (enable s.gameInfo.state RECOGNIZER_GAME_CLASS_SHOW) RECOGNIZER_GAME_END
      ∧ s1.winsLosses
          = (if r0 == env.RESULT_GAME_END_VICTORY then (s.winsLosses.1 + 1, s.winsLosses.2)
             else (s.winsLosses.1, s.winsLosses.2 + 1))
      ∧ s1.shouldUpdateDeck = s.shouldUpdateDeck
      ∧ s1.internalState = s.internalState
      ∧ s1.param_debug_level = s.param_debug_level
      ∧ s1.deck = s.deck
      ∧ s1.deckInfo = s.deckInfo
      ∧ s1.drawInfo = s.drawInfo := by
  rw [applyResult_GAME_END env s r hn, if_pos harm]
  unfold handleGameEnd
  simp only [hr0, Option.bind_eq_bind, Option.some_bind]
  by_cases h : r0 = env.RESULT_GAME_END_VICTORY
  · subst h
    simp only [beq_self_eq_true, if_true]
    exact ⟨_, rfl, rfl, rfl, rfl, rfl, rfl, rfl, rfl, rfl⟩
  · have hb : (r0 == env.RESULT_GAME_END_VICTORY) = false := by simpa using h
    simp only [hb]
    exact ⟨_, rfl, rfl, rfl, rfl, rfl, rfl, rfl, rfl, rfl⟩

/-! ## C5: game lifecycle -/

/-- C5: from every state with `GAME_CLASS_SHOW` armed, `wins = 0` and `losses < 3`, whatever
the feature flags, the results `GAME_CLASS_SHOW [h1,h2]`, `GAME_COIN [FIRST]`,
`GAME_END [VICTORY]` are all handled and give `wins = 1` with the losses unchanged. The
class-show step makes the submit-deck call exactly when `shouldUpdateDeck` and `APICALLING`
held (and then `shouldUpdateDeck` is false after it and after the whole game); the coin
step sends the game-start message and the end step the game-end message exactly when
`SCORING` is set. -/
theorem C5_game_lifecycle (env : Env) (s : State) (h1 h2 : Int)
    (harm : armed s.gameInfo.state RECOGNIZER_GAME_CLASS_SHOW = true)
    (hw : s.winsLosses.1 = 0) (hl : s.winsLosses.2 < 3) :
    ∃ s1 s2 s3 e2 e3,
      applyResult env s (gameClassShow h1 h2)
          = some (s1,
              if s.shouldUpdateDeck && armed s.internalState env.INTERNAL_APICALLING then
                [Effect.callAPI env.submitDeckFormat
                  [s.deck.heroClass, env.createInternalRepresentation s.deck]]
              else [])
      ∧ applyResult env s1 (gameCoin env.RESULT_GAME_COIN_FIRST) = some (s2, e2)
      ∧ applyResult env s2 (gameEnd env.RESULT_GAME_END_VICTORY) = some (s3, e3)
      ∧ s3.winsLosses = (1, s.winsLosses.2)
      ∧ ((s.shouldUpdateDeck && armed s.internalState env.INTERNAL_APICALLING) = true →
          s1.shouldUpdateDeck = false ∧ s3.shouldUpdateDeck = false)
      ∧ e2 = (if armed s.internalState env.INTERNAL_SCORING then
                [Effect.message (env.MSG_GAME_START (env.heroes h1).name (env.heroes h2).name "1")]
              else [])
            ++ (if armed s.param_debug_level 4 then
                [Effect.saveImage ("coin" ++ "1" ++ env.time ++ ".png")] else [])
            ++ (if armed s.internalState env.INTERNAL_APICALLING then
                [Effect.callAPI env.resetDrawsFormat []] else [])
      ∧ e3 = (if armed s.internalState env.INTERNAL_SCORING then
                [Effect.message (env.MSG_GAME_END "w")] else [])
            ++ (if armed s.param_debug_level 4 then
                [Effect.saveImage ("w" ++ env.time ++ ".png")] else []) := by
  obtain ⟨s1, hs1, hst1, hp1, ho1, hu1, hwl1, hi1, hd1, _, _, _⟩ :=
    game_class_show_step env s (gameClassShow h1 h2) h1 h2 rfl rfl rfl harm
  have hcoin : armed s1.gameInfo.state RECOGNIZER_GAME_COIN = true := by
    simp [hst1, RECOGNIZER_GAME_COIN, RECOGNIZER_GAME_CLASS_SHOW, armed_enable, armed_disable]
  obtain ⟨s2, hs2, hst2, _, _, hu2, hwl2, hi2, hd2, _, _⟩ :=
    game_coin_step env s1 (gameCoin env.RESULT_GAME_COIN_FIRST) env.RESULT_GAME_COIN_FIRST
      rfl rfl hcoin
  have hend : armed s2.gameInfo.state RECOGNIZER_GAME_END = true := by
    simp [hst2, RECOGNIZER_GAME_COIN, RECOGNIZER_GAME_END, RECOGNIZER_GAME_CLASS_SHOW,
      armed_enable, armed_disable]
  obtain ⟨s3, hs3, _, hwl3, hu3, _, _, _, _, _⟩ :=
    game_end_step env s2 (gameEnd env.RESULT_GAME_END_VICTORY) env.RESULT_GAME_END_VICTORY
      rfl rfl hend
  have hwl : s3.winsLosses = (1, s.winsLosses.2) := by
    rw [hwl3, hwl2, hwl1]
    simp [hw]
  refine ⟨s1, s2, s3, _, _, hs1, hs2, hs3, hwl, ?_, ?_, ?_⟩
  · intro h
    simp only [Bool.and_eq_true] at h
    have : s1.shouldUpdateDeck = false := by rw [hu1]; simp [h.2]
    exact ⟨this, by rw [hu3, hu2, this]⟩
  · simp [hi1, hd1, hp1, ho1]
  · have h12 : ¬ ((1 : Int) = 12) := by decide
    have h3 : ¬ (s.winsLosses.2 = 3) := by omega
    simp [hwl, hi2, hi1, hd2, hd1, h3]

/-- C5 at a concrete input: the constructor's state of `demoEnv` has `GAME_CLASS_SHOW`
armed and the score (0,0). -/
theorem C5_game_lifecycle_witness :
    armed (construct demoEnv).gameInfo.state RECOGNIZER_GAME_CLASS_SHOW = true
      ∧ (construct demoEnv).winsLosses.1 = 0 ∧ (construct demoEnv).winsLosses.2 < 3
      ∧ ∃ s1 s2 s3 e2 e3,
      applyResult demoEnv (construct demoEnv) (gameClassShow 1 2)
          = some (s1,
              if (construct demoEnv).shouldUpdateDeck
                  && armed (construct demoEnv).internalState demoEnv.INTERNAL_APICALLING then
                [Effect.callAPI demoEnv.submitDeckFormat
                  [(construct demoEnv).deck.heroClass,
                   demoEnv.createInternalRepresentation (construct demoEnv).deck]]
              else [])
      ∧ applyResult demoEnv s1 (gameCoin demoEnv.RESULT_GAME_COIN_FIRST) = some (s2, e2)
      ∧ applyResult demoEnv s2 (gameEnd demoEnv.RESULT_GAME_END_VICTORY) = some (s3, e3)
      ∧ s3.winsLosses = (1, (construct demoEnv).winsLosses.2)
      ∧ (((construct demoEnv).shouldUpdateDeck
            && armed (construct demoEnv).internalState demoEnv.INTERNAL_APICALLING) = true →
          s1.shouldUpdateDeck = false ∧ s3.shouldUpdateDeck = false)
      ∧ e2 = (if armed (construct demoEnv).internalState demoEnv.INTERNAL_SCORING then
                [Effect.message (demoEnv.MSG_GAME_START (demoEnv.heroes 1).name
                  (demoEnv.heroes 2).name "1")]
              else [])
            ++ (if armed (construct demoEnv).param_debug_level 4 then
                [Effect.saveImage ("coin" ++ "1" ++ demoEnv.time ++ ".png")] else [])
            ++ (if armed (construct demoEnv).internalState demoEnv.INTERNAL_APICALLING then
                [Effect.callAPI demoEnv.resetDrawsFormat []] else [])
      ∧ e3 = (if armed (construct demoEnv).internalState demoEnv.INTERNAL_SCORING then
                [Effect.message (demoEnv.MSG_GAME_END "w")] else [])
            ++ (if armed (construct demoEnv).param_debug_level 4 then
                [Effect.saveImage ("w" ++ demoEnv.time ++ ".png")] else []) :=
  ⟨by decide, by decide, by decide,
    C5_game_lifecycle demoEnv (construct demoEnv) 1 2 (by decide) (by decide) (by decide)⟩

/-! ## C6: the score counts the game ends -/

theorem handleDraftClassPick_winsLosses (env : Env) (s s1 : State) (r : RecognitionResult)
    (e : List Effect) (h : handleDraftClassPick env s r = some (s1, e)) :
    s1.winsLosses = (0, 0) := by
  unfold handleDraftClassPick at h
  simp only [Option.bind_eq_bind, Option.bind_eq_some] at h
  obtain ⟨_, _, _, _, _, _, h⟩ := h
  split at h <;> cases h <;> rfl

theorem handleDraftCardPick_winsLosses (env : Env) (s s1 : State) (r : RecognitionResult)
    (e : List Effect) (h : handleDraftCardPick env s r = some (s1, e)) :
    s1.winsLosses = s.winsLosses := by
  unfold handleDraftCardPick at h
  simp only [Option.bind_eq_bind, Option.bind_eq_some] at h
  obtain ⟨isNew, _, h⟩ := h
  split at h
  · simp only [Option.bind_eq_some] at h
    obtain ⟨_, _, _, _, _, _, h⟩ := h
    cases h
    rfl
  · cases h
    rfl

theorem handleDraftCardChosen_winsLosses (env : Env) (s s1 : State) (r : RecognitionResult)
    (e : List Effect) (h : handleDraftCardChosen env s r = some (s1, e)) :
    s1.winsLosses = s.winsLosses := by
  unfold handleDraftCardChosen at h
  simp only [Option.bind_eq_bind, Option.bind_eq_some] at h
  obtain ⟨_, _, _, _, _, _, h⟩ := h
  split at h <;> cases h <;> rfl

theorem handleGameClassShow_winsLosses (env : Env) (s s1 : State) (r : RecognitionResult)
    (e : List Effect) (h : handleGameClassShow env s r = some (s1, e)) :
    s1.winsLosses = s.winsLosses := by
  unfold handleGameClassShow at h
  simp only [Option.bind_eq_bind, Option.bind_eq_some] at h
  obtain ⟨_, _, _, _, h⟩ := h
  split at h <;> cases h <;> rfl

theorem handleGameCoin_winsLosses (env : Env) (s s1 : State) (r : RecognitionResult)
    (e : List Effect) (h : handleGameCoin env s r = some (s1, e)) :
    s1.winsLosses = s.winsLosses := by
  unfold handleGameCoin at h
  simp only [Option.bind_eq_bind, Option.bind_eq_some] at h
  obtain ⟨_, _, h⟩ := h
  cases h
  rfl

theorem handleGameEnd_winsLosses (env : Env) (s s1 : State) (r : RecognitionResult)
    (e : List Effect) (h : handleGameEnd env s r = some (s1, e)) :
    s1.winsLosses.1 + s1.winsLosses.2 = s.winsLosses.1 + s.winsLosses.2 + 1 := by
  unfold handleGameEnd at h
  simp only [Option.bind_eq_bind, Option.bind_eq_some] at h
  obtain ⟨r0, _, h⟩ := h
  cases h
  by_cases hv : r0 = env.RESULT_GAME_END_VICTORY
  · simp [hv]
    omega
  · simp [hv]
    omega

theorem fireDraw_winsLosses (env : Env) (s : State) (r0 : Int) :
    (fireDraw env s r0).1.winsLosses = s.winsLosses := by
  unfold fireDraw
  simp only []
  split_ifs <;> rfl

theorem handleGameDraw_winsLosses (env : Env) (s s1 : State) (r : RecognitionResult)
    (e : List Effect) (h : handleGameDraw env s r = some (s1, e)) :
    s1.winsLosses = s.winsLosses := by
  unfold handleGameDraw at h
  simp only [Option.bind_eq_bind, Option.bind_eq_some] at h
  obtain ⟨r0, _, h⟩ := h
  split_ifs at h <;> simp only [Option.some.injEq] at h <;>
    have h1 := congrArg Prod.fst h <;> simp only [] at h1 <;> rw [← h1] <;>
    first
      | rfl
      | exact fireDraw_winsLosses _ _ _

theorem handleGameDrawInit_winsLosses (s s1 : State) (r : RecognitionResult)
    (e : List Effect) (h : handleGameDrawInit s r = some (s1, e)) :
    s1.winsLosses = s.winsLosses := by
  unfold handleGameDrawInit at h
  cases h
  rfl

/-- What one result does to the score. -/
theorem applyResult_score (env : Env) (s s1 : State) (r : RecognitionResult) (e : List Effect)
    (h : applyResult env s r = some (s1, e)) :
    s1.winsLosses.1 + s1.winsLosses.2
      = (if r.sourceRecognizer = RECOGNIZER_DRAFT_CLASS_PICK
            ∧ armed s.deckInfo.state RECOGNIZER_DRAFT_CLASS_PICK = true then 0
         else if r.sourceRecognizer = RECOGNIZER_GAME_END
            ∧ armed s.gameInfo.state RECOGNIZER_GAME_END = true then
           s.winsLosses.1 + s.winsLosses.2 + 1
         else s.winsLosses.1 + s.winsLosses.2) := by
  by_cases hc : r.sourceRecognizer = RECOGNIZER_DRAFT_CLASS_PICK
      ∧ armed s.deckInfo.state RECOGNIZER_DRAFT_CLASS_PICK = true
  · rw [if_pos hc]
    rw [applyResult_DRAFT_CLASS_PICK env s r hc.1, if_pos hc.2] at h
    rw [handleDraftClassPick_winsLosses env s s1 r e h]
    rfl
  · rw [if_neg hc]
    by_cases he : r.sourceRecognizer = RECOGNIZER_GAME_END
        ∧ armed s.gameInfo.state RECOGNIZER_GAME_END = true
    · rw [if_pos he]
      rw [applyResult_GAME_END env s r he.1, if_pos he.2] at h
      exact handleGameEnd_winsLosses env s s1 r e h
    · rw [if_neg he]
      have hkeep : s1.winsLosses = s.winsLosses := by
        unfold applyResult at h
        split_ifs at h with c1 c2 c3 c4 c5 c6 c7 c8 c9
        · exfalso
          simp only [Bool.and_eq_true, beq_iff_eq] at c1
          exact hc ⟨c1.1.symm, c1.2⟩
        · exact handleDraftCardPick_winsLosses env s s1 r e h
        · exact handleDraftCardChosen_winsLosses env s s1 r e h
        · exact handleGameClassShow_winsLosses env s s1 r e h
        · exact handleGameCoin_winsLosses env s s1 r e h
        · exfalso
          simp only [Bool.and_eq_true, beq_iff_eq] at c6
          exact he ⟨c6.1.symm, c6.2⟩
        · exact handleGameDrawInit_winsLosses s s1 r e h
        · exact handleGameDrawInit_winsLosses s s1 r e h
        · exact handleGameDraw_winsLosses env s s1 r e h
        · cases h
          rfl
      rw [hkeep]

theorem countedEnds_score (env : Env) (rs : List RecognitionResult) :
    ∀ (s s1 : State) (n n1 : Nat),
      s.winsLosses.1 + s.winsLosses.2 = (n : Int) →
      countedEnds env s rs n = some (s1, n1) →
      s1.winsLosses.1 + s1.winsLosses.2 = (n1 : Int) := by
  induction rs with
  | nil =>
    intro s s1 n n1 hn h
    simp only [countedEnds, Option.some.injEq, Prod.mk.injEq] at h
    rw [← h.1, ← h.2]
    exact hn
  | cons r rest ih =>
    intro s s1 n n1 hn h
    simp only [countedEnds] at h
    cases hstep : applyResult env s r with
    | none => simp [hstep] at h
    | some p =>
      obtain ⟨s2, e2⟩ := p
      simp only [hstep] at h
      refine ih s2 s1 _ n1 ?_ h
      rw [applyResult_score env s s2 r e2 hstep]
      split_ifs <;> simp [hn]

/-- C6: along every run of recognition results from the constructor's state, in every state
the run reaches `wins + losses` is the number of `GAME_END` results that were applied
while `GAME_END` was armed since the most recent `DRAFT_CLASS_PICK` applied while armed
(since the start when there was none); and a `GAME_END` result arriving while `GAME_END`
is disarmed changes nothing. -/
theorem C6_score_counts_game_ends (env : Env) :
    (∀ (rs : List RecognitionResult) (s : State) (n : Nat),
      countedEnds env (construct env) rs 0 = some (s, n) →
      s.winsLosses.1 + s.winsLosses.2 = (n : Int))
    ∧ (∀ (rs : List RecognitionResult) (s : State) (e : List Effect),
      applyResults env (construct env) rs = some (s, e) →
      ∃ n, countedEnds env (construct env) rs 0 = some (s, n))
    ∧ (∀ (s : State) (r : RecognitionResult),
      r.sourceRecognizer = RECOGNIZER_GAME_END →
      armed s.gameInfo.state RECOGNIZER_GAME_END = false →
      applyResult env s r = some (s, [])) := by
  refine ⟨?_, ?_, ?_⟩
  · intro rs s n h
    exact countedEnds_score env rs (construct env) s 0 n rfl h
  · intro rs
    generalize construct env = s0
    generalize (0 : Nat) = n0
    induction rs generalizing s0 n0 with
    | nil =>
      intro s e h
      simp only [applyResults, Option.some.injEq, Prod.mk.injEq] at h
      exact ⟨n0, by rw [← h.1]; rfl⟩
    | cons r rest ih =>
      intro s e h
      rw [applyResults_cons] at h
      cases hstep : applyResult env s0 r with
      | none => simp [hstep] at h
      | some p =>
        obtain ⟨s2, e2⟩ := p
        simp only [hstep] at h
        cases hrest : applyResults env s2 rest with
        | none => simp [hrest] at h
        | some q =>
          obtain ⟨s3, e3⟩ := q
          simp only [hrest, Option.some.injEq, Prod.mk.injEq] at h
          obtain ⟨n, hn⟩ := ih s2 _ s3 e3 hrest
          refine ⟨n, ?_⟩
          simp only [countedEnds, hstep]
          rw [← h.1]
          exact hn
  · intro s r hk harm
    rw [applyResult_GAME_END env s r hk]
    simp [harm]

/-- C6 at a concrete run: a handled `GAME_END`, then a `GAME_END` arriving while disarmed;
the count and the score are both 1. -/
theorem C6_score_counts_game_ends_witness :
    countedEnds demoEnv (construct demoEnv) [gameEnd 0, gameEnd 0] 0
        = some (demoRun [gameEnd 0, gameEnd 0], 1)
      ∧ (demoRun [gameEnd 0, gameEnd 0]).winsLosses.1
          + (demoRun [gameEnd 0, gameEnd 0]).winsLosses.2 = ((1 : Nat) : Int) :=
  ⟨by decide,
    (C6_score_counts_game_ends demoEnv).1 [gameEnd 0, gameEnd 0]
      (demoRun [gameEnd 0, gameEnd 0]) 1 (by decide)⟩

/-! ## The draw machine, one result at a time -/

theorem drawCalls_append (e1 e2 : List Effect) :
    drawCalls (e1 ++ e2) = drawCalls e1 ++ drawCalls e2 := by
  induction e1 with
  | nil => rfl
  | cons x rest ih => cases x <;> simp [drawCalls, ih]

theorem apiCalls_append (e1 e2 : List Effect) :
    apiCalls (e1 ++ e2) = apiCalls e1 ++ apiCalls e2 := by
  induction e1 with
  | nil => rfl
  | cons x rest ih => cases x <;> simp [apiCalls, ih]

theorem initDrawLoop_drawCalls (env : Env) (internalState : Nat) (ids : List Int) :
    ∀ (deck : Deck) (newCards : Bool),
      drawCalls (initDrawLoop env internalState ids deck newCards).2.2
        = ids.map (fun id => (env.cards id, armed internalState env.INTERNAL_BUILDFROMDRAWS)) := by
  induction ids with
  | nil => intro _ _; rfl
  | cons id rest ih =>
    intro deck newCards
    simp only [initDrawLoop]
    rw [drawCalls_append, ih]
    split <;> simp [drawCalls]

theorem initDrawLoop_apiCalls (env : Env) (internalState : Nat) (ids : List Int) :
    ∀ (deck : Deck) (newCards : Bool),
      apiCalls (initDrawLoop env internalState ids deck newCards).2.2
        = if armed internalState env.INTERNAL_APICALLING then
            ids.map (fun id => (env.drawCardFormat, [fmt03d id]))
          else [] := by
  induction ids with
  | nil => intro _ _; simp [initDrawLoop, apiCalls]
  | cons id rest ih =>
    intro deck newCards
    simp only [initDrawLoop]
    rw [apiCalls_append, ih]
    split <;> simp [apiCalls]

/-- The calls of an accepted draw (lines 313-331). -/
theorem fireDraw_calls (env : Env) (s : State) (r0 : Int) :
    drawCalls (fireDraw env s r0).2
        = ((if s.drawInfo.latestDraw = -1 then s.drawInfo.initialDraw else []) ++ [r0]).map
            (fun id => (env.cards id, armed s.internalState env.INTERNAL_BUILDFROMDRAWS))
      ∧ apiCalls (fireDraw env s r0).2
        = if armed s.internalState env.INTERNAL_APICALLING then
            ((if s.drawInfo.latestDraw = -1 then s.drawInfo.initialDraw else []) ++ [r0]).map
              (fun id => (env.drawCardFormat, [fmt03d id]))
          else [] := by
  by_cases hl : s.drawInfo.latestDraw = -1
  · have hb : (s.drawInfo.latestDraw == -1) = true := by simpa using hl
    simp only [if_pos hl]
    unfold fireDraw
    simp only [hb, if_true]
    constructor
    · split_ifs <;>
        simp [drawCalls_append, drawCalls, initDrawLoop_drawCalls]
    · split_ifs <;>
        simp_all [apiCalls_append, apiCalls, initDrawLoop_apiCalls]
  · have hb : (s.drawInfo.latestDraw == -1) = false := by simpa using hl
    simp only [if_neg hl]
    unfold fireDraw
    simp only [hb, Bool.false_eq_true, if_false]
    constructor
    · split_ifs <;> simp [drawCalls_append, drawCalls]
    · split_ifs <;> simp_all [apiCalls_append, apiCalls]

/-- The state after an accepted draw (lines 310-312, 323-325 and 331). -/
theorem fireDraw_state (env : Env) (s : State) (r0 : Int) :
    (fireDraw env s r0).1.passedFrames = 0
      ∧ (fireDraw env s r0).1.currentCard = (-1, 0)
      ∧ (fireDraw env s r0).1.drawInfo.latestDraw = r0
      ∧ (fireDraw env s r0).1.drawInfo.initialDraw
          = (if s.drawInfo.latestDraw = -1 then [] else s.drawInfo.initialDraw)
      ∧ (fireDraw env s r0).1.drawInfo.state
          = (if s.drawInfo.latestDraw = -1 then
              disable (disable s.drawInfo.state RECOGNIZER_GAME_DRAW_INIT_1)
                RECOGNIZER_GAME_DRAW_INIT_2
             else s.drawInfo.state)
      ∧ (fireDraw env s r0).1.internalState = s.internalState := by
  by_cases hl : s.drawInfo.latestDraw = -1
  · have hb : (s.drawInfo.latestDraw == -1) = true := by simpa using hl
    simp only [if_pos hl]
    unfold fireDraw
    simp only [hb, if_true]
    split_ifs <;> exact ⟨rfl, rfl, rfl, rfl, rfl, rfl⟩
  · have hb : (s.drawInfo.latestDraw == -1) = false := by simpa using hl
    simp only [if_neg hl]
    unfold fireDraw
    simp only [hb, Bool.false_eq_true, if_false]
    split_ifs <;> exact ⟨rfl, rfl, rfl, rfl, rfl, rfl⟩

/-- A result that reaches the `GAME_DRAW` handler and is not accepted (lines 306-308). -/
theorem draw_step_wait (env : Env) (s : State) (r : RecognitionResult) (r0 : Int)
    (hk : r.sourceRecognizer = RECOGNIZER_GAME_DRAW) (hr0 : r.results[0]? = some r0)
    (harm : armed s.drawInfo.state RECOGNIZER_GAME_DRAW = true)
    (hpf : s.passedFrames ≥ env.PASSED_FRAMES_THRESHOLD)
    (hno : ¬ (r0 = s.currentCard.1 ∧ s.currentCard.2 + 1 ≥ env.PASSED_CARD_RECOGNITIONS)) :
    applyResult env s r
      = some ({ s with currentCard := (r0, if r0 = s.currentCard.1 then s.currentCard.2 + 1
                                            else 0) }, []) := by
  rw [applyResult_GAME_DRAW env s r hk]
  have hc : (armed s.drawInfo.state RECOGNIZER_GAME_DRAW
      && decide (s.passedFrames ≥ env.PASSED_FRAMES_THRESHOLD)) = true := by
    simp [harm, hpf]
  rw [if_pos hc]
  unfold handleGameDraw
  simp only [hr0, Option.bind_eq_bind, Option.some_bind]
  by_cases heq : r0 = s.currentCard.1
  · have hlt : ¬ (s.currentCard.2 + 1 ≥ env.PASSED_CARD_RECOGNITIONS) := fun h => hno ⟨heq, h⟩
    simp [heq, hlt]
  · simp [heq]

/-- A result that reaches the `GAME_DRAW` handler and is accepted (lines 306-309). -/
theorem draw_step_fire (env : Env) (s : State) (r : RecognitionResult) (r0 : Int)
    (hk : r.sourceRecognizer = RECOGNIZER_GAME_DRAW) (hr0 : r.results[0]? = some r0)
    (harm : armed s.drawInfo.state RECOGNIZER_GAME_DRAW = true)
    (hpf : s.passedFrames ≥ env.PASSED_FRAMES_THRESHOLD)
    (heq : r0 = s.currentCard.1)
    (hge : s.currentCard.2 + 1 ≥ env.PASSED_CARD_RECOGNITIONS) :
    applyResult env s r
      = some (fireDraw env { s with currentCard := (r0, s.currentCard.2 + 1) } r0) := by
  rw [applyResult_GAME_DRAW env s r hk]
  have hc : (armed s.drawInfo.state RECOGNIZER_GAME_DRAW
      && decide (s.passedFrames ≥ env.PASSED_FRAMES_THRESHOLD)) = true := by
    simp [harm, hpf]
  rw [if_pos hc]
  unfold handleGameDraw
  simp only [hr0, Option.bind_eq_bind, Option.some_bind]
  simp [heq, hge]

/-- A frame carrying one `GAME_DRAW` result that is handled and not accepted. -/
theorem frame_draw_wait (env : Env) (s : State) (r0 : Int)
    (harm : armed s.drawInfo.state RECOGNIZER_GAME_DRAW = true)
    (hpf : s.passedFrames + 1 ≥ env.PASSED_FRAMES_THRESHOLD)
    (hno : ¬ (r0 = s.currentCard.1 ∧ s.currentCard.2 + 1 ≥ env.PASSED_CARD_RECOGNITIONS)) :
    ∃ s1, frame env s [gameDraw r0] = some (s1, [])
      ∧ s1.passedFrames = s.passedFrames + 1
      ∧ s1.currentCard = (r0, if r0 = s.currentCard.1 then s.currentCard.2 + 1 else 0)
      ∧ s1.drawInfo = s.drawInfo
      ∧ s1.internalState = s.internalState := by
  have h := draw_step_wait env { s with passedFrames := s.passedFrames + 1 } (gameDraw r0) r0
    rfl rfl harm hpf hno
  refine ⟨{ s with passedFrames := s.passedFrames + 1,
                    currentCard := (r0, if r0 = s.currentCard.1 then s.currentCard.2 + 1
                                        else 0) }, ?_, rfl, rfl, rfl, rfl⟩
  unfold frame
  rw [applyResults_cons, h]
  rfl

/-- A frame carrying one `GAME_DRAW` result that is accepted. -/
theorem frame_draw_fire (env : Env) (s : State) (r0 : Int)
    (harm : armed s.drawInfo.state RECOGNIZER_GAME_DRAW = true)
    (hpf : s.passedFrames + 1 ≥ env.PASSED_FRAMES_THRESHOLD)
    (heq : r0 = s.currentCard.1)
    (hge : s.currentCard.2 + 1 ≥ env.PASSED_CARD_RECOGNITIONS) :
    ∃ s1 e, frame env s [gameDraw r0] = some (s1, e)
      ∧ drawCalls e
          = ((if s.drawInfo.latestDraw = -1 then s.drawInfo.initialDraw else []) ++ [r0]).map
              (fun id => (env.cards id, armed s.internalState env.INTERNAL_BUILDFROMDRAWS))
      ∧ apiCalls e
          = (if armed s.internalState env.INTERNAL_APICALLING then
              ((if s.drawInfo.latestDraw = -1 then s.drawInfo.initialDraw else []) ++ [r0]).map
                (fun id => (env.drawCardFormat, [fmt03d id]))
             else []) := by
  have h := draw_step_fire env { s with passedFrames := s.passedFrames + 1 } (gameDraw r0) r0
    rfl rfl harm hpf heq hge
  have hc := fireDraw_calls env
    { s with passedFrames := s.passedFrames + 1, currentCard := (r0, s.currentCard.2 + 1) } r0
  refine ⟨(fireDraw env { s with passedFrames := s.passedFrames + 1,
                                    currentCard := (r0, s.currentCard.2 + 1) } r0).1,
    (fireDraw env { s with passedFrames := s.passedFrames + 1,
                           currentCard := (r0, s.currentCard.2 + 1) } r0).2, ?_, hc.1, hc.2⟩
  unfold frame
  rw [applyResults_cons, h]
  simp [applyResults]

theorem frames_cons (env : Env) (s : State) (f : List RecognitionResult)
    (rest : List (List RecognitionResult)) :
    frames env s (f :: rest)
      = match frame env s f with
        | none => none
        | some (s1, e1) =>
          match frames env s1 rest with
          | none => none
          | some (s2, e2) => some (s2, e1 ++ e2) := rfl

/-! ## C7: the debounced draw -/

/-- C7, counterexample to the claim as stated: with `PASSED_CARD_RECOGNITIONS = 3`, in a
state with `GAME_DRAW` armed, `passedFrames` at the threshold, the debounce pair
`(NONE, 0)`, `latestDraw` not `NONE` and `APICALLING` set, three successive frames each
carrying `GAME_DRAW [42]` make no `deck.draw` call and no API call. -/
theorem C7_counterexample :
    demoEnv.PASSED_CARD_RECOGNITIONS = 3
      ∧ armed drawReady.drawInfo.state RECOGNIZER_GAME_DRAW = true
      ∧ drawReady.passedFrames ≥ demoEnv.PASSED_FRAMES_THRESHOLD
      ∧ drawReady.currentCard = (-1, 0)
      ∧ drawReady.drawInfo.latestDraw ≠ -1
      ∧ armed drawReady.internalState demoEnv.INTERNAL_APICALLING = true
      ∧ ∃ s e, frames demoEnv drawReady [[gameDraw 42], [gameDraw 42], [gameDraw 42]]
            = some (s, e)
          ∧ drawCalls e = [] ∧ apiCalls e = [] :=
  ⟨rfl, by decide, by decide, rfl, by decide, by decide,
    { drawReady with passedFrames := 8, currentCard := (42, 2) }, [], by decide, rfl, rfl⟩

/-- C7, amended: with `PASSED_CARD_RECOGNITIONS = 3`, from a state with `GAME_DRAW` armed,
`passedFrames >= PASSED_FRAMES_THRESHOLD`, the debounce pair `(NONE, 0)`, `latestDraw` not
`NONE` and `APICALLING` set, three successive frames each carrying `GAME_DRAW [42]` emit
nothing, and four such frames make, together, exactly one `deck.draw` call, of card 42,
and exactly one draw-card API call, with the argument "042". -/
theorem C7_debounced_draw (env : Env) (s : State)
    (hN : env.PASSED_CARD_RECOGNITIONS = 3)
    (harm : armed s.drawInfo.state RECOGNIZER_GAME_DRAW = true)
    (hpf : s.passedFrames ≥ env.PASSED_FRAMES_THRESHOLD)
    (hcc : s.currentCard = (-1, 0))
    (hl : s.drawInfo.latestDraw ≠ -1)
    (hapi : armed s.internalState env.INTERNAL_APICALLING = true) :
    (∃ s3, frames env s [[gameDraw 42], [gameDraw 42], [gameDraw 42]] = some (s3, []))
      ∧ ∃ s4 e, frames env s [[gameDraw 42], [gameDraw 42], [gameDraw 42], [gameDraw 42]]
            = some (s4, e)
          ∧ drawCalls e = [(env.cards 42, armed s.internalState env.INTERNAL_BUILDFROMDRAWS)]
          ∧ apiCalls e = [(env.drawCardFormat, ["042"])] := by
  obtain ⟨s1, h1, hp1, hc1, hd1, hi1⟩ := frame_draw_wait env s 42 harm (by omega)
    (by rw [hcc]; simp)
  obtain ⟨s2, h2, hp2, hc2, hd2, hi2⟩ := frame_draw_wait env s1 42 (by rw [hd1]; exact harm)
    (by omega) (by rw [hc1, hcc, hN]; simp)
  have hc2a : s2.currentCard = (42, 1) := by rw [hc2, hc1, hcc]; simp
  obtain ⟨s3, h3, hp3, hc3, hd3, hi3⟩ := frame_draw_wait env s2 42
    (by rw [hd2, hd1]; exact harm) (by omega) (by rw [hc2a, hN]; simp)
  have hc3a : s3.currentCard = (42, 2) := by rw [hc3, hc2a]; simp
  obtain ⟨s4, e, h4, hdraw, hcall⟩ := frame_draw_fire env s3 42
    (by rw [hd3, hd2, hd1]; exact harm) (by omega) (by rw [hc3a]) (by rw [hc3a, hN]; simp)
  have hl3 : ¬ (s3.drawInfo.latestDraw = -1) := by rw [hd3, hd2, hd1]; exact hl
  have hapi3 : armed s3.internalState env.INTERNAL_APICALLING = true := by
    rw [hi3, hi2, hi1]; exact hapi
  constructor
  · exact ⟨s3, by simp [frames_cons, frames, h1, h2, h3]⟩
  · refine ⟨s4, e, by simp [frames_cons, frames, h1, h2, h3, h4], ?_, ?_⟩
    · rw [hdraw, if_neg hl3, hi3, hi2, hi1]
      rfl
    · rw [hcall, if_pos hapi3, if_neg hl3]
      have : fmt03d 42 = "042" := by decide
      simp [this]

/-- C7, the amended statement at a concrete input. -/
theorem C7_debounced_draw_witness :
    demoEnv.PASSED_CARD_RECOGNITIONS = 3
      ∧ armed drawReady.drawInfo.state RECOGNIZER_GAME_DRAW = true
      ∧ drawReady.passedFrames ≥ demoEnv.PASSED_FRAMES_THRESHOLD
      ∧ drawReady.currentCard = (-1, 0)
      ∧ drawReady.drawInfo.latestDraw ≠ -1
      ∧ armed drawReady.internalState demoEnv.INTERNAL_APICALLING = true
      ∧ ((∃ s3, frames demoEnv drawReady [[gameDraw 42], [gameDraw 42], [gameDraw 42]]
            = some (s3, []))
        ∧ ∃ s4 e, frames demoEnv drawReady
              [[gameDraw 42], [gameDraw 42], [gameDraw 42], [gameDraw 42]] = some (s4, e)
          ∧ drawCalls e
              = [(demoEnv.cards 42, armed drawReady.internalState demoEnv.INTERNAL_BUILDFROMDRAWS)]
          ∧ apiCalls e = [(demoEnv.drawCardFormat, ["042"])]) :=
  ⟨rfl, by decide, by decide, rfl, by decide, by decide,
    C7_debounced_draw demoEnv drawReady rfl (by decide) (by decide) rfl (by decide)
      (by decide)⟩

/-! ## C10: the first draw of a game -/

/-- C10: when a `GAME_DRAW` result with card id `c` reaches the handler and passes the
debounce test of line 306 (the handler fires on `c`): if `latestDraw = NONE` the
`deck.draw` calls are one per id of `initialDraw` in list order and then one for `c`, the
API calls are, when `APICALLING` is set, draw-card calls for the same ids in the same
order with the id formatted by `%03d` (none otherwise), and afterwards `initialDraw` is
empty, `GAME_DRAW_INIT_1` and `GAME_DRAW_INIT_2` are disarmed and `latestDraw = c`; with
`initialDraw = [10,11,12,13]` these are the draws of 10, 11, 12, 13 and then `c`, with the
API arguments "010", "011", "012", "013" before that of `c`. If `latestDraw` is not `NONE`
there is exactly one `deck.draw` call, for `c`. -/
theorem C10_mulligan (env : Env) (s : State) (r : RecognitionResult) (c : Int)
    (hk : r.sourceRecognizer = RECOGNIZER_GAME_DRAW) (hr0 : r.results[0]? = some c)
    (harm : armed s.drawInfo.state RECOGNIZER_GAME_DRAW = true)
    (hpf : s.passedFrames ≥ env.PASSED_FRAMES_THRESHOLD)
    (heq : c = s.currentCard.1)
    (hge : s.currentCard.2 + 1 ≥ env.PASSED_CARD_RECOGNITIONS) :
    ∃ s1 e, applyResult env s r = some (s1, e)
      ∧ (s.drawInfo.latestDraw = -1 →
          drawCalls e
            = (s.drawInfo.initialDraw ++ [c]).map
                (fun id => (env.cards id, armed s.internalState env.INTERNAL_BUILDFROMDRAWS))
          ∧ apiCalls e
            = (if armed s.internalState env.INTERNAL_APICALLING then
                (s.drawInfo.initialDraw ++ [c]).map
                  (fun id => (env.drawCardFormat, [fmt03d id]))
               else [])
          ∧ s1.drawInfo.initialDraw = []
          ∧ armed s1.drawInfo.state RECOGNIZER_GAME_DRAW_INIT_1 = false
          ∧ armed s1.drawInfo.state RECOGNIZER_GAME_DRAW_INIT_2 = false
          ∧ s1.drawInfo.latestDraw = c)
      ∧ (s.drawInfo.latestDraw = -1 → s.drawInfo.initialDraw = [10, 11, 12, 13] →
          drawCalls e
            = [(env.cards 10, armed s.internalState env.INTERNAL_BUILDFROMDRAWS),
               (env.cards 11, armed s.internalState env.INTERNAL_BUILDFROMDRAWS),
               (env.cards 12, armed s.internalState env.INTERNAL_BUILDFROMDRAWS),
               (env.cards 13, armed s.internalState env.INTERNAL_BUILDFROMDRAWS),
               (env.cards c, armed s.internalState env.INTERNAL_BUILDFROMDRAWS)]
          ∧ (armed s.internalState env.INTERNAL_APICALLING = true →
              apiCalls e
                = [(env.drawCardFormat, ["010"]), (env.drawCardFormat, ["011"]),
                   (env.drawCardFormat, ["012"]), (env.drawCardFormat, ["013"]),
                   (env.drawCardFormat, [fmt03d c])]))
      ∧ (s.drawInfo.latestDraw ≠ -1 →
          drawCalls e = [(env.cards c, armed s.internalState env.INTERNAL_BUILDFROMDRAWS)]
          ∧ s1.drawInfo.latestDraw = c) := by
  have hstep := draw_step_fire env s r c hk hr0 harm hpf heq hge
  have hcalls := fireDraw_calls env { s with currentCard := (c, s.currentCard.2 + 1) } c
  have hstate := fireDraw_state env { s with currentCard := (c, s.currentCard.2 + 1) } c
  simp only [] at hcalls hstate
  refine ⟨(fireDraw env { s with currentCard := (c, s.currentCard.2 + 1) } c).1,
    (fireDraw env { s with currentCard := (c, s.currentCard.2 + 1) } c).2, hstep, ?_, ?_, ?_⟩
  · intro hl
    rw [if_pos hl] at hcalls
    obtain ⟨_, _, hlatest, hinit, hst, _⟩ := hstate
    rw [if_pos hl] at hinit hst
    refine ⟨hcalls.1, hcalls.2, hinit, ?_, ?_, hlatest⟩
    · rw [hst]
      simp [RECOGNIZER_GAME_DRAW_INIT_1, RECOGNIZER_GAME_DRAW_INIT_2, armed_disable]
    · rw [hst]
      simp [RECOGNIZER_GAME_DRAW_INIT_1, RECOGNIZER_GAME_DRAW_INIT_2, armed_disable]
  · intro hl hinit
    rw [if_pos hl, hinit] at hcalls
    refine ⟨hcalls.1, ?_⟩
    intro hapi
    rw [hcalls.2, if_pos hapi]
    have h10 : fmt03d 10 = "010" := by decide
    have h11 : fmt03d 11 = "011" := by decide
    have h12 : fmt03d 12 = "012" := by decide
    have h13 : fmt03d 13 = "013" := by decide
    simp [h10, h11, h12, h13]
  · intro hl
    rw [if_neg hl] at hcalls
    exact ⟨hcalls.1, hstate.2.2.1⟩
/-- C10 at a concrete input: the mulligan [10,11,12,13] and the first draw, of card 5. -/
theorem C10_mulligan_witness :
    armed mulliganReady.drawInfo.state RECOGNIZER_GAME_DRAW = true
      ∧ mulliganReady.passedFrames ≥ demoEnv.PASSED_FRAMES_THRESHOLD
      ∧ (5 : Int) = mulliganReady.currentCard.1
      ∧ mulliganReady.currentCard.2 + 1 ≥ demoEnv.PASSED_CARD_RECOGNITIONS
      ∧ ∃ s1 e, applyResult demoEnv mulliganReady (gameDraw 5) = some (s1, e)
        ∧ drawCalls e
            = [(demoEnv.cards 10, false), (demoEnv.cards 11, false), (demoEnv.cards 12, false),
               (demoEnv.cards 13, false), (demoEnv.cards 5, false)]
        ∧ apiCalls e
            = [("draw", ["010"]), ("draw", ["011"]), ("draw", ["012"]), ("draw", ["013"]),
               ("draw", ["005"])]
        ∧ s1.drawInfo.initialDraw = []
        ∧ armed s1.drawInfo.state RECOGNIZER_GAME_DRAW_INIT_1 = false
        ∧ armed s1.drawInfo.state RECOGNIZER_GAME_DRAW_INIT_2 = false
        ∧ s1.drawInfo.latestDraw = 5 := by
  obtain ⟨s1, e, h, hfirst, hscen, _⟩ :=
    C10_mulligan demoEnv mulliganReady (gameDraw 5) 5 rfl rfl (by decide) (by decide) rfl
      (by decide)
  exact ⟨by decide, by decide, rfl, by decide, s1, e, h, (hscen rfl rfl).1,
    (hscen rfl rfl).2 (by decide), (hfirst rfl).2.2.1, (hfirst rfl).2.2.2.1,
    (hfirst rfl).2.2.2.2.1, (hfirst rfl).2.2.2.2.2⟩

/-! ## What the other handlers leave alone -/

theorem pollLoop_drawCalls (env : Env) (classNames : List String) (fuel : Nat) :
    ∀ (calls : Nat) (i : Int), drawCalls (pollLoop env classNames calls i fuel).2.2 = [] := by
  induction fuel with
  | zero => intro _ _; rfl
  | succ n ih =>
    intro calls i
    simp only [pollLoop]
    split_ifs
    · simp only [drawCalls]
      exact ih _ _
    · rfl
    · rfl

theorem handleDraftClassPick_frame (env : Env) (s s1 : State) (r : RecognitionResult)
    (e : List Effect) (h : handleDraftClassPick env s r = some (s1, e)) :
    s1.passedFrames = s.passedFrames ∧ s1.currentCard = s.currentCard ∧ drawCalls e = [] := by
  unfold handleDraftClassPick at h
  simp only [Option.bind_eq_bind, Option.bind_eq_some] at h
  obtain ⟨_, _, _, _, _, _, h⟩ := h
  split at h
  · simp only [Option.some.injEq, Prod.mk.injEq] at h
    obtain ⟨hs, he⟩ := h
    subst hs
    subst he
    refine ⟨rfl, rfl, ?_⟩
    rw [drawCalls_append, drawCalls_append]
    simp only [drawCalls, pollLoop_drawCalls, List.nil_append]
    split <;> rfl
  · cases h
    exact ⟨rfl, rfl, rfl⟩

theorem handleDraftCardPick_frame (env : Env) (s s1 : State) (r : RecognitionResult)
    (e : List Effect) (h : handleDraftCardPick env s r = some (s1, e)) :
    s1.passedFrames = s.passedFrames ∧ s1.currentCard = s.currentCard ∧ drawCalls e = [] := by
  unfold handleDraftCardPick at h
  simp only [Option.bind_eq_bind, Option.bind_eq_some] at h
  obtain ⟨isNew, _, h⟩ := h
  split at h
  · simp only [Option.bind_eq_some] at h
    obtain ⟨_, _, _, _, _, _, h⟩ := h
    cases h
    exact ⟨rfl, rfl, rfl⟩
  · cases h
    exact ⟨rfl, rfl, rfl⟩

theorem handleDraftCardChosen_frame (env : Env) (s s1 : State) (r : RecognitionResult)
    (e : List Effect) (h : handleDraftCardChosen env s r = some (s1, e)) :
    s1.passedFrames = s.passedFrames ∧ s1.currentCard = s.currentCard ∧ drawCalls e = [] := by
  unfold handleDraftCardChosen at h
  simp only [Option.bind_eq_bind, Option.bind_eq_some] at h
  obtain ⟨_, _, _, _, _, _, h⟩ := h
  split at h <;> cases h <;> exact ⟨rfl, rfl, rfl⟩

theorem handleGameClassShow_frame (env : Env) (s s1 : State) (r : RecognitionResult)
    (e : List Effect) (h : handleGameClassShow env s r = some (s1, e)) :
    s1.passedFrames = s.passedFrames ∧ s1.currentCard = s.currentCard ∧ drawCalls e = [] := by
  unfold handleGameClassShow at h
  simp only [Option.bind_eq_bind, Option.bind_eq_some] at h
  obtain ⟨_, _, _, _, h⟩ := h
  split at h <;> cases h <;> exact ⟨rfl, rfl, rfl⟩

theorem handleGameCoin_frame (env : Env) (s s1 : State) (r : RecognitionResult)
    (e : List Effect) (h : handleGameCoin env s r = some (s1, e)) :
    s1.passedFrames = s.passedFrames ∧ s1.currentCard = s.currentCard ∧ drawCalls e = [] := by
  unfold handleGameCoin at h
  simp only [Option.bind_eq_bind, Option.bind_eq_some] at h
  obtain ⟨_, _, h⟩ := h
  cases h
  refine ⟨rfl, rfl, ?_⟩
  rw [drawCalls_append, drawCalls_append]
  split_ifs <;> rfl

theorem handleGameEnd_frame (env : Env) (s s1 : State) (r : RecognitionResult)
    (e : List Effect) (h : handleGameEnd env s r = some (s1, e)) :
    s1.passedFrames = s.passedFrames ∧ s1.currentCard = s.currentCard ∧ drawCalls e = [] := by
  unfold handleGameEnd at h
  simp only [Option.bind_eq_bind, Option.bind_eq_some] at h
  obtain ⟨_, _, h⟩ := h
  cases h
  refine ⟨rfl, rfl, ?_⟩
  rw [drawCalls_append, drawCalls_append]
  split_ifs <;> rfl

theorem handleGameDrawInit_frame (s s1 : State) (r : RecognitionResult)
    (e : List Effect) (h : handleGameDrawInit s r = some (s1, e)) :
    s1.passedFrames = s.passedFrames ∧ s1.currentCard = s.currentCard ∧ drawCalls e = [] := by
  unfold handleGameDrawInit at h
  cases h
  exact ⟨rfl, rfl, rfl⟩

/-- A result that does not reach the `GAME_DRAW` handler leaves `passedFrames` and the
debounce pair as they are and calls no `deck.draw`. -/
theorem applyResult_not_reaching (env : Env) (s s1 : State) (r : RecognitionResult)
    (e : List Effect) (hnr : reachesDraw env s r = false)
    (h : applyResult env s r = some (s1, e)) :
    s1.passedFrames = s.passedFrames ∧ s1.currentCard = s.currentCard ∧ drawCalls e = [] := by
  unfold applyResult at h
  split_ifs at h with c1 c2 c3 c4 c5 c6 c7 c8 c9
  · exact handleDraftClassPick_frame env s s1 r e h
  · exact handleDraftCardPick_frame env s s1 r e h
  · exact handleDraftCardChosen_frame env s s1 r e h
  · exact handleGameClassShow_frame env s s1 r e h
  · exact handleGameCoin_frame env s s1 r e h
  · exact handleGameEnd_frame env s s1 r e h
  · exact handleGameDrawInit_frame s s1 r e h
  · exact handleGameDrawInit_frame s s1 r e h
  · exfalso
    unfold reachesDraw at hnr
    rw [c9] at hnr
    cases hnr
  · cases h
    exact ⟨rfl, rfl, rfl⟩

/-- A result that reaches the `GAME_DRAW` handler: it carries an id, and the debounce test
of line 306 decides between an accepted draw and a wait. -/
theorem applyResult_reaching (env : Env) (s s1 : State) (r : RecognitionResult)
    (e : List Effect) (hr : reachesDraw env s r = true)
    (h : applyResult env s r = some (s1, e)) :
    ∃ r0, r.results[0]? = some r0
      ∧ s.passedFrames ≥ env.PASSED_FRAMES_THRESHOLD
      ∧ ((r0 = s.currentCard.1 ∧ s.currentCard.2 + 1 ≥ env.PASSED_CARD_RECOGNITIONS
            ∧ fired e = true ∧ s1.passedFrames = 0 ∧ s1.currentCard = (-1, 0))
          ∨ (¬ (r0 = s.currentCard.1 ∧ s.currentCard.2 + 1 ≥ env.PASSED_CARD_RECOGNITIONS)
            ∧ e = [] ∧ s1.passedFrames = s.passedFrames
            ∧ s1.currentCard = (r0, if r0 = s.currentCard.1 then s.currentCard.2 + 1 else 0))) := by
  unfold reachesDraw at hr
  simp only [Bool.and_eq_true, beq_iff_eq, decide_eq_true_eq] at hr
  obtain ⟨⟨hk, harm⟩, hpf⟩ := hr
  cases hr0 : r.results[0]? with
  | none =>
    rw [applyResult_GAME_DRAW env s r hk.symm] at h
    simp [harm, hpf, handleGameDraw, hr0] at h
  | some r0 =>
    refine ⟨r0, rfl, hpf, ?_⟩
    by_cases hp : r0 = s.currentCard.1 ∧ s.currentCard.2 + 1 ≥ env.PASSED_CARD_RECOGNITIONS
    · left
      rw [draw_step_fire env s r r0 hk.symm hr0 harm hpf hp.1 hp.2] at h
      simp only [Option.some.injEq] at h
      have hc := fireDraw_calls env { s with currentCard := (r0, s.currentCard.2 + 1) } r0
      have hst := fireDraw_state env { s with currentCard := (r0, s.currentCard.2 + 1) } r0
      rw [h] at hc hst
      refine ⟨hp.1, hp.2, ?_, hst.1, hst.2.1⟩
      unfold fired
      rw [hc.1]
      simp
    · right
      rw [draw_step_wait env s r r0 hk.symm hr0 harm hpf hp] at h
      simp only [Option.some.injEq, Prod.mk.injEq] at h
      obtain ⟨hs, he⟩ := h
      subst hs
      exact ⟨hp, he.symm, rfl, rfl⟩

/-! ## C8: debounce safety -/

theorem resultsLog_cons (env : Env) (k : Nat) (s : State) (hist : List Int)
    (r : RecognitionResult) (rest : List RecognitionResult) :
    resultsLog env k s hist (r :: rest)
      = match applyResult env s r with
        | none => none
        | some (s1, e) =>
          match resultsLog env k s1
              (if reachesDraw env s r then
                match r.results[0]? with
                | some id => id :: hist
                | none => hist
               else hist) rest with
          | none => none
          | some (s2, hist2, log) =>
            some (s2, hist2,
              (if fired e then
                match r.results[0]? with
                | some id =>
                  [Firing.mk k id
                    (if reachesDraw env s r then
                      match r.results[0]? with
                      | some id => id :: hist
                      | none => hist
                     else hist)]
                | none => []
               else []) ++ log) := rfl

theorem take_cons_replicate (x : Int) (hist : List Int) (c n : Nat)
    (h : hist.take c = List.replicate c x) (hn : n ≤ c + 1) :
    (x :: hist).take n = List.replicate n x := by
  cases n with
  | zero => rfl
  | succ m =>
    have hm : m ≤ c := by omega
    have h1 : hist.take m = List.replicate m x := by
      have := congrArg (List.take m) h
      rw [List.take_take, List.take_replicate, Nat.min_eq_left hm] at this
      exact this
    simp [List.take, h1, List.replicate]

/-- The debounce invariant along the results of a frame: the most recent `count` handled
ids are equal to the candidate, and every accepted draw has the last
`PASSED_CARD_RECOGNITIONS` handled ids equal to its own. -/
theorem resultsLog_debounce (env : Env) (k : Nat) (rs : List RecognitionResult) :
    ∀ (s s1 : State) (hist hist1 : List Int) (log : List Firing),
      0 ≤ s.currentCard.2 →
      hist.take s.currentCard.2.toNat = List.replicate s.currentCard.2.toNat s.currentCard.1 →
      resultsLog env k s hist rs = some (s1, hist1, log) →
      (0 ≤ s1.currentCard.2
        ∧ hist1.take s1.currentCard.2.toNat
            = List.replicate s1.currentCard.2.toNat s1.currentCard.1)
      ∧ ∀ f ∈ log, f.handled.head? = some f.id
          ∧ f.handled.take env.PASSED_CARD_RECOGNITIONS.toNat
              = List.replicate env.PASSED_CARD_RECOGNITIONS.toNat f.id := by
  induction rs with
  | nil =>
    intro s s1 hist hist1 log h0 hinv h
    simp only [resultsLog, Option.some.injEq, Prod.mk.injEq] at h
    obtain ⟨hs, hh, hl⟩ := h
    subst hs; subst hh; subst hl
    exact ⟨⟨h0, hinv⟩, by simp⟩
  | cons r rest ih =>
    intro s s1 hist hist1 log h0 hinv h
    rw [resultsLog_cons] at h
    cases hstep : applyResult env s r with
    | none => simp [hstep] at h
    | some p =>
      obtain ⟨s2, e⟩ := p
      simp only [hstep] at h
      cases hreach : reachesDraw env s r with
      | false =>
        obtain ⟨_, hcc, hdc⟩ := applyResult_not_reaching env s s2 r e hreach hstep
        have hf : fired e = false := by simp [fired, hdc]
        simp only [hreach, hf, Bool.false_eq_true, if_false, List.nil_append] at h
        cases hrest : resultsLog env k s2 hist rest with
        | none => simp [hrest] at h
        | some q =>
          obtain ⟨s3, hist3, log3⟩ := q
          simp only [hrest, Option.some.injEq, Prod.mk.injEq] at h
          obtain ⟨hs, hh, hl⟩ := h
          subst hs; subst hh; subst hl
          exact ih s2 s3 hist hist3 log3 (by rw [hcc]; exact h0) (by rw [hcc]; exact hinv) hrest
      | true =>
        obtain ⟨r0, hr0, _, hcase⟩ := applyResult_reaching env s s2 r e hreach hstep
        simp only [hreach, hr0, if_true] at h
        rcases hcase with ⟨heq, hge, hfired, _, hcc⟩ | ⟨hno, he, _, hcc⟩
        · simp only [hfired, if_true] at h
          cases hrest : resultsLog env k s2 (r0 :: hist) rest with
          | none => simp [hrest] at h
          | some q =>
            obtain ⟨s3, hist3, log3⟩ := q
            simp only [hrest, Option.some.injEq, Prod.mk.injEq] at h
            obtain ⟨hs, hh, hl⟩ := h
            subst hs; subst hh; subst hl
            have hrec := ih s2 s3 (r0 :: hist) hist3 log3 (by rw [hcc]) (by rw [hcc]; rfl) hrest
            refine ⟨hrec.1, ?_⟩
            intro f hf
            simp only [List.singleton_append, List.mem_cons] at hf
            rcases hf with hf | hf
            · subst hf
              simp only []
              refine ⟨rfl, ?_⟩
              apply take_cons_replicate r0 hist s.currentCard.2.toNat
              · rw [heq]
                exact hinv
              · omega
            · exact hrec.2 f hf
        · have hf : fired e = false := by rw [he]; rfl
          simp only [hf, Bool.false_eq_true, if_false, List.nil_append] at h
          cases hrest : resultsLog env k s2 (r0 :: hist) rest with
          | none => simp [hrest] at h
          | some q =>
            obtain ⟨s3, hist3, log3⟩ := q
            simp only [hrest, Option.some.injEq, Prod.mk.injEq] at h
            obtain ⟨hs, hh, hl⟩ := h
            subst hs; subst hh; subst hl
            refine ih s2 s3 (r0 :: hist) hist3 log3 ?_ ?_ hrest
            · rw [hcc]
              simp only []
              split_ifs <;> omega
            · rw [hcc]
              simp only []
              by_cases heq : r0 = s.currentCard.1
              · rw [if_pos heq]
                apply take_cons_replicate r0 hist s.currentCard.2.toNat
                · rw [heq]
                  exact hinv
                · omega
              · rw [if_neg heq]
                rfl
theorem framesLog_cons (env : Env) (k : Nat) (s : State) (hist : List Int)
    (f : List RecognitionResult) (rest : List (List RecognitionResult)) :
    framesLog env k s hist (f :: rest)
      = match resultsLog env k { s with passedFrames := s.passedFrames + 1 } hist f with
        | none => none
        | some (s1, hist1, log1) =>
          match framesLog env (k + 1) s1 hist1 rest with
          | none => none
          | some (s2, hist2, log2) => some (s2, hist2, log1 ++ log2) := rfl

theorem framesLog_debounce (env : Env) (fs : List (List RecognitionResult)) :
    ∀ (k : Nat) (s s1 : State) (hist hist1 : List Int) (log : List Firing),
      0 ≤ s.currentCard.2 →
      hist.take s.currentCard.2.toNat = List.replicate s.currentCard.2.toNat s.currentCard.1 →
      framesLog env k s hist fs = some (s1, hist1, log) →
      ∀ f ∈ log, f.handled.head? = some f.id
        ∧ f.handled.take env.PASSED_CARD_RECOGNITIONS.toNat
            = List.replicate env.PASSED_CARD_RECOGNITIONS.toNat f.id := by
  induction fs with
  | nil =>
    intro k s s1 hist hist1 log _ _ h
    simp only [framesLog, Option.some.injEq, Prod.mk.injEq] at h
    rw [← h.2.2]
    simp
  | cons fr rest ih =>
    intro k s s1 hist hist1 log h0 hinv h
    rw [framesLog_cons] at h
    cases h1 : resultsLog env k { s with passedFrames := s.passedFrames + 1 } hist fr with
    | none => simp [h1] at h
    | some p =>
      obtain ⟨s2, hist2, log2⟩ := p
      simp only [h1] at h
      cases h2 : framesLog env (k + 1) s2 hist2 rest with
      | none => simp [h2] at h
      | some q =>
        obtain ⟨s3, hist3, log3⟩ := q
        simp only [h2, Option.some.injEq, Prod.mk.injEq] at h
        obtain ⟨_, _, hl⟩ := h
        subst hl
        have hfr := resultsLog_debounce env k fr
          { s with passedFrames := s.passedFrames + 1 } s2 hist hist2 log2 h0 hinv h1
        have hrest := ih (k + 1) s2 s3 hist2 hist3 log3 hfr.1.1 hfr.1.2 h2
        intro f hf
        rcases List.mem_append.mp hf with hf | hf
        · exact hfr.2 f hf
        · exact hrest f hf

theorem resultsLog_of_applyResults (env : Env) (k : Nat) (rs : List RecognitionResult) :
    ∀ (s s1 : State) (e : List Effect) (hist : List Int),
      applyResults env s rs = some (s1, e) →
      ∃ hist1 log, resultsLog env k s hist rs = some (s1, hist1, log) := by
  induction rs with
  | nil =>
    intro s s1 e hist h
    simp only [applyResults, Option.some.injEq, Prod.mk.injEq] at h
    exact ⟨hist, [], by rw [← h.1]; rfl⟩
  | cons r rest ih =>
    intro s s1 e hist h
    rw [applyResults_cons] at h
    cases hstep : applyResult env s r with
    | none => simp [hstep] at h
    | some p =>
      obtain ⟨s2, e2⟩ := p
      simp only [hstep] at h
      cases hrest : applyResults env s2 rest with
      | none => simp [hrest] at h
      | some q =>
        obtain ⟨s3, e3⟩ := q
        simp only [hrest, Option.some.injEq, Prod.mk.injEq] at h
        obtain ⟨hist1, log, hl⟩ := ih s2 s3 e3
          (if reachesDraw env s r then
            match r.results[0]? with
            | some id => id :: hist
            | none => hist
           else hist) hrest
        rw [resultsLog_cons, hstep]
        simp only [hl]
        rw [← h.1]
        exact ⟨_, _, rfl⟩

theorem framesLog_of_frames (env : Env) (fs : List (List RecognitionResult)) :
    ∀ (k : Nat) (s s1 : State) (e : List Effect) (hist : List Int),
      frames env s fs = some (s1, e) →
      ∃ hist1 log, framesLog env k s hist fs = some (s1, hist1, log) := by
  induction fs with
  | nil =>
    intro k s s1 e hist h
    simp only [frames, Option.some.injEq, Prod.mk.injEq] at h
    exact ⟨hist, [], by rw [← h.1]; rfl⟩
  | cons fr rest ih =>
    intro k s s1 e hist h
    rw [frames_cons] at h
    cases hstep : frame env s fr with
    | none => simp [hstep] at h
    | some p =>
      obtain ⟨s2, e2⟩ := p
      simp only [hstep] at h
      cases hrest : frames env s2 rest with
      | none => simp [hrest] at h
      | some q =>
        obtain ⟨s3, e3⟩ := q
        simp only [hrest, Option.some.injEq, Prod.mk.injEq] at h
        obtain ⟨hist1, log1, hl1⟩ := resultsLog_of_applyResults env k fr
          { s with passedFrames := s.passedFrames + 1 } s2 e2 hist hstep
        obtain ⟨hist2, log2, hl2⟩ := ih (k + 1) s2 s3 e3 hist1 hrest
        rw [framesLog_cons, hl1]
        simp only [hl2]
        rw [← h.1]
        exact ⟨_, _, rfl⟩

/-- C8: along every run of frames from a state whose debounce count is 0, every accepted
draw, on a result with `results[0] = x`, is itself the most recent result that reached the
`GAME_DRAW` handler, and the most recent `PASSED_CARD_RECOGNITIONS` results that reached
the handler all had `results[0] = x` (there are that many); the recorded run exists
whenever the run of `frames` does; and a result that reaches the handler with an id
different from the candidate is not accepted and resets the count to 0. -/
theorem C8_debounce_safety (env : Env) :
    (∀ (fs : List (List RecognitionResult)) (s s1 : State) (hist : List Int)
        (log : List Firing),
      s.currentCard.2 = 0 →
      framesLog env 0 s [] fs = some (s1, hist, log) →
      ∀ f ∈ log, f.handled.head? = some f.id
        ∧ f.handled.take env.PASSED_CARD_RECOGNITIONS.toNat
            = List.replicate env.PASSED_CARD_RECOGNITIONS.toNat f.id)
    ∧ (∀ (fs : List (List RecognitionResult)) (s s1 : State) (e : List Effect),
      frames env s fs = some (s1, e) →
      ∃ hist log, framesLog env 0 s [] fs = some (s1, hist, log))
    ∧ (∀ (s : State) (r : RecognitionResult) (r0 : Int),
      reachesDraw env s r = true → r.results[0]? = some r0 → r0 ≠ s.currentCard.1 →
      ∃ s1, applyResult env s r = some (s1, []) ∧ s1.currentCard = (r0, 0)) := by
  refine ⟨?_, ?_, ?_⟩
  · intro fs s s1 hist log h0 h
    exact framesLog_debounce env fs 0 s s1 [] hist log (by rw [h0]) (by rw [h0]; rfl) h
  · intro fs s s1 e h
    exact framesLog_of_frames env fs 0 s s1 e [] h
  · intro s r r0 hreach hr0 hne
    unfold reachesDraw at hreach
    simp only [Bool.and_eq_true, beq_iff_eq, decide_eq_true_eq] at hreach
    obtain ⟨⟨hk, harm⟩, hpf⟩ := hreach
    rw [draw_step_wait env s r r0 hk.symm hr0 harm hpf (fun h => hne h.1)]
    exact ⟨_, rfl, by simp [hne]⟩

/-- C8 at a concrete run: four frames carrying `GAME_DRAW [42]` from `drawReady`; the draw
is accepted in the fourth frame, after the handled ids 42, 42, 42, 42. -/
theorem C8_debounce_safety_witness :
    drawReady.currentCard.2 = 0
      ∧ ∃ s1, framesLog demoEnv 0 drawReady []
            [[gameDraw 42], [gameDraw 42], [gameDraw 42], [gameDraw 42]]
          = some (s1, [42, 42, 42, 42], [Firing.mk 3 42 [42, 42, 42, 42]])
        ∧ (Firing.mk 3 42 [42, 42, 42, 42]).handled.head? = some 42
        ∧ (Firing.mk 3 42 [42, 42, 42, 42]).handled.take demoEnv.PASSED_CARD_RECOGNITIONS.toNat
            = List.replicate demoEnv.PASSED_CARD_RECOGNITIONS.toNat 42 := by
  have hm : (framesLog demoEnv 0 drawReady []
      [[gameDraw 42], [gameDraw 42], [gameDraw 42], [gameDraw 42]]).map (fun p => p.2)
      = some ([42, 42, 42, 42], [Firing.mk 3 42 [42, 42, 42, 42]]) := by decide
  cases h : framesLog demoEnv 0 drawReady []
      [[gameDraw 42], [gameDraw 42], [gameDraw 42], [gameDraw 42]] with
  | none =>
    rw [h] at hm
    cases hm
  | some p =>
    obtain ⟨s1, hist, log⟩ := p
    rw [h] at hm
    simp only [Option.map_some', Option.some.injEq, Prod.mk.injEq] at hm
    obtain ⟨hh, hl⟩ := hm
    subst hh
    subst hl
    exact ⟨rfl, s1, rfl,
      (C8_debounce_safety demoEnv).1 _ drawReady s1 _ _ rfl h _ (List.mem_singleton.mpr rfl)⟩

/-! ## C9: the minimum frame gap -/

/-- Within the frame `k`: if `passedFrames + B <= k` for a bound `B` on the frames of the
earlier accepted draws, every accepted draw of the frame is at least
`PASSED_FRAMES_THRESHOLD` frames after `B`, and the bound carries over. -/
theorem resultsLog_gap (env : Env) (hT : 1 ≤ env.PASSED_FRAMES_THRESHOLD) (k : Nat)
    (rs : List RecognitionResult) :
    ∀ (s s1 : State) (hist hist1 : List Int) (log : List Firing) (B : Int),
      s.passedFrames + B ≤ k →
      resultsLog env k s hist rs = some (s1, hist1, log) →
      ∃ B1 : Int, s1.passedFrames + B1 ≤ k ∧ B ≤ B1
        ∧ (∀ f ∈ log, B + env.PASSED_FRAMES_THRESHOLD ≤ f.frame ∧ (f.frame : Int) ≤ B1)
        ∧ log.Pairwise (fun a b => (a.frame : Int) + env.PASSED_FRAMES_THRESHOLD ≤ b.frame) := by
  induction rs with
  | nil =>
    intro s s1 hist hist1 log B hB h
    simp only [resultsLog, Option.some.injEq, Prod.mk.injEq] at h
    obtain ⟨hs, _, hl⟩ := h
    subst hs; subst hl
    exact ⟨B, hB, le_refl B, by simp, List.Pairwise.nil⟩
  | cons r rest ih =>
    intro s s1 hist hist1 log B hB h
    rw [resultsLog_cons] at h
    cases hstep : applyResult env s r with
    | none => simp [hstep] at h
    | some p =>
      obtain ⟨s2, e⟩ := p
      simp only [hstep] at h
      cases hreach : reachesDraw env s r with
      | false =>
        obtain ⟨hpf, _, hdc⟩ := applyResult_not_reaching env s s2 r e hreach hstep
        have hf : fired e = false := by simp [fired, hdc]
        simp only [hreach, hf, Bool.false_eq_true, if_false, List.nil_append] at h
        cases hrest : resultsLog env k s2 hist rest with
        | none => simp [hrest] at h
        | some q =>
          obtain ⟨s3, hist3, log3⟩ := q
          simp only [hrest, Option.some.injEq, Prod.mk.injEq] at h
          obtain ⟨hs, _, hl⟩ := h
          subst hs; subst hl
          exact ih s2 s3 hist hist3 log3 B (by rw [hpf]; exact hB) hrest
      | true =>
        obtain ⟨r0, hr0, hge, hcase⟩ := applyResult_reaching env s s2 r e hreach hstep
        simp only [hreach, hr0, if_true] at h
        rcases hcase with ⟨_, _, hfired, hpf, _⟩ | ⟨_, he, hpf, _⟩
        · simp only [hfired, if_true] at h
          cases hrest : resultsLog env k s2 (r0 :: hist) rest with
          | none => simp [hrest] at h
          | some q =>
            obtain ⟨s3, hist3, log3⟩ := q
            simp only [hrest, Option.some.injEq, Prod.mk.injEq] at h
            obtain ⟨hs, _, hl⟩ := h
            subst hs; subst hl
            obtain ⟨B1, hB1, hle, hall, hpair⟩ :=
              ih s2 s3 (r0 :: hist) hist3 log3 (k : Int) (by rw [hpf]; omega) hrest
            refine ⟨B1, hB1, by omega, ?_, ?_⟩
            · intro f hf
              simp only [List.singleton_append, List.mem_cons] at hf
              rcases hf with hf | hf
              · subst hf
                simp only []
                constructor <;> omega
              · have := hall f hf
                constructor <;> omega
            · simp only [List.singleton_append, List.pairwise_cons]
              exact ⟨fun g hg => (hall g hg).1, hpair⟩
        · have hf : fired e = false := by rw [he]; rfl
          simp only [hf, Bool.false_eq_true, if_false, List.nil_append] at h
          cases hrest : resultsLog env k s2 (r0 :: hist) rest with
          | none => simp [hrest] at h
          | some q =>
            obtain ⟨s3, hist3, log3⟩ := q
            simp only [hrest, Option.some.injEq, Prod.mk.injEq] at h
            obtain ⟨hs, _, hl⟩ := h
            subst hs; subst hl
            exact ih s2 s3 (r0 :: hist) hist3 log3 B (by rw [hpf]; exact hB) hrest

theorem framesLog_gap (env : Env) (hT : 1 ≤ env.PASSED_FRAMES_THRESHOLD)
    (fs : List (List RecognitionResult)) :
    ∀ (k : Nat) (s s1 : State) (hist hist1 : List Int) (log : List Firing) (B : Int),
      s.passedFrames + B + 1 ≤ k →
      framesLog env k s hist fs = some (s1, hist1, log) →
      (∀ f ∈ log, B + env.PASSED_FRAMES_THRESHOLD ≤ f.frame)
        ∧ log.Pairwise (fun a b => (a.frame : Int) + env.PASSED_FRAMES_THRESHOLD ≤ b.frame) := by
  induction fs with
  | nil =>
    intro k s s1 hist hist1 log B _ h
    simp only [framesLog, Option.some.injEq, Prod.mk.injEq] at h
    rw [← h.2.2]
    exact ⟨by simp, List.Pairwise.nil⟩
  | cons fr rest ih =>
    intro k s s1 hist hist1 log B hB h
    rw [framesLog_cons] at h
    cases h1 : resultsLog env k { s with passedFrames := s.passedFrames + 1 } hist fr with
    | none => simp [h1] at h
    | some p =>
      obtain ⟨s2, hist2, log2⟩ := p
      simp only [h1] at h
      cases h2 : framesLog env (k + 1) s2 hist2 rest with
      | none => simp [h2] at h
      | some q =>
        obtain ⟨s3, hist3, log3⟩ := q
        simp only [h2, Option.some.injEq, Prod.mk.injEq] at h
        obtain ⟨_, _, hl⟩ := h
        subst hl
        obtain ⟨B1, hB1, hle, hall, hpair⟩ := resultsLog_gap env hT k fr
          { s with passedFrames := s.passedFrames + 1 } s2 hist hist2 log2 B
          (by simp only []; omega) h1
        obtain ⟨hall3, hpair3⟩ := ih (k + 1) s2 s3 hist2 hist3 log3 B1
          (by push_cast; omega) h2
        constructor
        · intro f hf
          rcases List.mem_append.mp hf with hf | hf
          · exact (hall f hf).1
          · have := hall3 f hf
            omega
        · rw [List.pairwise_append]
          refine ⟨hpair, hpair3, ?_⟩
          intro a ha b hb
          have h1 := (hall a ha).2
          have h2 := hall3 b hb
          omega

/-- What one result does to `passedFrames`: reset to 0 by an accepted draw, unchanged
otherwise. -/
theorem applyResult_passedFrames (env : Env) (s s1 : State) (r : RecognitionResult)
    (e : List Effect) (h : applyResult env s r = some (s1, e)) :
    s1.passedFrames = if fired e then 0 else s.passedFrames := by
  cases hreach : reachesDraw env s r with
  | false =>
    obtain ⟨hpf, _, hdc⟩ := applyResult_not_reaching env s s1 r e hreach h
    have hf : fired e = false := by simp [fired, hdc]
    rw [hf, hpf]
    rfl
  | true =>
    obtain ⟨r0, _, _, hcase⟩ := applyResult_reaching env s s1 r e hreach h
    rcases hcase with ⟨_, _, hfired, hpf, _⟩ | ⟨_, he, hpf, _⟩
    · rw [hfired, hpf]
      rfl
    · have hf : fired e = false := by rw [he]; rfl
      rw [hf, hpf]
      rfl

/-- C9: with one worker and `PASSED_FRAMES_THRESHOLD >= 1`, along every run of frames any
two accepted draws are at least `PASSED_FRAMES_THRESHOLD` frames apart, so no two are in
the same frame; the recorded run exists whenever the run of `frames` does; a frame
increments `passedFrames` once before its results are applied, and a result resets it to
0 when it is an accepted draw and leaves it as it is otherwise. -/
theorem C9_minimum_frame_gap (env : Env) (hT : 1 ≤ env.PASSED_FRAMES_THRESHOLD) :
    (∀ (fs : List (List RecognitionResult)) (s s1 : State) (hist : List Int)
        (log : List Firing),
      framesLog env 0 s [] fs = some (s1, hist, log) →
      log.Pairwise (fun a b => (a.frame : Int) + env.PASSED_FRAMES_THRESHOLD ≤ b.frame)
        ∧ log.Pairwise (fun a b => a.frame ≠ b.frame))
    ∧ (∀ (fs : List (List RecognitionResult)) (s s1 : State) (e : List Effect),
      frames env s fs = some (s1, e) →
      ∃ hist log, framesLog env 0 s [] fs = some (s1, hist, log))
    ∧ (∀ (s : State) (f : List RecognitionResult),
      frame env s f = applyResults env { s with passedFrames := s.passedFrames + 1 } f)
    ∧ (∀ (s s1 : State) (r : RecognitionResult) (e : List Effect),
      applyResult env s r = some (s1, e) →
      s1.passedFrames = if fired e then 0 else s.passedFrames) := by
  refine ⟨?_, ?_, ?_, ?_⟩
  · intro fs s s1 hist log h
    have hgap := (framesLog_gap env hT fs 0 s s1 [] hist log (-1 - s.passedFrames)
      (by push_cast; omega) h).2
    refine ⟨hgap, hgap.imp ?_⟩
    intro a b hab hne
    rw [hne] at hab
    omega
  · intro fs s s1 e h
    exact framesLog_of_frames env fs 0 s s1 e [] h
  · intro s f
    rfl
  · intro s s1 r e h
    exact applyResult_passedFrames env s s1 r e h

/-- C9 at a concrete run: twelve frames carrying `GAME_DRAW [42]` from `drawReady`, with
threshold 5; draws are accepted in the frames 3 and 11. -/
theorem C9_minimum_frame_gap_witness :
    1 ≤ demoEnv.PASSED_FRAMES_THRESHOLD
      ∧ ∃ s1, framesLog demoEnv 0 drawReady [] (List.replicate 12 [gameDraw 42])
          = some (s1, List.replicate 8 42,
              [Firing.mk 3 42 (List.replicate 4 42), Firing.mk 11 42 (List.replicate 8 42)])
        ∧ [Firing.mk 3 42 (List.replicate 4 42), Firing.mk 11 42 (List.replicate 8 42)].Pairwise
            (fun a b => (a.frame : Int) + demoEnv.PASSED_FRAMES_THRESHOLD ≤ b.frame) := by
  have hm : (framesLog demoEnv 0 drawReady [] (List.replicate 12 [gameDraw 42])).map
      (fun p => p.2)
      = some (List.replicate 8 42,
          [Firing.mk 3 42 (List.replicate 4 42), Firing.mk 11 42 (List.replicate 8 42)]) := by
    decide
  cases h : framesLog demoEnv 0 drawReady [] (List.replicate 12 [gameDraw 42]) with
  | none =>
    rw [h] at hm
    cases hm
  | some p =>
    obtain ⟨s1, hist, log⟩ := p
    rw [h] at hm
    simp only [Option.map_some', Option.some.injEq, Prod.mk.injEq] at hm
    obtain ⟨hh, hl⟩ := hm
    subst hh
    subst hl
    exact ⟨by decide, s1, rfl,
      ((C9_minimum_frame_gap demoEnv (by decide)).1 _ drawReady s1 _ _ h).1⟩

/-! ## C11: `latestDraw` and the first draw of a game -/

theorem handleDraftClassPick_latestDraw (env : Env) (s s1 : State) (r : RecognitionResult)
    (e : List Effect) (h : handleDraftClassPick env s r = some (s1, e)) :
    s1.drawInfo = s.drawInfo := by
  unfold handleDraftClassPick at h
  simp only [Option.bind_eq_bind, Option.bind_eq_some] at h
  obtain ⟨_, _, _, _, _, _, h⟩ := h
  split at h <;> cases h <;> rfl

theorem handleDraftCardPick_latestDraw (env : Env) (s s1 : State) (r : RecognitionResult)
    (e : List Effect) (h : handleDraftCardPick env s r = some (s1, e)) :
    s1.drawInfo = s.drawInfo := by
  unfold handleDraftCardPick at h
  simp only [Option.bind_eq_bind, Option.bind_eq_some] at h
  obtain ⟨isNew, _, h⟩ := h
  split at h
  · simp only [Option.bind_eq_some] at h
    obtain ⟨_, _, _, _, _, _, h⟩ := h
    cases h
    rfl
  · cases h
    rfl

theorem handleDraftCardChosen_latestDraw (env : Env) (s s1 : State) (r : RecognitionResult)
    (e : List Effect) (h : handleDraftCardChosen env s r = some (s1, e)) :
    s1.drawInfo = s.drawInfo := by
  unfold handleDraftCardChosen at h
  simp only [Option.bind_eq_bind, Option.bind_eq_some] at h
  obtain ⟨_, _, _, _, _, _, h⟩ := h
  split at h <;> cases h <;> rfl

theorem handleGameClassShow_latestDraw (env : Env) (s s1 : State) (r : RecognitionResult)
    (e : List Effect) (h : handleGameClassShow env s r = some (s1, e)) :
    s1.drawInfo = s.drawInfo := by
  unfold handleGameClassShow at h
  simp only [Option.bind_eq_bind, Option.bind_eq_some] at h
  obtain ⟨_, _, _, _, h⟩ := h
  split at h <;> cases h <;> rfl

theorem handleGameCoin_latestDraw (env : Env) (s s1 : State) (r : RecognitionResult)
    (e : List Effect) (h : handleGameCoin env s r = some (s1, e)) :
    s1.drawInfo.latestDraw = -1 := by
  unfold handleGameCoin at h
  simp only [Option.bind_eq_bind, Option.bind_eq_some] at h
  obtain ⟨_, _, h⟩ := h
  cases h
  rfl

theorem handleGameEnd_latestDraw (env : Env) (s s1 : State) (r : RecognitionResult)
    (e : List Effect) (h : handleGameEnd env s r = some (s1, e)) :
    s1.drawInfo = s.drawInfo := by
  unfold handleGameEnd at h
  simp only [Option.bind_eq_bind, Option.bind_eq_some] at h
  obtain ⟨_, _, h⟩ := h
  cases h
  rfl

theorem handleGameDrawInit_latestDraw (s s1 : State) (r : RecognitionResult)
    (e : List Effect) (h : handleGameDrawInit s r = some (s1, e)) :
    s1.drawInfo.latestDraw = s.drawInfo.latestDraw := by
  unfold handleGameDrawInit at h
  cases h
  rfl

/-- What one result does to `latestDraw`: an armed `GAME_COIN` sets it to `NONE`, an
accepted draw sets it to the drawn id, anything else leaves it. -/
theorem applyResult_latestDraw (env : Env) (s s1 : State) (r : RecognitionResult)
    (e : List Effect) (h : applyResult env s r = some (s1, e)) :
    ((r.sourceRecognizer = RECOGNIZER_GAME_COIN
        ∧ armed s.gameInfo.state RECOGNIZER_GAME_COIN = true) →
      s1.drawInfo.latestDraw = -1)
    ∧ (¬ (r.sourceRecognizer = RECOGNIZER_GAME_COIN
        ∧ armed s.gameInfo.state RECOGNIZER_GAME_COIN = true) →
      (fired e = false → s1.drawInfo.latestDraw = s.drawInfo.latestDraw)
      ∧ (fired e = true → ∃ r0, r.sourceRecognizer = RECOGNIZER_GAME_DRAW
          ∧ r.results[0]? = some r0 ∧ s1.drawInfo.latestDraw = r0)) := by
  constructor
  · intro hc
    rw [applyResult_GAME_COIN env s r hc.1, if_pos hc.2] at h
    exact handleGameCoin_latestDraw env s s1 r e h
  · intro hnc
    cases hreach : reachesDraw env s r with
    | false =>
      have hnf := (applyResult_not_reaching env s s1 r e hreach h).2.2
      have hf : fired e = false := by simp [fired, hnf]
      refine ⟨fun _ => ?_, fun ht => (by rw [hf] at ht; cases ht)⟩
      unfold applyResult at h
      split_ifs at h with c1 c2 c3 c4 c5 c6 c7 c8 c9
      · rw [handleDraftClassPick_latestDraw env s s1 r e h]
      · rw [handleDraftCardPick_latestDraw env s s1 r e h]
      · rw [handleDraftCardChosen_latestDraw env s s1 r e h]
      · rw [handleGameClassShow_latestDraw env s s1 r e h]
      · exfalso
        simp only [Bool.and_eq_true, beq_iff_eq] at c5
        exact hnc ⟨c5.1.symm, c5.2⟩
      · rw [handleGameEnd_latestDraw env s s1 r e h]
      · exact handleGameDrawInit_latestDraw s s1 r e h
      · exact handleGameDrawInit_latestDraw s s1 r e h
      · exfalso
        unfold reachesDraw at hreach
        rw [c9] at hreach
        cases hreach
      · cases h
        rfl
    | true =>
      have hr := hreach
      unfold reachesDraw at hr
      simp only [Bool.and_eq_true, beq_iff_eq, decide_eq_true_eq] at hr
      obtain ⟨⟨hk, harm⟩, hpf⟩ := hr
      obtain ⟨r0, hr0, _, _⟩ := applyResult_reaching env s s1 r e hreach h
      by_cases hp : r0 = s.currentCard.1 ∧ s.currentCard.2 + 1 ≥ env.PASSED_CARD_RECOGNITIONS
      · rw [draw_step_fire env s r r0 hk.symm hr0 harm hpf hp.1 hp.2] at h
        simp only [Option.some.injEq] at h
        have hc := fireDraw_calls env { s with currentCard := (r0, s.currentCard.2 + 1) } r0
        have hst := fireDraw_state env { s with currentCard := (r0, s.currentCard.2 + 1) } r0
        rw [h] at hc hst
        have hf : fired e = true := by
          unfold fired
          rw [hc.1]
          simp
        exact ⟨fun hn => (by rw [hf] at hn; cases hn), fun _ => ⟨r0, hk.symm, hr0, hst.2.2.1⟩⟩
      · rw [draw_step_wait env s r r0 hk.symm hr0 harm hpf hp] at h
        simp only [Option.some.injEq, Prod.mk.injEq] at h
        obtain ⟨hs, he⟩ := h
        subst hs
        subst he
        exact ⟨fun _ => rfl, fun hf => (by cases hf)⟩

theorem firedSinceCoin_cons (env : Env) (s : State) (r : RecognitionResult)
    (rest : List RecognitionResult) (b : Bool) :
    firedSinceCoin env s (r :: rest) b
      = match applyResult env s r with
        | none => none
        | some (s1, e) =>
          firedSinceCoin env s1 rest
            (if r.sourceRecognizer = RECOGNIZER_GAME_COIN
                ∧ armed s.gameInfo.state RECOGNIZER_GAME_COIN = true then false
             else if fired e then true
             else b) := rfl

theorem firedSinceCoin_latestDraw (env : Env) (rs : List RecognitionResult) :
    ∀ (s s1 : State) (b b1 : Bool),
      (s.drawInfo.latestDraw = -1 ↔ b = false) →
      (∀ r ∈ rs, r.sourceRecognizer = RECOGNIZER_GAME_DRAW →
        ∀ x, r.results[0]? = some x → 0 ≤ x) →
      firedSinceCoin env s rs b = some (s1, b1) →
      (s1.drawInfo.latestDraw = -1 ↔ b1 = false) := by
  induction rs with
  | nil =>
    intro s s1 b b1 hinv _ h
    simp only [firedSinceCoin, Option.some.injEq, Prod.mk.injEq] at h
    rw [← h.1, ← h.2]
    exact hinv
  | cons r rest ih =>
    intro s s1 b b1 hinv hpos h
    rw [firedSinceCoin_cons] at h
    cases hstep : applyResult env s r with
    | none => simp [hstep] at h
    | some p =>
      obtain ⟨s2, e⟩ := p
      simp only [hstep] at h
      refine ih s2 s1 _ b1 ?_ (fun r1 hr1 => hpos r1 (List.mem_cons_of_mem _ hr1)) h
      obtain ⟨hcoin, hother⟩ := applyResult_latestDraw env s s2 r e hstep
      by_cases hc : r.sourceRecognizer = RECOGNIZER_GAME_COIN
          ∧ armed s.gameInfo.state RECOGNIZER_GAME_COIN = true
      · rw [if_pos hc, hcoin hc]
        simp
      · rw [if_neg hc]
        obtain ⟨hkeep, hfire⟩ := hother hc
        cases hf : fired e with
        | false =>
          rw [hkeep hf]
          simpa using hinv
        | true =>
          obtain ⟨r0, hk, hr0, hl⟩ := hfire hf
          have h0 := hpos r (List.mem_cons_self _ _) hk r0 hr0
          rw [hl]
          simp
          omega

theorem firedSinceCoin_of_applyResults (env : Env) (rs : List RecognitionResult) :
    ∀ (s s1 : State) (e : List Effect) (b : Bool),
      applyResults env s rs = some (s1, e) →
      ∃ b1, firedSinceCoin env s rs b = some (s1, b1) := by
  induction rs with
  | nil =>
    intro s s1 e b h
    simp only [applyResults, Option.some.injEq, Prod.mk.injEq] at h
    exact ⟨b, by rw [← h.1]; rfl⟩
  | cons r rest ih =>
    intro s s1 e b h
    rw [applyResults_cons] at h
    cases hstep : applyResult env s r with
    | none => simp [hstep] at h
    | some p =>
      obtain ⟨s2, e2⟩ := p
      simp only [hstep] at h
      cases hrest : applyResults env s2 rest with
      | none => simp [hrest] at h
      | some q =>
        obtain ⟨s3, e3⟩ := q
        simp only [hrest, Option.some.injEq, Prod.mk.injEq] at h
        rw [firedSinceCoin_cons, hstep]
        rw [← h.1]
        exact ih s2 s3 e3 _ hrest

/-- C11: after a `GAME_COIN` result applied while armed, along every run of recognition
results whose `GAME_DRAW` results carry non-negative card ids, in every state the run
reaches `latestDraw = NONE` holds if and only if the `GAME_DRAW` handler has not accepted
a draw since the most recent `GAME_COIN` result applied while armed; the recorded run
exists whenever the run of `applyResults` does. -/
theorem C11_latestDraw_none_iff (env : Env) :
    (∀ (s s1 : State) (c : RecognitionResult) (rs : List RecognitionResult) (b b1 : Bool),
      c.sourceRecognizer = RECOGNIZER_GAME_COIN →
      armed s.gameInfo.state RECOGNIZER_GAME_COIN = true →
      (∀ r ∈ rs, r.sourceRecognizer = RECOGNIZER_GAME_DRAW →
        ∀ x, r.results[0]? = some x → 0 ≤ x) →
      firedSinceCoin env s (c :: rs) b = some (s1, b1) →
      (s1.drawInfo.latestDraw = -1 ↔ b1 = false))
    ∧ (∀ (s s1 : State) (rs : List RecognitionResult) (e : List Effect) (b : Bool),
      applyResults env s rs = some (s1, e) →
      ∃ b1, firedSinceCoin env s rs b = some (s1, b1)) := by
  constructor
  · intro s s1 c rs b b1 hk harm hpos h
    rw [firedSinceCoin_cons] at h
    cases hstep : applyResult env s c with
    | none => simp [hstep] at h
    | some p =>
      obtain ⟨s2, e⟩ := p
      simp only [hstep] at h
      rw [if_pos ⟨hk, harm⟩] at h
      have hl := (applyResult_latestDraw env s s2 c e hstep).1 ⟨hk, harm⟩
      exact firedSinceCoin_latestDraw env rs s2 s1 false b1 (by simp [hl]) hpos h
  · intro s s1 rs e b h
    exact firedSinceCoin_of_applyResults env rs s s1 e b h

/-- C11 at two concrete runs from `coinReady`: after the coin alone `latestDraw` is `NONE`
and no draw was accepted; after the coin and an accepted draw of card 5 it is 5. -/
theorem C11_latestDraw_none_iff_witness :
    armed coinReady.gameInfo.state RECOGNIZER_GAME_COIN = true
      ∧ firedSinceCoin demoEnv coinReady [gameCoin 0] true
          = some (demoRunFrom coinReady [gameCoin 0], false)
      ∧ ((demoRunFrom coinReady [gameCoin 0]).drawInfo.latestDraw = -1 ↔ false = false)
      ∧ firedSinceCoin demoEnv coinReady [gameCoin 0, gameDraw 5] false
          = some (demoRunFrom coinReady [gameCoin 0, gameDraw 5], true)
      ∧ ((demoRunFrom coinReady [gameCoin 0, gameDraw 5]).drawInfo.latestDraw = -1
          ↔ true = false) :=
  ⟨by decide, by decide,
    (C11_latestDraw_none_iff demoEnv).1 coinReady _ (gameCoin 0) [] true false rfl (by decide)
      (by simp) (by decide),
    by decide,
    (C11_latestDraw_none_iff demoEnv).1 coinReady _ (gameCoin 0) [gameDraw 5] false true rfl
      (by decide) (by decide) (by decide)⟩

/-! ## C12: the same result twice -/

theorem handleDraftClassPick_state (env : Env) (s s1 : State) (r : RecognitionResult)
    (e : List Effect) (h : handleDraftClassPick env s r = some (s1, e)) :
    s1.deckInfo.state
        = enable (disable s.deckInfo.state RECOGNIZER_DRAFT_CLASS_PICK)
            RECOGNIZER_DRAFT_CARD_PICK
      ∧ s1.deck = Deck.empty
      ∧ s1.gameInfo = s.gameInfo
      ∧ s1.internalState = s.internalState := by
  unfold handleDraftClassPick at h
  simp only [Option.bind_eq_bind, Option.bind_eq_some] at h
  obtain ⟨_, _, _, _, _, _, h⟩ := h
  split at h <;> cases h <;> exact ⟨rfl, rfl, rfl, rfl⟩

theorem handleDraftCardChosen_state (env : Env) (s s1 : State) (r : RecognitionResult)
    (e : List Effect) (h : handleDraftCardChosen env s r = some (s1, e)) :
    armed s1.deckInfo.state RECOGNIZER_DRAFT_CARD_CHOSEN = false
      ∧ armed s1.deckInfo.state RECOGNIZER_DRAFT_CLASS_PICK = true
      ∧ s1.gameInfo = s.gameInfo
      ∧ s1.internalState = s.internalState := by
  unfold handleDraftCardChosen at h
  simp only [Option.bind_eq_bind, Option.bind_eq_some] at h
  obtain ⟨_, _, _, _, _, _, h⟩ := h
  split at h <;> cases h <;>
    simp [RECOGNIZER_DRAFT_CLASS_PICK, RECOGNIZER_DRAFT_CARD_PICK,
      RECOGNIZER_DRAFT_CARD_CHOSEN, armed_enable, armed_disable]

theorem handleGameClassShow_state (env : Env) (s s1 : State) (r : RecognitionResult)
    (e : List Effect) (h : handleGameClassShow env s r = some (s1, e)) :
    s1.gameInfo.state
        = disable (enable s.gameInfo.state RECOGNIZER_GAME_COIN) RECOGNIZER_GAME_CLASS_SHOW
      ∧ s1.internalState = s.internalState ∧ s1.deckInfo = s.deckInfo := by
  unfold handleGameClassShow at h
  simp only [Option.bind_eq_bind, Option.bind_eq_some] at h
  obtain ⟨_, _, _, _, h⟩ := h
  split at h <;> cases h <;> exact ⟨rfl, rfl, rfl⟩

theorem handleGameCoin_state (env : Env) (s s1 : State) (r : RecognitionResult)
    (e : List Effect) (h : handleGameCoin env s r = some (s1, e)) :
    s1.gameInfo.state
        = disable (enable (enable s.gameInfo.state RECOGNIZER_GAME_END)
            RECOGNIZER_GAME_CLASS_SHOW) RECOGNIZER_GAME_COIN
      ∧ s1.internalState = s.internalState ∧ s1.deckInfo = s.deckInfo := by
  unfold handleGameCoin at h
  simp only [Option.bind_eq_bind, Option.bind_eq_some] at h
  obtain ⟨_, _, h⟩ := h
  cases h
  exact ⟨rfl, rfl, rfl⟩

theorem handleGameEnd_state (env : Env) (s s1 : State) (r : RecognitionResult)
    (e : List Effect) (h : handleGameEnd env s r = some (s1, e)) :
    s1.gameInfo.state
        = disable (enable s.gameInfo.state RECOGNIZER_GAME_CLASS_SHOW) RECOGNIZER_GAME_END
      ∧ s1.internalState = s.internalState ∧ s1.deckInfo = s.deckInfo := by
  unfold handleGameEnd at h
  simp only [Option.bind_eq_bind, Option.bind_eq_some] at h
  obtain ⟨_, _, h⟩ := h
  cases h
  exact ⟨rfl, rfl, rfl⟩

/-- The same three ids again, right after they were handled as an offer or recognised as
the last offer, are not a new offer. -/
theorem cardPick_twice (env : Env) (hid : ∀ k, (env.cards k).id = k) (s s1 : State)
    (n : Nat) (a b c : Int) (e : List Effect)
    (h : handleDraftCardPick env s ⟨n, [a, b, c]⟩ = some (s1, e)) :
    handleDraftCardPick env s1 ⟨n, [a, b, c]⟩ = some (s1, [])
      ∧ s1.deckInfo.state = s.deckInfo.state
          ∨ handleDraftCardPick env s1 ⟨n, [a, b, c]⟩ = some (s1, [])
            ∧ s1.deckInfo.state
                = enable (enable s.deckInfo.state RECOGNIZER_DRAFT_CLASS_PICK)
                    RECOGNIZER_DRAFT_CARD_CHOSEN := by
  have hsame : ∀ (t : State) (l : List CardSet),
      t.deck.setHistory = l ++ [CardSet.mk (env.cards a) (env.cards b) (env.cards c)] →
      handleDraftCardPick env t ⟨n, [a, b, c]⟩ = some (t, []) := by
    intro t l ht
    rw [handleDraftCardPick_nonempty env t n a b c l _ ht]
    simp [hid]
  rcases List.eq_nil_or_concat s.deck.setHistory with hnil | ⟨l0, last, hl⟩
  · by_cases hp : s.deck.pickHistory = []
    · rw [handleDraftCardPick_empty env s n a b c hnil hp] at h
      simp only [Option.some.injEq, Prod.mk.injEq] at h
      obtain ⟨hs, _⟩ := h
      subst hs
      right
      exact ⟨hsame _ [] (by simp [Deck.addSet, hnil]), rfl⟩
    · rw [handleDraftCardPick_fault env s n a b c hnil hp] at h
      cases h
  · have hl1 : s.deck.setHistory = l0 ++ [last] := by simp [hl]
    rw [handleDraftCardPick_nonempty env s n a b c l0 last hl1] at h
    by_cases hd : (a != last.first.id || b != last.second.id || c != last.third.id) = true
    · rw [if_pos hd] at h
      simp only [Option.some.injEq, Prod.mk.injEq] at h
      obtain ⟨hs, _⟩ := h
      subst hs
      right
      refine ⟨hsame _ (l0 ++ [last]) ?_, rfl⟩
      simp only []
      split <;> simp [Deck.addSet, Deck.addUnknownPick, hl1]
    · rw [if_neg hd] at h
      simp only [Option.some.injEq, Prod.mk.injEq] at h
      obtain ⟨hs, _⟩ := h
      subst hs
      left
      refine ⟨?_, rfl⟩
      rw [handleDraftCardPick_nonempty env s n a b c l0 last hl1, if_neg hd]

/-- C12: for every state and every result of kind `DRAFT_CLASS_PICK`, `DRAFT_CARD_PICK`
(carrying three ids, with `db.cards[k].id = k`), `DRAFT_CARD_CHOSEN`, `GAME_CLASS_SHOW`,
`GAME_COIN` or `GAME_END`: when the result is applied, applying it again right away
leaves the state as it is and emits nothing (no bot message, no API call). -/
theorem C12_idempotence (env : Env) (hid : ∀ k, (env.cards k).id = k)
    (s s1 : State) (r : RecognitionResult) (e : List Effect)
    (hkind : r.sourceRecognizer = RECOGNIZER_DRAFT_CLASS_PICK
      ∨ (r.sourceRecognizer = RECOGNIZER_DRAFT_CARD_PICK ∧ r.results.length = 3)
      ∨ r.sourceRecognizer = RECOGNIZER_DRAFT_CARD_CHOSEN
      ∨ r.sourceRecognizer = RECOGNIZER_GAME_CLASS_SHOW
      ∨ r.sourceRecognizer = RECOGNIZER_GAME_COIN
      ∨ r.sourceRecognizer = RECOGNIZER_GAME_END)
    (h : applyResult env s r = some (s1, e)) :
    applyResult env s1 r = some (s1, []) := by
  rcases hkind with hk | ⟨hk, hlen⟩ | hk | hk | hk | hk
  · rw [applyResult_DRAFT_CLASS_PICK env s r hk] at h
    rw [applyResult_DRAFT_CLASS_PICK env s1 r hk]
    split at h
    · have hst := (handleDraftClassPick_state env s s1 r e h).1
      have : armed s1.deckInfo.state RECOGNIZER_DRAFT_CLASS_PICK = false := by
        rw [hst]
        simp [RECOGNIZER_DRAFT_CLASS_PICK, RECOGNIZER_DRAFT_CARD_PICK, armed_enable,
          armed_disable]
      simp [this]
    · rename_i hn
      cases h
      rw [if_neg hn]
  · rw [applyResult_DRAFT_CARD_PICK env s r hk] at h
    rw [applyResult_DRAFT_CARD_PICK env s1 r hk]
    obtain ⟨n, rs⟩ := r
    simp only at hlen hk
    match rs, hlen with
    | [a, b, c], _ =>
      split at h
      · rename_i harm
        rcases cardPick_twice env hid s s1 n a b c e h with ⟨h2, hst⟩ | ⟨h2, hst⟩
        · rw [h2]
          simp
        · rw [h2]
          simp
      · rename_i hn
        cases h
        rw [if_neg hn]
  · rw [applyResult_DRAFT_CARD_CHOSEN env s r hk] at h
    rw [applyResult_DRAFT_CARD_CHOSEN env s1 r hk]
    split at h
    · have hst := (handleDraftCardChosen_state env s s1 r e h).1
      simp [hst]
    · rename_i hn
      cases h
      rw [if_neg hn]
  · rw [applyResult_GAME_CLASS_SHOW env s r hk] at h
    rw [applyResult_GAME_CLASS_SHOW env s1 r hk]
    split at h
    · have hst := (handleGameClassShow_state env s s1 r e h).1
      have : armed s1.gameInfo.state RECOGNIZER_GAME_CLASS_SHOW = false := by
        rw [hst]
        simp [RECOGNIZER_GAME_CLASS_SHOW, RECOGNIZER_GAME_COIN, armed_enable, armed_disable]
      simp [this]
    · rename_i hn
      cases h
      rw [if_neg hn]
  · rw [applyResult_GAME_COIN env s r hk] at h
    rw [applyResult_GAME_COIN env s1 r hk]
    split at h
    · have hst := (handleGameCoin_state env s s1 r e h).1
      have : armed s1.gameInfo.state RECOGNIZER_GAME_COIN = false := by
        rw [hst]
        simp [RECOGNIZER_GAME_CLASS_SHOW, RECOGNIZER_GAME_COIN, RECOGNIZER_GAME_END,
          armed_enable, armed_disable]
      simp [this]
    · rename_i hn
      cases h
      rw [if_neg hn]
  · rw [applyResult_GAME_END env s r hk] at h
    rw [applyResult_GAME_END env s1 r hk]
    split at h
    · have hst := (handleGameEnd_state env s s1 r e h).1
      have : armed s1.gameInfo.state RECOGNIZER_GAME_END = false := by
        rw [hst]
        simp [RECOGNIZER_GAME_CLASS_SHOW, RECOGNIZER_GAME_END, armed_enable, armed_disable]
      simp [this]
    · rename_i hn
      cases h
      rw [if_neg hn]

/-- C12 at a concrete input: the offer (1,2,3) applied twice from the constructor's state. -/
theorem C12_idempotence_witness :
    (∀ k, (demoEnv.cards k).id = k)
      ∧ applyResult demoEnv (construct demoEnv) (cardPick 1 2 3)
          = some (demoRun [cardPick 1 2 3], [])
      ∧ applyResult demoEnv (demoRun [cardPick 1 2 3]) (cardPick 1 2 3)
          = some (demoRun [cardPick 1 2 3], []) :=
  ⟨fun _ => rfl, by decide,
    C12_idempotence demoEnv (fun _ => rfl) (construct demoEnv) (demoRun [cardPick 1 2 3])
      (cardPick 1 2 3) [] (Or.inr (Or.inl ⟨rfl, rfl⟩)) (by decide)⟩

/-! ## The draw machine and `DRAWHANDLING` -/

theorem handleDraftCardPick_internalState (env : Env) (s s1 : State) (r : RecognitionResult)
    (e : List Effect) (h : handleDraftCardPick env s r = some (s1, e)) :
    s1.internalState = s.internalState ∧ s1.gameInfo = s.gameInfo := by
  unfold handleDraftCardPick at h
  simp only [Option.bind_eq_bind, Option.bind_eq_some] at h
  obtain ⟨isNew, _, h⟩ := h
  split at h
  · simp only [Option.bind_eq_some] at h
    obtain ⟨_, _, _, _, _, _, h⟩ := h
    cases h
    exact ⟨rfl, rfl⟩
  · cases h
    exact ⟨rfl, rfl⟩

theorem isEmpty_false_iff (t : String) : t.isEmpty = false ↔ t ≠ "" := by
  rw [← Bool.not_eq_true, String.isEmpty_iff]

/-- C14: `saveState` writes all five keys, and `loadState` applied, in a manager holding
an empty deck, to the document `saveState` produced restores `deckMsg`, `internalState`,
wins and losses to the saved values, and restores the deck whenever the deck's decode
undoes its encode. The codec is the one of `Deck.cpp`; of the decoder it is assumed that
it leaves an empty deck empty when it is given the empty string. -/
theorem C14_save_load (env : Env) (s0 s : State) (h0 : s0.deck = Deck.empty)
    (hnil : env.fillFromInternalRepresentation Deck.empty "" = Deck.empty) :
    ((saveState env s).deck_msg = some s.deckInfo.msg
        ∧ (saveState env s).internal_state = some s.internalState
        ∧ (saveState env s).current_wins = some s.winsLosses.1
        ∧ (saveState env s).current_losses = some s.winsLosses.2
        ∧ (saveState env s).data_deck = some (env.createInternalRepresentation s.deck))
    ∧ (loadState env s0 (some (saveState env s))).deckInfo.msg = s.deckInfo.msg
    ∧ (loadState env s0 (some (saveState env s))).internalState = s.internalState
    ∧ (loadState env s0 (some (saveState env s))).winsLosses = s.winsLosses
    ∧ (env.fillFromInternalRepresentation Deck.empty (env.createInternalRepresentation s.deck)
          = s.deck →
        (loadState env s0 (some (saveState env s))).deck = s.deck) := by
  refine ⟨⟨rfl, rfl, rfl, rfl, rfl⟩, ?_, ?_, ?_, ?_⟩
  · simp only [loadState, saveState, Option.getD_some]
    split <;> rfl
  · simp only [loadState, saveState, Option.getD_some]
    split <;> rfl
  · simp only [loadState, saveState, Option.getD_some]
    split <;> rfl
  · intro hround
    simp only [loadState, saveState, Option.getD_some]
    by_cases hemp : env.createInternalRepresentation s.deck = ""
    · have hd : s.deck = Deck.empty := by
        rw [← hround, hemp, hnil]
      have hb : (env.createInternalRepresentation s.deck).isEmpty = true := by
        rw [hemp]
        rfl
      simp only [hb, Bool.not_true, Bool.false_eq_true, if_false]
      rw [h0, hd]
    · have hb : (env.createInternalRepresentation s.deck).isEmpty = false :=
        (isEmpty_false_iff _).mpr hemp
      simp only [hb, Bool.not_false, if_true, h0]
      exact hround

/-- C14 at concrete inputs: `savedState` saved and loaded in the constructor's state of
`heroRepEnv`, and the constructor's state itself (an empty deck, encoded as the empty
string) saved and loaded. -/
theorem C14_save_load_witness :
    (construct heroRepEnv).deck = Deck.empty
      ∧ heroRepEnv.fillFromInternalRepresentation Deck.empty "" = Deck.empty
      ∧ heroRepEnv.createInternalRepresentation savedState.deck = "mage"
      ∧ (loadState heroRepEnv (construct heroRepEnv)
          (some (saveState heroRepEnv savedState))).deckInfo.msg = "deck"
      ∧ (loadState heroRepEnv (construct heroRepEnv)
          (some (saveState heroRepEnv savedState))).internalState = 6
      ∧ (loadState heroRepEnv (construct heroRepEnv)
          (some (saveState heroRepEnv savedState))).winsLosses = (3, 1)
      ∧ (loadState heroRepEnv (construct heroRepEnv)
          (some (saveState heroRepEnv savedState))).deck = savedState.deck
      ∧ (loadState heroRepEnv (construct heroRepEnv)
          (some (saveState heroRepEnv (construct heroRepEnv)))).deck
          = (construct heroRepEnv).deck :=
  ⟨rfl, rfl, rfl,
    (C14_save_load heroRepEnv (construct heroRepEnv) savedState rfl rfl).2.1,
    (C14_save_load heroRepEnv (construct heroRepEnv) savedState rfl rfl).2.2.1,
    (C14_save_load heroRepEnv (construct heroRepEnv) savedState rfl rfl).2.2.2.1,
    (C14_save_load heroRepEnv (construct heroRepEnv) savedState rfl rfl).2.2.2.2 rfl,
    (C14_save_load heroRepEnv (construct heroRepEnv) (construct heroRepEnv) rfl rfl).2.2.2.2
      rfl⟩

/-! ## C15: loading with missing data -/

/-- C15: `loadState` is total; with the state file absent it changes nothing; with the
file present each of `deckMsg`, `internalState`, wins and losses takes the stored value
when its key is present and keeps its value otherwise, and `shouldUpdateDeck` becomes true
when the stored `state.data.deck` is present and not the empty string and keeps its value
otherwise. -/
theorem C15_load_missing (env : Env) (s : State) :
    loadState env s none = s
    ∧ ∀ f : StateFile,
        (∀ v, f.deck_msg = some v → (loadState env s (some f)).deckInfo.msg = v)
        ∧ (f.deck_msg = none → (loadState env s (some f)).deckInfo.msg = s.deckInfo.msg)
        ∧ (∀ v, f.internal_state = some v → (loadState env s (some f)).internalState = v)
        ∧ (f.internal_state = none →
            (loadState env s (some f)).internalState = s.internalState)
        ∧ (∀ v, f.current_wins = some v → (loadState env s (some f)).winsLosses.1 = v)
        ∧ (f.current_wins = none →
            (loadState env s (some f)).winsLosses.1 = s.winsLosses.1)
        ∧ (∀ v, f.current_losses = some v → (loadState env s (some f)).winsLosses.2 = v)
        ∧ (f.current_losses = none →
            (loadState env s (some f)).winsLosses.2 = s.winsLosses.2)
        ∧ ((∃ v, f.data_deck = some v ∧ v ≠ "") →
            (loadState env s (some f)).shouldUpdateDeck = true)
        ∧ (¬ (∃ v, f.data_deck = some v ∧ v ≠ "") →
            (loadState env s (some f)).shouldUpdateDeck = s.shouldUpdateDeck
            ∧ (loadState env s (some f)).deck = s.deck) := by
  refine ⟨rfl, ?_⟩
  intro f
  have hfields : (loadState env s (some f)).deckInfo.msg = f.deck_msg.getD s.deckInfo.msg
      ∧ (loadState env s (some f)).internalState = f.internal_state.getD s.internalState
      ∧ (loadState env s (some f)).winsLosses
          = (f.current_wins.getD s.winsLosses.1, f.current_losses.getD s.winsLosses.2) := by
    simp only [loadState]
    split <;> exact ⟨rfl, rfl, rfl⟩
  obtain ⟨hm, hi, hw⟩ := hfields
  refine ⟨?_, ?_, ?_, ?_, ?_, ?_, ?_, ?_, ?_, ?_⟩
  · intro v hv
    rw [hm, hv]
    rfl
  · intro hv
    rw [hm, hv]
    rfl
  · intro v hv
    rw [hi, hv]
    rfl
  · intro hv
    rw [hi, hv]
    rfl
  · intro v hv
    rw [hw, hv]
    rfl
  · intro hv
    rw [hw, hv]
    rfl
  · intro v hv
    rw [hw, hv]
    rfl
  · intro hv
    rw [hw, hv]
    rfl
  · rintro ⟨v, hv, hne⟩
    have hb : v.isEmpty = false := (isEmpty_false_iff v).mpr hne
    simp [loadState, hv, hb]
  · intro hno
    have hb : (f.data_deck.getD "").isEmpty = true := by
      cases hd : f.data_deck with
      | none => rfl
      | some v =>
        by_cases hv : v = ""
        · subst hv
          rfl
        · exact absurd ⟨v, hd, hv⟩ hno
    simp [loadState, hb]

/-- C15 at a concrete document: message and losses present, the other keys absent, the
stored deck empty. -/
theorem C15_load_missing_witness :
    (loadState demoEnv (construct demoEnv)
        (some ⟨some "m", none, none, some 2, some ""⟩)).deckInfo.msg = "m"
      ∧ (loadState demoEnv (construct demoEnv)
        (some ⟨some "m", none, none, some 2, some ""⟩)).internalState
          = (construct demoEnv).internalState
      ∧ (loadState demoEnv (construct demoEnv)
        (some ⟨some "m", none, none, some 2, some ""⟩)).winsLosses.2 = 2
      ∧ (loadState demoEnv (construct demoEnv)
        (some ⟨some "m", none, none, some 2, some ""⟩)).shouldUpdateDeck
          = (construct demoEnv).shouldUpdateDeck :=
  ⟨((C15_load_missing demoEnv (construct demoEnv)).2
      ⟨some "m", none, none, some 2, some ""⟩).1 "m" rfl,
    ((C15_load_missing demoEnv (construct demoEnv)).2
      ⟨some "m", none, none, some 2, some ""⟩).2.2.2.1 rfl,
    ((C15_load_missing demoEnv (construct demoEnv)).2
      ⟨some "m", none, none, some 2, some ""⟩).2.2.2.2.2.2.1 2 rfl,
    (((C15_load_missing demoEnv (construct demoEnv)).2
      ⟨some "m", none, none, some 2, some ""⟩).2.2.2.2.2.2.2.2.2 (by decide)).1⟩

/-! ## C16: the strawpoll retry loop -/

theorem pollLoop_all_fail (env : Env) (classNames : List String) (fuel : Nat) :
    ∀ (calls : Nat) (i : Int),
      i + (fuel : Int) ≤ env.MSG_CLASS_POLL_ERROR_RETRY_COUNT + 1 →
      (∀ j, j < fuel →
        env.createStrawpoll (calls + j) (env.MSG_CLASS_POLL env.sName) classNames = "") →
      pollLoop env classNames calls i fuel
        = (false, fuel, (List.range fuel).flatMap (fun (j : Nat) => pollFailure env classNames (i + (j : Int)))) := by
  induction fuel with
  | zero => intro _ _ _ _; rfl
  | succ n ih =>
    intro calls i hb hf
    have h0 := hf 0 (Nat.succ_pos n)
    simp only [Nat.add_zero] at h0
    have hi : i ≤ env.MSG_CLASS_POLL_ERROR_RETRY_COUNT := by push_cast at hb; omega
    have hrec := ih (calls + 1) (i + 1) (by push_cast at hb; omega)
      (fun j hj => by
        have := hf (j + 1) (Nat.succ_lt_succ hj)
        rwa [show calls + (j + 1) = calls + 1 + j by omega] at this)
    have he : ("" : String).isEmpty = true := rfl
    simp only [pollLoop, if_pos hi, h0, hrec, he, if_true]
    simp only [List.range_succ_eq_map, List.flatMap_cons, List.flatMap_map, pollFailure,
      Nat.cast_zero, add_zero, List.cons_append, List.nil_append, Nat.cast_succ]
    have hij : ∀ j : Nat, i + 1 + (j : Int) = i + ((j : Int) + 1) := fun j => by ring
    simp only [Function.comp_def, Nat.cast_succ, hij]

theorem pollLoop_success (env : Env) (classNames : List String) (k : Nat) :
    ∀ (calls : Nat) (i : Int) (fuel : Nat), k < fuel →
      i + (k : Int) ≤ env.MSG_CLASS_POLL_ERROR_RETRY_COUNT →
      (∀ j, j < k →
        env.createStrawpoll (calls + j) (env.MSG_CLASS_POLL env.sName) classNames = "") →
      env.createStrawpoll (calls + k) (env.MSG_CLASS_POLL env.sName) classNames ≠ "" →
      pollLoop env classNames calls i fuel
        = (true, k + 1,
            (List.range k).flatMap (fun (j : Nat) => pollFailure env classNames (i + (j : Int)))
              ++ [Effect.createStrawpoll (env.MSG_CLASS_POLL env.sName) classNames,
                  Effect.message (env.MSG_CLASS_POLL_VOTE env.sName
                    (env.createStrawpoll (calls + k) (env.MSG_CLASS_POLL env.sName) classNames)),
                  Effect.repeat_message (env.MSG_CLASS_POLL_VOTE_REPEAT
                    (env.createStrawpoll (calls + k) (env.MSG_CLASS_POLL env.sName) classNames))
                    5 25 7,
                  Effect.messageDelayed "!suboff" 120]) := by
  induction k with
  | zero =>
    intro calls i fuel hk hb _ hs
    obtain ⟨n, rfl⟩ : ∃ n, fuel = n + 1 := ⟨fuel - 1, by omega⟩
    simp only [Nat.add_zero] at hs
    have hi : i ≤ env.MSG_CLASS_POLL_ERROR_RETRY_COUNT := by simpa using hb
    have he := (isEmpty_false_iff _).2 hs
    simp only [pollLoop, if_pos hi, he, Nat.add_zero]
    rfl
  | succ k ih =>
    intro calls i fuel hk hb hf hs
    obtain ⟨n, rfl⟩ : ∃ n, fuel = n + 1 := ⟨fuel - 1, by omega⟩
    have h0 := hf 0 (Nat.succ_pos k)
    simp only [Nat.add_zero] at h0
    have hi : i ≤ env.MSG_CLASS_POLL_ERROR_RETRY_COUNT := by push_cast at hb; omega
    have hrec := ih (calls + 1) (i + 1) n (by omega) (by push_cast at hb; omega)
      (fun j hj => by
        have := hf (j + 1) (Nat.succ_lt_succ hj)
        rwa [show calls + (j + 1) = calls + 1 + j by omega] at this)
      (by rwa [show calls + 1 + k = calls + (k + 1) by omega])
    have he : ("" : String).isEmpty = true := rfl
    simp only [pollLoop, if_pos hi, h0, hrec, he, if_true]
    rw [show calls + 1 + k = calls + (k + 1) by omega]
    simp only [List.range_succ_eq_map, List.flatMap_cons, List.flatMap_map, pollFailure,
      Nat.cast_zero, add_zero, List.cons_append, List.nil_append, Nat.cast_succ]
    have hij : ∀ j : Nat, i + 1 + (j : Int) = i + ((j : Int) + 1) := fun j => by ring
    simp only [Function.comp_def, Nat.cast_succ, hij]


/-- C16: bounded strawpoll retry. An armed `DRAFT_CLASS_PICK` applied with STRAWPOLLING set,
for every sequence of outcomes of the poll service (`out j` is the answer to the
`j`-th attempt of this application). If the first non-empty answer comes at attempt
`k` with `k ≤ MSG_CLASS_POLL_ERROR_RETRY_COUNT`, the effects are exactly:
`"!score -arena"`, `"!subon"`, then `k` times an attempt followed by the error message
announcing `RETRY_COUNT - j` attempts remaining, then the successful attempt, the vote
link, the repeat announcement with (5, 25, 7) and `"!suboff"` delayed by 120; nothing
after it, so no further attempt and no giveup message. If every attempt
`0 .. RETRY_COUNT` fails, the effects are exactly: `"!score -arena"`, `"!subon"`,
`RETRY_COUNT + 1` times an attempt followed by its error message, then the giveup
message. -/
theorem C16_bounded_strawpoll_retry (env : Env) (s : State) (a b c : Int)
    (harm : armed s.deckInfo.state RECOGNIZER_DRAFT_CLASS_PICK = true)
    (hpoll : armed s.internalState env.INTERNAL_STRAWPOLLING = true) :
    (∀ k : Nat, (k : Int) ≤ env.MSG_CLASS_POLL_ERROR_RETRY_COUNT →
      (∀ j, j < k →
        env.createStrawpoll (s.pollCalls + j) (env.MSG_CLASS_POLL env.sName)
          [(env.heroes a).name, (env.heroes b).name, (env.heroes c).name] = "") →
      env.createStrawpoll (s.pollCalls + k) (env.MSG_CLASS_POLL env.sName)
          [(env.heroes a).name, (env.heroes b).name, (env.heroes c).name] ≠ "" →
      ∃ s1, applyResult env s (classPick a b c)
        = some (s1,
            [Effect.message "!score -arena", Effect.message "!subon"]
              ++ (List.range k).flatMap (fun (j : Nat) =>
                    pollFailure env
                      [(env.heroes a).name, (env.heroes b).name, (env.heroes c).name] (j : Int))
              ++ [Effect.createStrawpoll (env.MSG_CLASS_POLL env.sName)
                    [(env.heroes a).name, (env.heroes b).name, (env.heroes c).name],
                  Effect.message (env.MSG_CLASS_POLL_VOTE env.sName
                    (env.createStrawpoll (s.pollCalls + k) (env.MSG_CLASS_POLL env.sName)
                      [(env.heroes a).name, (env.heroes b).name, (env.heroes c).name])),
                  Effect.repeat_message (env.MSG_CLASS_POLL_VOTE_REPEAT
                    (env.createStrawpoll (s.pollCalls + k) (env.MSG_CLASS_POLL env.sName)
                      [(env.heroes a).name, (env.heroes b).name, (env.heroes c).name]))
                    5 25 7,
                  Effect.messageDelayed "!suboff" 120]))
      ∧ ((∀ j : Nat, (j : Int) ≤ env.MSG_CLASS_POLL_ERROR_RETRY_COUNT →
            env.createStrawpoll (s.pollCalls + j) (env.MSG_CLASS_POLL env.sName)
              [(env.heroes a).name, (env.heroes b).name, (env.heroes c).name] = "") →
          ∃ s1, applyResult env s (classPick a b c)
            = some (s1,
                [Effect.message "!score -arena", Effect.message "!subon"]
                  ++ (List.range (env.MSG_CLASS_POLL_ERROR_RETRY_COUNT + 1).toNat).flatMap
                      (fun (j : Nat) =>
                        pollFailure env
                          [(env.heroes a).name, (env.heroes b).name, (env.heroes c).name]
                          (j : Int))
                  ++ [Effect.message env.MSG_CLASS_POLL_ERROR_GIVEUP])) := by
  have hstep : applyResult env s (classPick a b c)
      = handleDraftClassPick env s (classPick a b c) := by
    rw [applyResult_DRAFT_CLASS_PICK env s (classPick a b c) rfl, if_pos harm]
  constructor
  · intro k hk hf hs
    have hl := pollLoop_success env
      [(env.heroes a).name, (env.heroes b).name, (env.heroes c).name] k s.pollCalls 0
      (env.MSG_CLASS_POLL_ERROR_RETRY_COUNT + 1).toNat (by omega) (by omega) hf hs
    simp only [zero_add] at hl
    rw [hstep]
    unfold handleDraftClassPick classPick
    simp only [hpoll, if_true]
    simp only [List.getElem?_cons_zero, List.getElem?_cons_succ, Option.bind_eq_bind,
      Option.some_bind, List.map_cons, List.map_nil, hl]
    simp
  · intro hf
    have hl : pollLoop env [(env.heroes a).name, (env.heroes b).name, (env.heroes c).name]
        s.pollCalls 0 (env.MSG_CLASS_POLL_ERROR_RETRY_COUNT + 1).toNat
        = (false, (env.MSG_CLASS_POLL_ERROR_RETRY_COUNT + 1).toNat,
            (List.range (env.MSG_CLASS_POLL_ERROR_RETRY_COUNT + 1).toNat).flatMap
              (fun (j : Nat) =>
                pollFailure env
                  [(env.heroes a).name, (env.heroes b).name, (env.heroes c).name]
                  (j : Int))) := by
      rcases Nat.eq_zero_or_pos (env.MSG_CLASS_POLL_ERROR_RETRY_COUNT + 1).toNat with h0 | h0
      · rw [h0]
        rfl
      · have := pollLoop_all_fail env
          [(env.heroes a).name, (env.heroes b).name, (env.heroes c).name]
          (env.MSG_CLASS_POLL_ERROR_RETRY_COUNT + 1).toNat s.pollCalls 0 (by omega)
          (fun j hj => hf j (by omega))
        simpa only [zero_add] using this
    rw [hstep]
    unfold handleDraftClassPick classPick
    simp only [hpoll, if_true]
    simp only [List.getElem?_cons_zero, List.getElem?_cons_succ, Option.bind_eq_bind,
      Option.some_bind, List.map_cons, List.map_nil, hl]
    simp

/-- C16 at concrete inputs: with the service of `pollEnv` (first attempt fails, second
answers) the second attempt ends the loop; with the service of `demoEnv` (every attempt
fails, retry count 2) three attempts are made and the giveup message follows. -/
theorem C16_bounded_strawpoll_retry_witness :
    (armed pollState.deckInfo.state RECOGNIZER_DRAFT_CLASS_PICK = true
      ∧ armed pollState.internalState pollEnv.INTERNAL_STRAWPOLLING = true
      ∧ ∃ s1, applyResult pollEnv pollState (classPick 1 2 3)
          = some (s1,
              [Effect.message "!score -arena", Effect.message "!subon",
               Effect.createStrawpoll "streamer" ["", "", ""], Effect.message "poll error",
               Effect.createStrawpoll "streamer" ["", "", ""],
               Effect.message "streamer url",
               Effect.repeat_message "url" 5 25 7, Effect.messageDelayed "!suboff" 120]))
      ∧ ∃ s1, applyResult demoEnv pollState (classPick 1 2 3)
          = some (s1,
              [Effect.message "!score -arena", Effect.message "!subon",
               Effect.createStrawpoll "streamer" ["", "", ""], Effect.message "poll error",
               Effect.createStrawpoll "streamer" ["", "", ""], Effect.message "poll error",
               Effect.createStrawpoll "streamer" ["", "", ""], Effect.message "poll error",
               Effect.message "giveup"]) :=
  ⟨⟨by decide, by decide,
      (C16_bounded_strawpoll_retry pollEnv pollState 1 2 3 (by decide) (by decide)).1 1
        (by decide) (by intro j hj; interval_cases j; rfl) (by decide)⟩,
    (C16_bounded_strawpoll_retry demoEnv pollState 1 2 3 (by decide) (by decide)).2
      (fun _ _ => rfl)⟩

/-! ## C18: the game machine -/

theorem fireDraw_gameInfo (env : Env) (s : State) (r0 : Int) :
    (fireDraw env s r0).1.gameInfo = s.gameInfo := by
  unfold fireDraw
  simp only []
  split_ifs <;> rfl

theorem handleGameDraw_gameInfo (env : Env) (s s1 : State) (r : RecognitionResult)
    (e : List Effect) (h : handleGameDraw env s r = some (s1, e)) :
    s1.gameInfo = s.gameInfo := by
  unfold handleGameDraw at h
  simp only [Option.bind_eq_bind, Option.bind_eq_some] at h
  obtain ⟨r0, _, h⟩ := h
  split_ifs at h <;> simp only [Option.some.injEq] at h <;>
    have h1 := congrArg Prod.fst h <;> simp only [] at h1 <;> rw [← h1] <;>
    first
      | rfl
      | exact fireDraw_gameInfo _ _ _

/-- What one result does to `gameState`: nothing, or what one of the three game handlers
does when its kind is armed. -/
theorem applyResult_gameState (env : Env) (s s1 : State) (r : RecognitionResult)
    (e : List Effect) (h : applyResult env s r = some (s1, e)) :
    s1.gameInfo.state = s.gameInfo.state
      ∨ (armed s.gameInfo.state RECOGNIZER_GAME_CLASS_SHOW = true
          ∧ s1.gameInfo.state
            = disable (enable s.gameInfo.state RECOGNIZER_GAME_COIN) RECOGNIZER_GAME_CLASS_SHOW)
      ∨ (armed s.gameInfo.state RECOGNIZER_GAME_COIN = true
          ∧ s1.gameInfo.state
            = disable (enable (enable s.gameInfo.state RECOGNIZER_GAME_END)
                RECOGNIZER_GAME_CLASS_SHOW) RECOGNIZER_GAME_COIN)
      ∨ (armed s.gameInfo.state RECOGNIZER_GAME_END = true
          ∧ s1.gameInfo.state
            = disable (enable s.gameInfo.state RECOGNIZER_GAME_CLASS_SHOW)
                RECOGNIZER_GAME_END) := by
  unfold applyResult at h
  split_ifs at h with c1 c2 c3 c4 c5 c6 c7 c8 c9
  · exact Or.inl (by rw [(handleDraftClassPick_state env s s1 r e h).2.2.1])
  · exact Or.inl (by rw [(handleDraftCardPick_internalState env s s1 r e h).2])
  · exact Or.inl (by rw [(handleDraftCardChosen_state env s s1 r e h).2.2.1])
  · simp only [Bool.and_eq_true] at c4
    exact Or.inr (Or.inl ⟨c4.2, (handleGameClassShow_state env s s1 r e h).1⟩)
  · simp only [Bool.and_eq_true] at c5
    exact Or.inr (Or.inr (Or.inl ⟨c5.2, (handleGameCoin_state env s s1 r e h).1⟩))
  · simp only [Bool.and_eq_true] at c6
    exact Or.inr (Or.inr (Or.inr ⟨c6.2, (handleGameEnd_state env s s1 r e h).1⟩))
  · unfold handleGameDrawInit at h
    cases h
    exact Or.inl rfl
  · unfold handleGameDrawInit at h
    cases h
    exact Or.inl rfl
  · exact Or.inl (by rw [handleGameDraw_gameInfo env s s1 r e h])
  · cases h
    exact Or.inl rfl

/-- The invariant of `gameState`: `GAME_CLASS_SHOW` or `GAME_COIN` is armed and no kind
other than `GAME_CLASS_SHOW`, `GAME_COIN` and `GAME_END` is. -/
theorem applyResult_gameInvariant (env : Env) (s s1 : State) (r : RecognitionResult)
    (e : List Effect) (h : applyResult env s r = some (s1, e))
    (hone : armed s.gameInfo.state RECOGNIZER_GAME_CLASS_SHOW = true
      ∨ armed s.gameInfo.state RECOGNIZER_GAME_COIN = true)
    (hbits : ∀ j, armed s.gameInfo.state (kindBit j) = true → j = 3 ∨ j = 4 ∨ j = 5) :
    (armed s1.gameInfo.state RECOGNIZER_GAME_CLASS_SHOW = true
      ∨ armed s1.gameInfo.state RECOGNIZER_GAME_COIN = true)
    ∧ ∀ j, armed s1.gameInfo.state (kindBit j) = true → j = 3 ∨ j = 4 ∨ j = 5 := by
  rcases applyResult_gameState env s s1 r e h with h1 | ⟨_, h1⟩ | ⟨_, h1⟩ | ⟨_, h1⟩
  · rw [h1]
    exact ⟨hone, hbits⟩
  · rw [h1]
    refine ⟨Or.inr (by simp [RECOGNIZER_GAME_CLASS_SHOW, RECOGNIZER_GAME_COIN, armed_enable,
      armed_disable]), fun j hj => ?_⟩
    simp only [RECOGNIZER_GAME_CLASS_SHOW, RECOGNIZER_GAME_COIN, armed_enable, armed_disable,
      Bool.and_eq_true, Bool.or_eq_true, decide_eq_true_eq] at hj
    rcases hj.2 with hj | hj
    · omega
    · exact hbits j hj
  · rw [h1]
    refine ⟨Or.inl (by simp [RECOGNIZER_GAME_CLASS_SHOW, RECOGNIZER_GAME_COIN,
      RECOGNIZER_GAME_END, armed_enable, armed_disable]), fun j hj => ?_⟩
    simp only [RECOGNIZER_GAME_CLASS_SHOW, RECOGNIZER_GAME_COIN, RECOGNIZER_GAME_END,
      armed_enable, armed_disable,
      Bool.and_eq_true, Bool.or_eq_true, decide_eq_true_eq] at hj
    rcases hj.2 with hj | hj | hj
    · omega
    · omega
    · exact hbits j hj
  · rw [h1]
    refine ⟨Or.inl (by simp [RECOGNIZER_GAME_CLASS_SHOW, RECOGNIZER_GAME_COIN,
      RECOGNIZER_GAME_END, armed_enable, armed_disable]), fun j hj => ?_⟩
    simp only [RECOGNIZER_GAME_CLASS_SHOW, RECOGNIZER_GAME_COIN, RECOGNIZER_GAME_END,
      armed_enable, armed_disable,
      Bool.and_eq_true, Bool.or_eq_true, decide_eq_true_eq] at hj
    rcases hj.2 with hj | hj
    · omega
    · exact hbits j hj

theorem applyResults_gameInvariant (env : Env) (rs : List RecognitionResult) :
    ∀ (s s1 : State) (e : List Effect),
      applyResults env s rs = some (s1, e) →
      (armed s.gameInfo.state RECOGNIZER_GAME_CLASS_SHOW = true
        ∨ armed s.gameInfo.state RECOGNIZER_GAME_COIN = true) →
      (∀ j, armed s.gameInfo.state (kindBit j) = true → j = 3 ∨ j = 4 ∨ j = 5) →
      (armed s1.gameInfo.state RECOGNIZER_GAME_CLASS_SHOW = true
        ∨ armed s1.gameInfo.state RECOGNIZER_GAME_COIN = true)
      ∧ ∀ j, armed s1.gameInfo.state (kindBit j) = true → j = 3 ∨ j = 4 ∨ j = 5 := by
  induction rs with
  | nil =>
    intro s s1 e h hone hbits
    simp only [applyResults, Option.some.injEq, Prod.mk.injEq] at h
    rw [← h.1]
    exact ⟨hone, hbits⟩
  | cons r rest ih =>
    intro s s1 e h hone hbits
    rw [applyResults_cons] at h
    cases hstep : applyResult env s r with
    | none => simp [hstep] at h
    | some p =>
      obtain ⟨s2, e2⟩ := p
      simp only [hstep] at h
      cases hrest : applyResults env s2 rest with
      | none => simp [hrest] at h
      | some q =>
        obtain ⟨s3, e3⟩ := q
        simp only [hrest, Option.some.injEq, Prod.mk.injEq] at h
        obtain ⟨h2, hb2⟩ := applyResult_gameInvariant env s s2 r e2 hstep hone hbits
        rw [← h.1]
        exact ih s2 s3 e3 hrest h2 hb2

theorem frames_gameInvariant (env : Env) (fs : List (List RecognitionResult)) :
    ∀ (s s1 : State) (e : List Effect),
      frames env s fs = some (s1, e) →
      (armed s.gameInfo.state RECOGNIZER_GAME_CLASS_SHOW = true
        ∨ armed s.gameInfo.state RECOGNIZER_GAME_COIN = true) →
      (∀ j, armed s.gameInfo.state (kindBit j) = true → j = 3 ∨ j = 4 ∨ j = 5) →
      (armed s1.gameInfo.state RECOGNIZER_GAME_CLASS_SHOW = true
        ∨ armed s1.gameInfo.state RECOGNIZER_GAME_COIN = true)
      ∧ ∀ j, armed s1.gameInfo.state (kindBit j) = true → j = 3 ∨ j = 4 ∨ j = 5 := by
  induction fs with
  | nil =>
    intro s s1 e h hone hbits
    simp only [frames, Option.some.injEq, Prod.mk.injEq] at h
    rw [← h.1]
    exact ⟨hone, hbits⟩
  | cons f rest ih =>
    intro s s1 e h hone hbits
    rw [frames_cons] at h
    cases hstep : frame env s f with
    | none => simp [hstep] at h
    | some p =>
      obtain ⟨s2, e2⟩ := p
      simp only [hstep] at h
      cases hrest : frames env s2 rest with
      | none => simp [hrest] at h
      | some q =>
        obtain ⟨s3, e3⟩ := q
        simp only [hrest, Option.some.injEq, Prod.mk.injEq] at h
        obtain ⟨h2, hb2⟩ := applyResults_gameInvariant env f _ s2 e2 hstep hone hbits
        rw [← h.1]
        exact ih s2 s3 e3 hrest h2 hb2

theorem construct_gameInvariant (env : Env) :
    (armed (construct env).gameInfo.state RECOGNIZER_GAME_CLASS_SHOW = true
        ∨ armed (construct env).gameInfo.state RECOGNIZER_GAME_COIN = true)
      ∧ ∀ j, armed (construct env).gameInfo.state (kindBit j) = true
          → j = 3 ∨ j = 4 ∨ j = 5 := by
  refine ⟨Or.inl (by simp [construct, RECOGNIZER_GAME_CLASS_SHOW, RECOGNIZER_GAME_END,
    armed_enable]), fun j hj => ?_⟩
  simp only [construct, RECOGNIZER_GAME_CLASS_SHOW, RECOGNIZER_GAME_END, armed_enable,
    armed_zero, Bool.or_eq_true, decide_eq_true_eq, Bool.or_false] at hj
  omega

/-- C18, counterexample to the claim as stated: from the constructor's state a
`GAME_CLASS_SHOW` result and then a `GAME_END` result (the constructor arms `GAME_END`,
and its handler arms `GAME_CLASS_SHOW` without looking at `GAME_COIN`, lines 279-281)
are both applied, and afterwards `GAME_CLASS_SHOW` and `GAME_COIN` are both armed. -/
theorem C18_counterexample :
    (∃ s1 e, applyResults demoEnv (construct demoEnv) [gameClassShow 1 2, gameEnd 0]
        = some (s1, e)
      ∧ armed s1.gameInfo.state RECOGNIZER_GAME_CLASS_SHOW = true
      ∧ armed s1.gameInfo.state RECOGNIZER_GAME_COIN = true
      ∧ armed s1.gameInfo.state RECOGNIZER_GAME_END = false) := by
  exact ⟨_, _, rfl, by decide, by decide, by decide⟩

/-- C18, amended: in every state reached from the constructor's state by any finite
sequence of recognition results, and by any finite sequence of frames, at least one of
`GAME_CLASS_SHOW` and `GAME_COIN` is armed in `gameState`, and no kind other than
`GAME_CLASS_SHOW` (bit 3), `GAME_COIN` (bit 4) and `GAME_END` (bit 5) is armed in it. -/
theorem C18_game_machine_never_stalls (env : Env) :
    (∀ (rs : List RecognitionResult) (s1 : State) (e : List Effect),
      applyResults env (construct env) rs = some (s1, e) →
      (armed s1.gameInfo.state RECOGNIZER_GAME_CLASS_SHOW = true
        ∨ armed s1.gameInfo.state RECOGNIZER_GAME_COIN = true)
      ∧ ∀ j, armed s1.gameInfo.state (kindBit j) = true → j = 3 ∨ j = 4 ∨ j = 5)
    ∧ (∀ (fs : List (List RecognitionResult)) (s1 : State) (e : List Effect),
      frames env (construct env) fs = some (s1, e) →
      (armed s1.gameInfo.state RECOGNIZER_GAME_CLASS_SHOW = true
        ∨ armed s1.gameInfo.state RECOGNIZER_GAME_COIN = true)
      ∧ ∀ j, armed s1.gameInfo.state (kindBit j) = true → j = 3 ∨ j = 4 ∨ j = 5) :=
  ⟨fun rs s1 e h => applyResults_gameInvariant env rs _ s1 e h
      (construct_gameInvariant env).1 (construct_gameInvariant env).2,
    fun fs s1 e h => frames_gameInvariant env fs _ s1 e h
      (construct_gameInvariant env).1 (construct_gameInvariant env).2⟩

/-- C18 at a concrete run: a game seen from class show to its end. -/
theorem C18_game_machine_never_stalls_witness :
    applyResults demoEnv (construct demoEnv) [gameClassShow 1 2, gameCoin 0, gameEnd 0]
        = some (demoRun [gameClassShow 1 2, gameCoin 0, gameEnd 0], [])
      ∧ (armed (demoRun [gameClassShow 1 2, gameCoin 0, gameEnd 0]).gameInfo.state
            RECOGNIZER_GAME_CLASS_SHOW = true
          ∨ armed (demoRun [gameClassShow 1 2, gameCoin 0, gameEnd 0]).gameInfo.state
            RECOGNIZER_GAME_COIN = true) :=
  ⟨by rfl,
    ((C18_game_machine_never_stalls demoEnv).1
      [gameClassShow 1 2, gameCoin 0, gameEnd 0] _ [] (by rfl)).1⟩

/-! ## C19, C20: the draft handlers -/

/-- C19, the handlers on a failing input: from the constructor's state (no persisted
state) the well-formed results `DRAFT_CARD_PICK [1,2,3]`, `DRAFT_CLASS_PICK [4,5,6]` are
both applied and reach a state in which `DRAFT_CARD_CHOSEN` is armed while `setHistory`
is empty; in that state every `DRAFT_CARD_CHOSEN` result enters its handler and reads
`setHistory.back()` of the empty vector (line 235), out of bounds. -/
theorem C19_chosen_armed_without_offer (env : Env) :
    ∃ s e, applyResults env (construct env) [cardPick 1 2 3, classPick 4 5 6] = some (s, e)
      ∧ armed s.deckInfo.state RECOGNIZER_DRAFT_CARD_CHOSEN = true
      ∧ s.deck.setHistory.length = 0
      ∧ ∀ k, applyResult env s (cardChosen k) = none := by
  obtain ⟨s1, h1, _, hst1⟩ := draft_offer_step env (construct env) 1 2 3 rfl
    (by simp [construct_deckState, RECOGNIZER_DRAFT_CLASS_PICK, RECOGNIZER_DRAFT_CARD_PICK,
      armed_enable])
    (by simp [construct_deckState, RECOGNIZER_DRAFT_CLASS_PICK, RECOGNIZER_DRAFT_CARD_PICK,
      RECOGNIZER_DRAFT_CARD_CHOSEN, armed_enable, armed_zero])
    (Or.inl rfl)
  obtain ⟨s2, e2, h2, hdeck2, hst2, _, _⟩ := draft_class_step env s1 4 5 6
    (by simp [hst1, RECOGNIZER_DRAFT_CLASS_PICK, RECOGNIZER_DRAFT_CARD_CHOSEN, armed_enable])
  have hch : armed s2.deckInfo.state RECOGNIZER_DRAFT_CARD_CHOSEN = true := by
    simp [hst2, hst1, RECOGNIZER_DRAFT_CLASS_PICK, RECOGNIZER_DRAFT_CARD_PICK,
      RECOGNIZER_DRAFT_CARD_CHOSEN, armed_enable, armed_disable]
  have hset : s2.deck.setHistory = [] := by rw [hdeck2]; rfl
  refine ⟨s2, [] ++ (e2 ++ []), by simp [applyResults, h1, h2], hch, by rw [hset]; rfl,
    fun k => ?_⟩
  rw [applyResult_DRAFT_CARD_CHOSEN env s2 (cardChosen k) rfl, if_pos hch]
  exact handleDraftCardChosen_no_offer env s2 _ hset

theorem distinctOffers_chain (n : Nat) :
    List.Chain' (fun o p => o.1 ≠ p.1) (distinctOffers n) := by
  unfold distinctOffers
  rw [List.chain'_map]
  cases n with
  | zero => simp
  | succ m =>
    rw [List.chain'_range_succ]
    intro i _ h
    simp only [Prod.mk.injEq, Nat.cast_inj] at h
    omega

/-- C20, the handlers on a failing input: from the constructor's state (no persisted
state), for every database with `db.cards[k].id = k`: 29 offers, each new and each
followed by its pick, then a 30th offer, then a 31st offer different from the 30th
without a pick in between. All results are applied and nothing is sent; the 31st offer
takes the missed-pick branch (lines 221-224), which appends the unknown pick without the
completeness test, so `pickHistory` has exactly 30 entries while `DRAFT_CARD_PICK` is
still armed and no deck message was sent; a pick that follows is applied too, sends
nothing and leaves 31 entries in `pickHistory`. -/
theorem C20_missed_pick_overfills (env : Env) (hid : ∀ k, (env.cards k).id = k)
    (offers : List ((Int × Int × Int) × Int)) (o30 o31 : Int × Int × Int) (k : Int)
    (hlen : offers.length = 29)
    (hrange : ∀ o ∈ offers, 0 ≤ o.2 ∧ o.2 ≤ 2)
    (hchain : List.Chain' (fun o p => o.1 ≠ p.1) offers)
    (h30 : ∀ x, offers.getLast? = some x → x.1 ≠ o30)
    (h31 : o30 ≠ o31) (hk : 0 ≤ k ∧ k ≤ 2) :
    ∃ s3 s4,
      applyResults env (construct env)
          (draftResults offers ++ [cardPick o30.1 o30.2.1 o30.2.2,
            cardPick o31.1 o31.2.1 o31.2.2]) = some (s3, [])
        ∧ s3.deck.pickHistory.length = 30
        ∧ armed s3.deckInfo.state RECOGNIZER_DRAFT_CARD_PICK = true
        ∧ applyResult env s3 (cardChosen k) = some (s4, [])
        ∧ s4.deck.pickHistory.length = 31
        ∧ armed s4.deckInfo.state RECOGNIZER_DRAFT_CARD_PICK = true := by
  obtain ⟨s1, hrun, hset, hpicks, hpick, hchosen, hlast⟩ :=
    draft_run env hid offers (by omega) hrange hchain
  obtain ⟨x, hx⟩ : ∃ x, offers.getLast? = some x := by
    rcases List.eq_nil_or_concat offers with hnil | ⟨l0, y, hl⟩
    · rw [hnil] at hlen
      cases hlen
    · exact ⟨y, by simp [hl]⟩
  rw [hx] at hlast
  simp only [Option.map_some'] at hlast
  -- the 30th offer
  obtain ⟨s2, h2, hdeck2, hst2⟩ := draft_offer_step env s1 o30.1 o30.2.1 o30.2.2
    (by rw [hset, hpicks]) hpick hchosen
    (Or.inr ⟨_, hlast, triple_differs env hid o30 x.1 (h30 x hx)⟩)
  -- the 31st offer
  have hset2 : s2.deck.setHistory
      = s1.deck.setHistory
          ++ [CardSet.mk (env.cards o30.1) (env.cards o30.2.1) (env.cards o30.2.2)] := by
    rw [hdeck2]
    rfl
  have hpk2 : s2.deck.pickHistory = s1.deck.pickHistory := by
    rw [hdeck2]
    rfl
  have hpick2 : armed s2.deckInfo.state RECOGNIZER_DRAFT_CARD_PICK = true := by
    rw [hst2]
    simpa [RECOGNIZER_DRAFT_CLASS_PICK, RECOGNIZER_DRAFT_CARD_PICK,
      RECOGNIZER_DRAFT_CARD_CHOSEN, armed_enable] using hpick
  have hch2 : armed s2.deckInfo.state RECOGNIZER_DRAFT_CARD_CHOSEN = true := by
    rw [hst2]
    simp [RECOGNIZER_DRAFT_CLASS_PICK, RECOGNIZER_DRAFT_CARD_CHOSEN, armed_enable]
  have hd : (o31.1 != (CardSet.mk (env.cards o30.1) (env.cards o30.2.1)
        (env.cards o30.2.2)).first.id
      || o31.2.1 != (CardSet.mk (env.cards o30.1) (env.cards o30.2.1)
        (env.cards o30.2.2)).second.id
      || o31.2.2 != (CardSet.mk (env.cards o30.1) (env.cards o30.2.1)
        (env.cards o30.2.2)).third.id) = true := by
    simpa [bne_iff_ne, or_assoc] using triple_differs env hid o31 o30 h31
  have hmiss : (armed s2.deckInfo.state RECOGNIZER_DRAFT_CARD_CHOSEN
      && (s2.deck.setHistory.length + 1 == s2.deck.pickHistory.length + 2)) = true := by
    rw [hch2, hset2, hpk2]
    simp [hset, hpicks, hlen]
  have h3 : applyResult env s2 (cardPick o31.1 o31.2.1 o31.2.2)
      = some ({ s2 with
                deck := (s2.deck.addSet (env.cards o31.1) (env.cards o31.2.1)
                  (env.cards o31.2.2)).addUnknownPick
                deckInfo :=
                  { s2.deckInfo with
                    state := enable (enable s2.deckInfo.state RECOGNIZER_DRAFT_CLASS_PICK)
                      RECOGNIZER_DRAFT_CARD_CHOSEN } }, []) := by
    rw [applyResult_DRAFT_CARD_PICK env s2 _ rfl, if_pos hpick2]
    unfold cardPick
    rw [handleDraftCardPick_nonempty env s2 _ _ _ _ _ _ hset2, if_pos hd, if_pos hmiss]
  -- the pick after it
  obtain ⟨card, hcard⟩ := cardSet_card_of_range
    (CardSet.mk (env.cards o31.1) (env.cards o31.2.1) (env.cards o31.2.2)) k hk.1 hk.2
  obtain ⟨s4, h4, hdeck4, _, _, _, hpick4⟩ := draft_chosen_step env
    { s2 with
      deck := (s2.deck.addSet (env.cards o31.1) (env.cards o31.2.1)
        (env.cards o31.2.2)).addUnknownPick
      deckInfo :=
        { s2.deckInfo with
          state := enable (enable s2.deckInfo.state RECOGNIZER_DRAFT_CLASS_PICK)
            RECOGNIZER_DRAFT_CARD_CHOSEN } }
    k (CardSet.mk (env.cards o31.1) (env.cards o31.2.1) (env.cards o31.2.2)) card
    (by simp [RECOGNIZER_DRAFT_CLASS_PICK, RECOGNIZER_DRAFT_CARD_CHOSEN, armed_enable])
    (by simp [Deck.addSet, Deck.addUnknownPick]) hcard
  have hlen3 : ((s2.deck.addSet (env.cards o31.1) (env.cards o31.2.1)
      (env.cards o31.2.2)).addUnknownPick).pickHistory.length = 30 := by
    simp [Deck.addSet, Deck.addUnknownPick, hpk2, hpicks, hlen]
  refine ⟨{ s2 with
      deck := (s2.deck.addSet (env.cards o31.1) (env.cards o31.2.1)
        (env.cards o31.2.2)).addUnknownPick
      deckInfo :=
        { s2.deckInfo with
          state := enable (enable s2.deckInfo.state RECOGNIZER_DRAFT_CLASS_PICK)
            RECOGNIZER_DRAFT_CARD_CHOSEN } }, s4, ?_, hlen3, ?_, ?_, ?_, ?_⟩
  · rw [applyResults_append, hrun]
    simp only [applyResults_cons, h2, h3, applyResults]
    rfl
  · simpa [RECOGNIZER_DRAFT_CLASS_PICK, RECOGNIZER_DRAFT_CARD_PICK,
      RECOGNIZER_DRAFT_CARD_CHOSEN, armed_enable] using hpick2
  · rw [h4]
    simp only [hlen3]
    rfl
  · rw [hdeck4]
    simp only [Deck.addPickedCard, List.length_append, List.length_singleton, hlen3]
  · rw [hpick4]
    simp only [hlen3]
    rfl

/-- C20 at a concrete input: the 29 offers `(i, i, i)`, then the offers `(100, 100, 100)`
and `(200, 200, 200)`, then the pick of index 0, in `demoEnv`. -/
theorem C20_missed_pick_overfills_witness :
    (∀ k, (demoEnv.cards k).id = k)
      ∧ (distinctOffers 29).length = 29
      ∧ ∃ s3 s4,
        applyResults demoEnv (construct demoEnv)
            (draftResults (distinctOffers 29) ++ [cardPick 100 100 100, cardPick 200 200 200])
          = some (s3, [])
        ∧ s3.deck.pickHistory.length = 30
        ∧ armed s3.deckInfo.state RECOGNIZER_DRAFT_CARD_PICK = true
        ∧ applyResult demoEnv s3 (cardChosen 0) = some (s4, [])
        ∧ s4.deck.pickHistory.length = 31
        ∧ armed s4.deckInfo.state RECOGNIZER_DRAFT_CARD_PICK = true :=
  ⟨fun _ => rfl, by decide,
    C20_missed_pick_overfills demoEnv (fun _ => rfl) (distinctOffers 29)
      (100, 100, 100) (200, 200, 200) 0 (by decide) (by decide) (distinctOffers_chain 29)
      (by decide) (by decide) (by decide)⟩

/-! ## What a result leaves alone: `internalState` -/

theorem handleGameDraw_cases (env : Env) (s s1 : State) (r : RecognitionResult)
    (e : List Effect) (h : handleGameDraw env s r = some (s1, e)) :
    (∃ cc, s1 = { s with currentCard := cc } ∧ e = [])
      ∨ ∃ cc r0, (s1, e) = fireDraw env { s with currentCard := cc } r0 := by
  unfold handleGameDraw at h
  simp only [Option.bind_eq_bind, Option.bind_eq_some] at h
  obtain ⟨r0, _, h⟩ := h
  split_ifs at h <;> simp only [Option.some.injEq] at h <;>
    first
      | exact Or.inr ⟨_, r0, h.symm⟩
      | (simp only [Prod.mk.injEq] at h
         exact Or.inl ⟨_, h.1.symm, h.2.symm⟩)

theorem handleGameDraw_internalState (env : Env) (s s1 : State) (r : RecognitionResult)
    (e : List Effect) (h : handleGameDraw env s r = some (s1, e)) :
    s1.internalState = s.internalState := by
  rcases handleGameDraw_cases env s s1 r e h with ⟨cc, hs, _⟩ | ⟨cc, r0, hf⟩
  · rw [hs]
  · have h1 := congrArg Prod.fst hf
    simp only [] at h1
    rw [h1, (fireDraw_state env _ r0).2.2.2.2.2]

/-- No result changes `internalState`. -/
theorem applyResult_internalState (env : Env) (s s1 : State) (r : RecognitionResult)
    (e : List Effect) (h : applyResult env s r = some (s1, e)) :
    s1.internalState = s.internalState := by
  unfold applyResult at h
  split_ifs at h with c1 c2 c3 c4 c5 c6 c7 c8 c9
  · exact (handleDraftClassPick_state env s s1 r e h).2.2.2
  · exact (handleDraftCardPick_internalState env s s1 r e h).1
  · exact (handleDraftCardChosen_state env s s1 r e h).2.2.2
  · exact (handleGameClassShow_state env s s1 r e h).2.1
  · exact (handleGameCoin_state env s s1 r e h).2.1
  · exact (handleGameEnd_state env s s1 r e h).2.1
  · unfold handleGameDrawInit at h
    cases h
    rfl
  · unfold handleGameDrawInit at h
    cases h
    rfl
  · exact handleGameDraw_internalState env s s1 r e h
  · cases h
    rfl


/-! ## C13: the draw machine in the states the manager reaches -/

theorem constructLoaded_deck (env : Env) (file : StateFile) (rep : String)
    (hrep : file.data_deck = some rep) (hne : rep ≠ "") :
    (constructLoaded env (some file)).deck
        = env.fillFromInternalRepresentation Deck.empty rep
      ∧ (constructLoaded env (some file)).deckInfo.state = (construct env).deckInfo.state := by
  have hb : rep.isEmpty = false := (isEmpty_false_iff rep).mpr hne
  unfold constructLoaded
  simp only [loadState, hrep, Option.getD_some, hb, Bool.not_false, if_true]
  refine ⟨?_, ?_⟩ <;> first | rfl | trivial

/-- C2, the handler on a failing input. The constructor arms `DRAFT_CARD_PICK` (line 48)
and then loads the state file (line 57); the stored deck holds the deck composition, hero
class and ordered picks, and no offers. For every state file whose stored deck decodes, in
the empty deck, to a deck with at least one pick and no offer, the manager starts with
`DRAFT_CARD_PICK` armed, `setHistory` empty and `pickHistory` non-empty, and every
`DRAFT_CARD_PICK` result carrying three ids then fails the guard of line 213
(`pickHistory.size() == 0 && last == -1`) and reads `setHistory[last]` out of bounds at
line 216, where the claim has the triple appended as a new offer. -/
theorem C2_restored_picks_fault (env : Env) (file : StateFile) (rep : String)
    (hrep : file.data_deck = some rep) (hne : rep ≠ "")
    (hset : (env.fillFromInternalRepresentation Deck.empty rep).setHistory = [])
    (hpick : (env.fillFromInternalRepresentation Deck.empty rep).pickHistory ≠ []) :
    armed (constructLoaded env (some file)).deckInfo.state RECOGNIZER_DRAFT_CARD_PICK = true
      ∧ (constructLoaded env (some file)).deck.setHistory = []
      ∧ ∀ a b c : Int,
          applyResult env (constructLoaded env (some file)) (cardPick a b c) = none := by
  obtain ⟨hdeck, hst⟩ := constructLoaded_deck env file rep hrep hne
  have harm : armed (constructLoaded env (some file)).deckInfo.state
      RECOGNIZER_DRAFT_CARD_PICK = true := by
    rw [hst, construct_deckState]
    simp [RECOGNIZER_DRAFT_CLASS_PICK, RECOGNIZER_DRAFT_CARD_PICK, armed_enable]
  refine ⟨harm, by rw [hdeck]; exact hset, fun a b c => ?_⟩
  rw [applyResult_DRAFT_CARD_PICK env _ (cardPick a b c) rfl, if_pos harm]
  exact handleDraftCardPick_fault env _ _ a b c (by rw [hdeck]; exact hset)
    (by rw [hdeck]; exact hpick)

/-- C2 at a concrete input: `picksRepEnv` with the state file `onePickFile`, then the
result `DRAFT_CARD_PICK [1,2,3]`. -/
theorem C2_restored_picks_fault_witness :
    onePickFile.data_deck = some "u"
      ∧ (picksRepEnv.fillFromInternalRepresentation Deck.empty "u").setHistory = []
      ∧ (picksRepEnv.fillFromInternalRepresentation Deck.empty "u").pickHistory
          = [Pick.unknown]
      ∧ armed (constructLoaded picksRepEnv (some onePickFile)).deckInfo.state
          RECOGNIZER_DRAFT_CARD_PICK = true
      ∧ (constructLoaded picksRepEnv (some onePickFile)).deck.setHistory = []
      ∧ applyResult picksRepEnv (constructLoaded picksRepEnv (some onePickFile))
          (cardPick 1 2 3) = none :=
  ⟨rfl, rfl, rfl,
    (C2_restored_picks_fault picksRepEnv onePickFile "u" rfl (by decide) rfl
      (by decide)).1,
    (C2_restored_picks_fault picksRepEnv onePickFile "u" rfl (by decide) rfl
      (by decide)).2.1,
    (C2_restored_picks_fault picksRepEnv onePickFile "u" rfl (by decide) rfl
      (by decide)).2.2 1 2 3⟩

/-! ## C1: picks never outnumber offers -/

theorem deck_draw_noBuild (d : Deck) (c : Card) :
    (d.draw c false).1.pickHistory = d.pickHistory
      ∧ (d.draw c false).1.setHistory = d.setHistory := by
  simp [Deck.draw]

theorem initDrawLoop_noBuild (env : Env) (internalState : Nat)
    (hb : armed internalState env.INTERNAL_BUILDFROMDRAWS = false) (l : List Int) :
    ∀ (deck : Deck) (newCards : Bool),
      (initDrawLoop env internalState l deck newCards).1.pickHistory = deck.pickHistory
        ∧ (initDrawLoop env internalState l deck newCards).1.setHistory = deck.setHistory := by
  induction l with
  | nil => intro deck newCards; exact ⟨rfl, rfl⟩
  | cons id rest ih =>
    intro deck newCards
    simp only [initDrawLoop, hb]
    obtain ⟨h1, h2⟩ := ih (deck.draw (env.cards id) false).1
      (newCards || (deck.draw (env.cards id) false).2)
    rw [h1, h2]
    exact deck_draw_noBuild deck (env.cards id)

theorem fireDraw_noBuild (env : Env) (s : State) (r0 : Int)
    (hb : armed s.internalState env.INTERNAL_BUILDFROMDRAWS = false) :
    (fireDraw env s r0).1.deck.pickHistory = s.deck.pickHistory
      ∧ (fireDraw env s r0).1.deck.setHistory = s.deck.setHistory
      ∧ (fireDraw env s r0).1.deckInfo.state = s.deckInfo.state := by
  have hi := initDrawLoop_noBuild env s.internalState hb s.drawInfo.initialDraw s.deck false
  unfold fireDraw
  simp only [hb]
  split_ifs <;>
    simp only [(deck_draw_noBuild _ _).1, (deck_draw_noBuild _ _).2, hi.1, hi.2] <;>
    (refine ⟨?_, ?_, ?_⟩ <;> first | rfl | trivial)


/-- What the `DRAFT_CARD_PICK` handler does to the histories: nothing, or one offer more,
`DRAFT_CARD_CHOSEN` armed, and one pick more only if `DRAFT_CARD_CHOSEN` was armed and the
new offer is the second one without a pick. -/
theorem handleDraftCardPick_counts (env : Env) (s s1 : State) (r : RecognitionResult)
    (e : List Effect) (h : handleDraftCardPick env s r = some (s1, e)) :
    s1 = s
      ∨ (s1.deck.setHistory.length = s.deck.setHistory.length + 1
          ∧ armed s1.deckInfo.state RECOGNIZER_DRAFT_CARD_CHOSEN = true
          ∧ (s1.deck.pickHistory.length = s.deck.pickHistory.length
              ∨ (s1.deck.pickHistory.length = s.deck.pickHistory.length + 1
                  ∧ s.deck.setHistory.length + 1 = s.deck.pickHistory.length + 2))) := by
  unfold handleDraftCardPick at h
  simp only [Option.bind_eq_bind, Option.bind_eq_some] at h
  obtain ⟨isNew, _, h⟩ := h
  split at h
  · simp only [Option.bind_eq_some] at h
    obtain ⟨r0, _, r1, _, r2, _, h⟩ := h
    simp only [Option.some.injEq, Prod.mk.injEq] at h
    obtain ⟨hs, _⟩ := h
    right
    rw [← hs]
    refine ⟨?_, ?_, ?_⟩
    · simp only []
      split <;> simp [Deck.addSet, Deck.addUnknownPick]
    · simp [RECOGNIZER_DRAFT_CLASS_PICK, RECOGNIZER_DRAFT_CARD_CHOSEN, armed_enable]
    · simp only []
      split
      · rename_i hc
        right
        simp only [Bool.and_eq_true, beq_iff_eq, Deck.addSet, List.length_append,
          List.length_singleton] at hc
        exact ⟨by simp [Deck.addSet, Deck.addUnknownPick], hc.2⟩
      · left
        simp [Deck.addSet]
  · simp only [Option.some.injEq, Prod.mk.injEq] at h
    exact Or.inl h.1.symm

/-- What the `DRAFT_CARD_CHOSEN` handler does to the histories: there is a last offer, and
one pick is appended. -/
theorem handleDraftCardChosen_counts (env : Env) (s s1 : State) (r : RecognitionResult)
    (e : List Effect) (h : handleDraftCardChosen env s r = some (s1, e)) :
    s.deck.setHistory ≠ []
      ∧ s1.deck.setHistory = s.deck.setHistory
      ∧ s1.deck.pickHistory.length = s.deck.pickHistory.length + 1 := by
  unfold handleDraftCardChosen at h
  simp only [Option.bind_eq_bind, Option.bind_eq_some] at h
  obtain ⟨back, hback, _, _, _, _, h⟩ := h
  have hne : s.deck.setHistory ≠ [] := by
    intro hnil
    rw [hnil] at hback
    simp at hback
  split at h <;> cases h <;>
    exact ⟨hne, rfl, by simp [Deck.addPickedCard]⟩

theorem handleGame_deck (env : Env) (s s1 : State) (r : RecognitionResult) (e : List Effect)
    (h : handleGameClassShow env s r = some (s1, e)
      ∨ handleGameCoin env s r = some (s1, e)
      ∨ handleGameEnd env s r = some (s1, e)) :
    s1.deck.setHistory = s.deck.setHistory ∧ s1.deck.pickHistory = s.deck.pickHistory := by
  rcases h with h | h | h
  · unfold handleGameClassShow at h
    simp only [Option.bind_eq_bind, Option.bind_eq_some] at h
    obtain ⟨_, _, _, _, h⟩ := h
    split at h <;> cases h <;> exact ⟨rfl, rfl⟩
  · unfold handleGameCoin at h
    simp only [Option.bind_eq_bind, Option.bind_eq_some] at h
    obtain ⟨_, _, h⟩ := h
    cases h
    exact ⟨rfl, rfl⟩
  · unfold handleGameEnd at h
    simp only [Option.bind_eq_bind, Option.bind_eq_some] at h
    obtain ⟨_, _, h⟩ := h
    cases h
    exact ⟨rfl, rfl⟩

/-- One result keeps `picksWithinOffers`. -/
theorem applyResult_picksWithinOffers (env : Env) (s s1 : State) (r : RecognitionResult)
    (e : List Effect) (h : applyResult env s r = some (s1, e))
    (hinv : picksWithinOffers env s) : picksWithinOffers env s1 := by
  obtain ⟨hb, hle, hch⟩ := hinv
  have hb1 : armed s1.internalState env.INTERNAL_BUILDFROMDRAWS = false := by
    rw [applyResult_internalState env s s1 r e h]
    exact hb
  refine ⟨hb1, ?_⟩
  have hsame : s1.deck.setHistory = s.deck.setHistory →
      s1.deck.pickHistory = s.deck.pickHistory → s1.deckInfo.state = s.deckInfo.state →
      s1.deck.pickHistory.length ≤ s1.deck.setHistory.length
        ∧ (armed s1.deckInfo.state RECOGNIZER_DRAFT_CARD_CHOSEN = true →
            s1.deck.setHistory = [] ∨ s1.deck.pickHistory.length < s1.deck.setHistory.length) := by
    intro h1 h2 h3
    rw [h1, h2, h3]
    exact ⟨hle, hch⟩
  unfold applyResult at h
  split_ifs at h with c1 c2 c3 c4 c5 c6 c7 c8 c9
  · obtain ⟨_, hdeck, _, _⟩ := handleDraftClassPick_state env s s1 r e h
    rw [hdeck]
    exact ⟨le_refl _, fun _ => Or.inl rfl⟩
  · rcases handleDraftCardPick_counts env s s1 r e h with hs | ⟨hset, _, hp | ⟨hp, hmiss⟩⟩
    · rw [hs]
      exact ⟨hle, hch⟩
    · exact ⟨by omega, fun _ => Or.inr (by omega)⟩
    · exact ⟨by omega, fun _ => Or.inr (by omega)⟩
  · simp only [Bool.and_eq_true] at c3
    obtain ⟨hne, hset, hp⟩ := handleDraftCardChosen_counts env s s1 r e h
    have hlt : s.deck.pickHistory.length < s.deck.setHistory.length := by
      rcases hch c3.2 with h0 | h0
      · exact absurd h0 hne
      · exact h0
    have hoff := (handleDraftCardChosen_state env s s1 r e h).1
    rw [hset]
    exact ⟨by omega, fun hc => by rw [hoff] at hc; cases hc⟩
  · obtain ⟨h1, h2⟩ := handleGame_deck env s s1 r e (Or.inl h)
    exact hsame h1 h2 (by rw [(handleGameClassShow_state env s s1 r e h).2.2])
  · obtain ⟨h1, h2⟩ := handleGame_deck env s s1 r e (Or.inr (Or.inl h))
    exact hsame h1 h2 (by rw [(handleGameCoin_state env s s1 r e h).2.2])
  · obtain ⟨h1, h2⟩ := handleGame_deck env s s1 r e (Or.inr (Or.inr h))
    exact hsame h1 h2 (by rw [(handleGameEnd_state env s s1 r e h).2.2])
  · unfold handleGameDrawInit at h
    cases h
    exact ⟨hle, hch⟩
  · unfold handleGameDrawInit at h
    cases h
    exact ⟨hle, hch⟩
  · rcases handleGameDraw_cases env s s1 r e h with ⟨cc, hs, _⟩ | ⟨cc, r0, hf⟩
    · rw [hs]
      exact ⟨hle, hch⟩
    · have h1 := congrArg Prod.fst hf
      simp only [] at h1
      obtain ⟨hp, hset, hst⟩ := fireDraw_noBuild env { s with currentCard := cc } r0 hb
      rw [← h1] at hp hset hst
      exact hsame hset hp hst
  · cases h
    exact ⟨hle, hch⟩

theorem applyResults_picksWithinOffers (env : Env) (rs : List RecognitionResult) :
    ∀ (s s1 : State) (e : List Effect),
      applyResults env s rs = some (s1, e) → picksWithinOffers env s →
      picksWithinOffers env s1 := by
  induction rs with
  | nil =>
    intro s s1 e h hinv
    simp only [applyResults, Option.some.injEq, Prod.mk.injEq] at h
    rw [← h.1]
    exact hinv
  | cons r rest ih =>
    intro s s1 e h hinv
    rw [applyResults_cons] at h
    cases hstep : applyResult env s r with
    | none => simp [hstep] at h
    | some p =>
      obtain ⟨s2, e2⟩ := p
      simp only [hstep] at h
      cases hrest : applyResults env s2 rest with
      | none => simp [hrest] at h
      | some q =>
        obtain ⟨s3, e3⟩ := q
        simp only [hrest, Option.some.injEq, Prod.mk.injEq] at h
        rw [← h.1]
        exact ih s2 s3 e3 hrest (applyResult_picksWithinOffers env s s2 r e2 hstep hinv)

theorem frames_picksWithinOffers (env : Env) (fs : List (List RecognitionResult)) :
    ∀ (s s1 : State) (e : List Effect),
      frames env s fs = some (s1, e) → picksWithinOffers env s →
      picksWithinOffers env s1 := by
  induction fs with
  | nil =>
    intro s s1 e h hinv
    simp only [frames, Option.some.injEq, Prod.mk.injEq] at h
    rw [← h.1]
    exact hinv
  | cons f rest ih =>
    intro s s1 e h hinv
    rw [frames_cons] at h
    cases hstep : frame env s f with
    | none => simp [hstep] at h
    | some p =>
      obtain ⟨s2, e2⟩ := p
      simp only [hstep] at h
      cases hrest : frames env s2 rest with
      | none => simp [hrest] at h
      | some q =>
        obtain ⟨s3, e3⟩ := q
        simp only [hrest, Option.some.injEq, Prod.mk.injEq] at h
        rw [← h.1]
        exact ih s2 s3 e3 hrest (applyResults_picksWithinOffers env f _ s2 e2 hstep hinv)

theorem construct_picksWithinOffers (env : Env)
    (hbuild : armed (construct env).internalState env.INTERNAL_BUILDFROMDRAWS = false) :
    picksWithinOffers env (construct env) := by
  refine ⟨hbuild, le_refl _, fun _ => Or.inl rfl⟩

/-- C1: `BUILDFROMDRAWS` is off by default (the constructor sets `ENABLE_ALL` only). From
the state the constructor sets up when no persisted state is loaded, after every finite
sequence of recognition results of any kinds applied in order, and after every finite
sequence of frames, `|deck.pickHistory| <= |deck.setHistory|` holds; holding for every
sequence, it holds after every step of each. -/
theorem C1_picks_within_offers (env : Env)
    (hbuild : armed (construct env).internalState env.INTERNAL_BUILDFROMDRAWS = false) :
    (∀ (rs : List RecognitionResult) (s : State) (e : List Effect),
      applyResults env (construct env) rs = some (s, e) →
      s.deck.pickHistory.length ≤ s.deck.setHistory.length)
    ∧ (∀ (fs : List (List RecognitionResult)) (s : State) (e : List Effect),
      frames env (construct env) fs = some (s, e) →
      s.deck.pickHistory.length ≤ s.deck.setHistory.length) :=
  ⟨fun rs s e h => (applyResults_picksWithinOffers env rs _ s e h
      (construct_picksWithinOffers env hbuild)).2.1,
    fun fs s e h => (frames_picksWithinOffers env fs _ s e h
      (construct_picksWithinOffers env hbuild)).2.1⟩

/-- C1 at a concrete run: two offers with a missed pick between them, then a pick. -/
theorem C1_picks_within_offers_witness :
    armed (construct demoEnv).internalState demoEnv.INTERNAL_BUILDFROMDRAWS = false
      ∧ applyResults demoEnv (construct demoEnv)
            [cardPick 1 2 3, cardPick 4 5 6, cardChosen 0]
          = some (demoRun [cardPick 1 2 3, cardPick 4 5 6, cardChosen 0], [])
      ∧ (demoRun [cardPick 1 2 3, cardPick 4 5 6, cardChosen 0]).deck.pickHistory.length
          ≤ (demoRun [cardPick 1 2 3, cardPick 4 5 6, cardChosen 0]).deck.setHistory.length :=
  ⟨by decide, by rfl,
    (C1_picks_within_offers demoEnv (by decide)).1
      [cardPick 1 2 3, cardPick 4 5 6, cardChosen 0] _ [] (by rfl)⟩

end hs
